import Mathlib

/-!
# GRBL protocol client: a shallow embedding and its verified properties

The development follows `src/src/grbl/GrblController.cpp` and
`src/src/grbl/SerialPort.cpp`.

* A `std::string` is a list of bytes (`Str`), one `Char` per byte.
* A `double` is the exact rational it stands for (`Double`): finite values, no
  rounding to binary64, no infinities or NaNs. Where the range of binary64 decides
  what the code does (a stream extraction that fails, a conversion that throws), the
  range is part of the model.
* The serial device and the operating system behind an open descriptor are a
  script of answers (`rx`, `wr`) that the transport consumes; every transport
  operation is recorded in a log, and the steady clock is a counter of
  milliseconds advanced by the answers.
* The controller is a record of its member variables; every public operation
  is a function from a controller state to a result and the next state.
* The device paths of the operating system are a `Host`: the entries of `/dev`, a
  scripted device behind every path, and a log of the opens and closes. An open port
  holds the script of its device and gives back what is left when it is closed.
  Operations that open or close a port take the host and return the next one.
* The session lock is a boolean that an operation sets while it runs; every call of
  `emitEvent` records whether it was set. Operations follow one another: there is
  one thread.
-/

namespace crsdk_rest

/-! ## Strings -/

/-- A `std::string`: its bytes in order. -/
abbrev Str := List Char

/-- A `double`: the exact rational value it denotes (finite values only). -/
abbrev Double := Rat

/-- The value `std::string::npos` of type `size_t` (64 bits). -/
def npos : Nat := 2 ^ 64 - 1

/-- `s.find(pat)`: the index of the first occurrence of `pat` in `s`, `none` for `npos`. -/
def findStr (pat : Str) : Str → Option Nat
  | [] => if pat.isEmpty then some 0 else none
  | c :: cs => if pat.isPrefixOf (c :: cs) then some 0 else (findStr pat cs).map (· + 1)

/-- `s.find_first_of(set)`: the first index holding a byte of `set`. -/
def findFirstOf (set : Str) : Str → Option Nat
  | [] => none
  | c :: cs => if set.contains c then some 0 else (findFirstOf set cs).map (· + 1)

/-- `s.find_first_of(set, pos)`: the first index at or after `pos` holding a byte of `set`. -/
def findFirstOfFrom (set : Str) (s : Str) (pos : Nat) : Option Nat :=
  if s.length < pos then none else (findFirstOf set (s.drop pos)).map (· + pos)

/-- `s.find(c, pos)`: the first index at or after `pos` holding the byte `c`. -/
def findCharFrom (c : Char) (s : Str) (pos : Nat) : Option Nat :=
  findFirstOfFrom [c] s pos

/-- `s.find(c)`. -/
def findChar (c : Char) (s : Str) : Option Nat :=
  findCharFrom c s 0

/-- The test `s.find(pat) != std::string::npos`. -/
def containsStr (pat : Str) (s : Str) : Bool :=
  (findStr pat s).isSome

/-- The `size_t` difference `a - b` of two sizes below `2 ^ 64`, where `none` stands
for `npos`: the difference wraps around when `a` is the smaller. -/
def sizeSub (a : Option Nat) (b : Nat) : Nat :=
  match a with
  | some e => if b ≤ e then e - b else e + 2 ^ 64 - b
  | none => npos - b

/-- `s.substr(pos, count)` for `pos ≤ s.size()`, the only way the client calls it. -/
def substr (s : Str) (pos count : Nat) : Str :=
  (s.drop pos).take count

/-- `std::getline` over a whole text: the lines between newline bytes; a text that
ends with a newline has no empty last line, as the stream is at its end there. -/
def getlines : Str → List Str
  | [] => []
  | c :: cs =>
    if c = '\n' then [] :: getlines cs
    else
      match getlines cs with
      | [] => [[c]]
      | l :: ls => (c :: l) :: ls

/-- The C function `isspace` in the "C" locale. -/
def isSpace (c : Char) : Bool :=
  c = ' ' || c = '\t' || c = '\n' || c = '\x0b' || c = '\x0c' || c = '\r'

/-- The value of a run of decimal digits, most significant first. -/
def digitsVal (ds : Str) : Nat :=
  ds.foldl (fun acc d => 10 * acc + (d.toNat - 48)) 0

/-! ## Number formatting (`std::ostringstream`) -/

/-- Three decimal digits of a number below 1000. -/
def pad3 (n : Nat) : Str :=
  [Nat.digitChar (n / 100 % 10), Nat.digitChar (n / 10 % 10), Nat.digitChar (n % 10)]

/-- The thousandths of `|v|` rounded to the nearest integer, ties to even: the digits
`printf("%.3f")` prints for a finite value. -/
def roundMilli (v : Double) : Nat :=
  let a : Rat := |v| * 1000
  let fl : Nat := (Int.floor a).toNat
  let r : Rat := a - fl
  if 1 / 2 < r ∨ (r = 1 / 2 ∧ fl % 2 = 1) then fl + 1 else fl

/-- The text `stream << std::fixed << std::setprecision(3) << v` appends. -/
def fixed3 (v : Double) : Str :=
  (if v < 0 then ['-'] else []) ++ Nat.toDigits 10 (roundMilli v / 1000)
    ++ '.' :: pad3 (roundMilli v % 1000)

/-- The text `stream << n` appends for an `int`. -/
def intText (n : Int) : Str :=
  if n < 0 then '-' :: Nat.toDigits 10 n.natAbs else Nat.toDigits 10 n.natAbs

/-! ## Number scanning (`std::istringstream`, `sscanf`, `std::sto*`)

Decimal syntax only: a sign, integer digits, a point, fraction digits and a decimal
exponent. The spellings of infinities, NaNs and hexadecimal floats are not modelled,
and a scanned value is the exact number its text denotes. -/

/-- The C++ exceptions the conversions `std::stoi` and `std::stod` throw. -/
inductive Exc where
  | invalid_argument
  | out_of_range
deriving DecidableEq, Repr

deriving instance DecidableEq for Except

/-- What the floating-point scanner of the C and C++ libraries consumes: an optional
sign, the integer digits, an optional point with the fraction digits and, after at
least one digit, an optional exponent marker with its sign and digits. -/
structure NumTok where
  neg : Bool
  ip : Str
  fp : Str
  hasExp : Bool
  eneg : Bool
  ed : Str
  rest : Str
deriving DecidableEq, Repr

/-- The number a decimal text denotes: digits `ip.fp` times ten to the power `e`. -/
def decimalValue (neg : Bool) (ip fp : Str) (e : Int) : Double :=
  let m : Rat := (digitsVal (ip ++ fp) : Rat) * (10 : Rat) ^ (e - (fp.length : Int))
  if neg then -m else m

/-- An optional sign at the front: whether it is a minus, and the text after it. -/
def scanSign (s : Str) : Bool × Str :=
  match s with
  | c :: r => if c = '-' then (true, r) else if c = '+' then (false, r) else (false, s)
  | [] => (false, s)

/-- The optional exponent part: marker, optional sign, digits. -/
def scanExponent (haveDigits : Bool) (s : Str) : Bool × Bool × Str × Str :=
  match s with
  | c :: r =>
    if haveDigits && (c = 'e' || c = 'E') then
      (true, (scanSign r).1, (scanSign r).2.takeWhile Char.isDigit,
        (scanSign r).2.dropWhile Char.isDigit)
    else (false, false, [], s)
  | [] => (false, false, [], s)

/-- The optional fraction part: a point and the digits after it. -/
def scanFraction (s : Str) : Str × Str :=
  match s with
  | c :: r => if c = '.' then (r.takeWhile Char.isDigit, r.dropWhile Char.isDigit) else ([], s)
  | [] => ([], s)

/-- The scanner run on a text (after any leading white space has been skipped). -/
def scanNumber (s : Str) : NumTok :=
  let s1 := (scanSign s).2
  let ip := s1.takeWhile Char.isDigit
  let fr := scanFraction (s1.dropWhile Char.isDigit)
  let ex := scanExponent (!(ip ++ fr.1).isEmpty) fr.2
  { neg := (scanSign s).1, ip := ip, fp := fr.1, hasExp := ex.1, eneg := ex.2.1, ed := ex.2.2.1,
    rest := ex.2.2.2 }

/-- The value of a scanned token; an exponent marker without digits counts for nothing. -/
def NumTok.value (t : NumTok) : Double :=
  decimalValue t.neg t.ip t.fp
    (if t.ed.isEmpty then 0 else if t.eneg then -(digitsVal t.ed : Int) else (digitsVal t.ed : Int))

/-- The greatest finite value of binary64, `DBL_MAX`. -/
def dblMax : Double := 2 ^ 1024 - 2 ^ 971

/-- Whether the exact value `v` rounds to an infinity of binary64. -/
def overflowsDouble (v : Double) : Bool :=
  decide ((2 : Rat) ^ 1024 - 2 ^ 970 ≤ |v|)

/-- `stream >> d` for a `double` on a good stream: white space is skipped, the scanner
runs, and the extraction succeeds when the whole token converts to a finite value. The
result is the value stored into `d` and, when the extraction succeeded, the text left
in the stream; a failed extraction (`none`: the stream is left in its fail state)
stores zero, or the greatest finite value with the sign of the number on overflow. -/
def istreamDouble (s : Str) : Double × Option Str :=
  let t := scanNumber (s.dropWhile isSpace)
  if !(t.ip ++ t.fp).isEmpty && (!t.hasExp || !t.ed.isEmpty) then
    if overflowsDouble t.value then (if t.value < 0 then -dblMax else dblMax, none)
    else (t.value, some t.rest)
  else (0, none)

/-- `stream >> c` for a `char` on a good stream: white space is skipped and one byte read. -/
def istreamChar (s : Str) : Option (Char × Str) :=
  match s.dropWhile isSpace with
  | c :: r => some (c, r)
  | [] => none

/-- The directive `%lf` of `sscanf`: white space is skipped, the scanner runs, and the
directive matches when the token has a digit. A value beyond the range of binary64,
which the library stores as an infinity, is outside the model. -/
def scanfDouble (s : Str) : Option (Double × Str) :=
  let t := scanNumber (s.dropWhile isSpace)
  if !(t.ip ++ t.fp).isEmpty then some (t.value, t.rest) else none

/-- The conversion of a `long` to `int`: the low 32 bits, read as two's complement. -/
def toInt32 (n : Int) : Int :=
  (n + 2 ^ 31) % 2 ^ 32 - 2 ^ 31

/-- The value `strtol` returns for the exact integer `n`: clamped to the range of `long`. -/
def strtolClamp (n : Int) : Int :=
  max (-(2 ^ 63)) (min n (2 ^ 63 - 1))

/-- The directive `%d` of `sscanf`: white space, an optional sign and at least one digit;
the digits are converted by `strtol` and the `long` is stored into an `int`. -/
def scanfInt (s : Str) : Option (Int × Str) :=
  let sg := scanSign (s.dropWhile isSpace)
  let ds := sg.2.takeWhile Char.isDigit
  if ds.isEmpty then none
  else
    let n : Int := if sg.1 then -(digitsVal ds : Int) else (digitsVal ds : Int)
    some (toInt32 (strtolClamp n), sg.2.dropWhile Char.isDigit)

/-- The bytes `sscanf` sees from a `c_str()` pointer: up to the first NUL. -/
def cstr (s : Str) : Str :=
  s.takeWhile (fun c => c != '\x00')

/-- The call `sscanf(p, "%d,%d", &a, &b) == 2` and the two values. -/
def sscanf_d_d (s : Str) : Option (Int × Int) :=
  match scanfInt s with
  | some (a, ',' :: r) =>
    match scanfInt r with
    | some (b, _) => some (a, b)
    | none => none
  | _ => none

/-- The call `sscanf(p, "%d,%d,%d", &a, &b, &c) == 3` and the three values. -/
def sscanf_d_d_d (s : Str) : Option (Int × Int × Int) :=
  match scanfInt s with
  | some (a, ',' :: r) =>
    match scanfInt r with
    | some (b, ',' :: r2) =>
      match scanfInt r2 with
      | some (c, _) => some (a, b, c)
      | none => none
    | _ => none
  | _ => none

/-- The call `sscanf(p, "%lf,%lf", &a, &b) == 2` and the two values. -/
def sscanf_lf_lf (s : Str) : Option (Double × Double) :=
  match scanfDouble s with
  | some (a, ',' :: r) =>
    match scanfDouble r with
    | some (b, _) => some (a, b)
    | none => none
  | _ => none

/-- The call `std::stoi(s)`: `strtol` on the text, `invalid_argument` without a digit,
`out_of_range` when the value does not fit an `int`. -/
def stoi (s : Str) : Except Exc Int :=
  let sg := scanSign (s.dropWhile isSpace)
  let ds := sg.2.takeWhile Char.isDigit
  if ds.isEmpty then Except.error Exc.invalid_argument
  else
    let n : Int := if sg.1 then -(digitsVal ds : Int) else (digitsVal ds : Int)
    if n < -(2 ^ 31) ∨ 2 ^ 31 - 1 < n then Except.error Exc.out_of_range else Except.ok n

/-- Whether `strtod` reports `ERANGE` for the exact value `v`: the value rounds to an
infinity of binary64, or it is non-zero, below the least normal number and not a
multiple of the least subnormal one. -/
def strtodERange (v : Double) : Bool :=
  overflowsDouble v ||
    (decide (v ≠ 0) && decide (|v| * 2 ^ 1022 < 1) && decide ((|v| * 2 ^ 1074).den ≠ 1))

/-- The call `std::stod(s)`: `strtod` on the text, `invalid_argument` without a digit,
`out_of_range` when `strtod` reports `ERANGE`. -/
def stod (s : Str) : Except Exc Double :=
  let t := scanNumber (s.dropWhile isSpace)
  if (t.ip ++ t.fp).isEmpty then Except.error Exc.invalid_argument
  else if strtodERange t.value then Except.error Exc.out_of_range
  else Except.ok t.value

/-! ## Status frames (`GrblController::parseStatus`) -/

/-- The struct `GrblPosition`. -/
structure GrblPosition where
  x : Double := 0
  y : Double := 0
  z : Double := 0
deriving DecidableEq, Repr

/-- The struct `GrblStatus` with its default member initialisers. -/
structure GrblStatus where
  state : Str := []
  machinePos : GrblPosition := {}
  workPos : GrblPosition := {}
  feedRate : Double := 0
  spindleSpeed : Double := 0
  feedOverride : Int := 100
  rapidOverride : Int := 100
  spindleOverride : Int := 100
  inputPins : Str := []
  bufferPlannerAvail : Int := 0
  bufferRxAvail : Int := 0
deriving DecidableEq, Repr

/-- The statement `iss >> pos.x >> comma >> pos.y >> comma >> pos.z` over the text of a
segment, on a position whose members are still zero: each extraction runs only when
all the earlier ones succeeded, and the members not reached stay zero. -/
def readPosition (seg : Str) : GrblPosition :=
  let ex := istreamDouble seg
  match ex.2 with
  | none => { x := ex.1 }
  | some r1 =>
    match istreamChar r1 with
    | none => { x := ex.1 }
    | some (_, r2) =>
      let ey := istreamDouble r2
      match ey.2 with
      | none => { x := ex.1, y := ey.1 }
      | some r3 =>
        match istreamChar r3 with
        | none => { x := ex.1, y := ey.1 }
        | some (_, r4) => { x := ex.1, y := ey.1, z := (istreamDouble r4).1 }

/-- The method `GrblController::parseStatus`. -/
def GrblController.parseStatus (response : Str) : GrblStatus :=
  let status : GrblStatus := {}
  -- Extract state
  let stateEnd := findChar '|' response
  let status : GrblStatus :=
    if stateEnd.isSome && response.length > 1 then
      { status with state := substr response 1 (sizeSub stateEnd 1) }
    else status
  -- Parse MPos
  let status : GrblStatus :=
    match findStr "MPos:".toList response with
    | some i =>
      let mposStart := i + 5
      let mposEnd := findCharFrom '|' response mposStart
      { status with machinePos := readPosition (substr response mposStart (sizeSub mposEnd mposStart)) }
    | none => status
  -- Parse WPos
  let status : GrblStatus :=
    match findStr "WPos:".toList response with
    | some i =>
      let wposStart := i + 5
      let wposEnd :=
        match findCharFrom '|' response wposStart with
        | some e => some e
        | none => findCharFrom '>' response wposStart
      { status with workPos := readPosition (substr response wposStart (sizeSub wposEnd wposStart)) }
    | none => status
  -- Parse Bf (buffer)
  let status : GrblStatus :=
    match findStr "Bf:".toList response with
    | some i =>
      match sscanf_d_d (cstr (response.drop (i + 3))) with
      | some (p, r) => { status with bufferPlannerAvail := p, bufferRxAvail := r }
      | none => status
    | none => status
  -- Parse FS (feed/spindle)
  let status : GrblStatus :=
    match findStr "FS:".toList response with
    | some i =>
      match sscanf_lf_lf (cstr (response.drop (i + 3))) with
      | some (f, sp) => { status with feedRate := f, spindleSpeed := sp }
      | none => status
    | none => status
  -- Parse F (feed only, older format)
  let status : GrblStatus :=
    if status.feedRate = (0 : Double) then
      match findStr "|F:".toList response with
      | some i =>
        match scanfDouble (cstr (response.drop (i + 3))) with
        | some (f, _) => { status with feedRate := f }
        | none => status
      | none => status
    else status
  -- Parse Ov (overrides)
  let status : GrblStatus :=
    match findStr "Ov:".toList response with
    | some i =>
      match sscanf_d_d_d (cstr (response.drop (i + 3))) with
      | some (f, r, sp) => { status with feedOverride := f, rapidOverride := r, spindleOverride := sp }
      | none => status
    | none => status
  -- Parse Pn (input pins)
  let status : GrblStatus :=
    match findStr "Pn:".toList response with
    | some i =>
      let pnStart := i + 3
      let pnEnd := findFirstOfFrom "|>".toList response pnStart
      { status with inputPins := substr response pnStart (sizeSub pnEnd pnStart) }
    | none => status
  status

/-- The block `// Extract state` of `parseStatus`, on the status so far. -/
def stateBlock (response : Str) (status : GrblStatus) : GrblStatus :=
  let stateEnd := findChar '|' response
  if stateEnd.isSome && response.length > 1 then
    { status with state := substr response 1 (sizeSub stateEnd 1) }
  else status

/-- The block `// Parse MPos` of `parseStatus`, on the status so far. -/
def mposBlock (response : Str) (status : GrblStatus) : GrblStatus :=
  match findStr "MPos:".toList response with
  | some i =>
    let mposStart := i + 5
    let mposEnd := findCharFrom '|' response mposStart
    { status with machinePos := readPosition (substr response mposStart (sizeSub mposEnd mposStart)) }
  | none => status

/-- The block `// Parse WPos` of `parseStatus`, on the status so far. -/
def wposBlock (response : Str) (status : GrblStatus) : GrblStatus :=
  match findStr "WPos:".toList response with
  | some i =>
    let wposStart := i + 5
    let wposEnd :=
      match findCharFrom '|' response wposStart with
      | some e => some e
      | none => findCharFrom '>' response wposStart
    { status with workPos := readPosition (substr response wposStart (sizeSub wposEnd wposStart)) }
  | none => status

/-- The block `// Parse Bf (buffer)` of `parseStatus`, on the status so far. -/
def bfBlock (response : Str) (status : GrblStatus) : GrblStatus :=
  match findStr "Bf:".toList response with
  | some i =>
    match sscanf_d_d (cstr (response.drop (i + 3))) with
    | some (p, r) => { status with bufferPlannerAvail := p, bufferRxAvail := r }
    | none => status
  | none => status

/-- The block `// Parse FS (feed/spindle)` of `parseStatus`, on the status so far. -/
def fsBlock (response : Str) (status : GrblStatus) : GrblStatus :=
  match findStr "FS:".toList response with
  | some i =>
    match sscanf_lf_lf (cstr (response.drop (i + 3))) with
    | some (f, sp) => { status with feedRate := f, spindleSpeed := sp }
    | none => status
  | none => status

/-- The block `// Parse F (feed only, older format)` of `parseStatus`, on the status so
far. -/
def fBlock (response : Str) (status : GrblStatus) : GrblStatus :=
  if status.feedRate = (0 : Double) then
    match findStr "|F:".toList response with
    | some i =>
      match scanfDouble (cstr (response.drop (i + 3))) with
      | some (f, _) => { status with feedRate := f }
      | none => status
    | none => status
  else status

/-- The block `// Parse Ov (overrides)` of `parseStatus`, on the status so far. -/
def ovBlock (response : Str) (status : GrblStatus) : GrblStatus :=
  match findStr "Ov:".toList response with
  | some i =>
    match sscanf_d_d_d (cstr (response.drop (i + 3))) with
    | some (f, r, sp) => { status with feedOverride := f, rapidOverride := r, spindleOverride := sp }
    | none => status
  | none => status

/-- The block `// Parse Pn (input pins)` of `parseStatus`, on the status so far. -/
def pnBlock (response : Str) (status : GrblStatus) : GrblStatus :=
  match findStr "Pn:".toList response with
  | some i =>
    let pnStart := i + 3
    let pnEnd := findFirstOfFrom "|>".toList response pnStart
    { status with inputPins := substr response pnStart (sizeSub pnEnd pnStart) }
  | none => status

/-! ## Settings (`GrblController::parseSettings`) -/

/-- The struct `GrblSetting`. -/
structure GrblSetting where
  id : Int
  value : Double
  description : Str
deriving DecidableEq, Repr

/-- The static table of `GrblController::getSettingDescription`. -/
def settingDescriptions : List (Int × String) :=
  [ (0, "Step pulse time (microseconds)"),
    (1, "Step idle delay (milliseconds)"),
    (2, "Step pulse invert mask"),
    (3, "Step direction invert mask"),
    (4, "Invert step enable pin"),
    (5, "Invert limit pins"),
    (6, "Invert probe pin"),
    (10, "Status report options"),
    (11, "Junction deviation (mm)"),
    (12, "Arc tolerance (mm)"),
    (13, "Report in inches"),
    (20, "Soft limits enable"),
    (21, "Hard limits enable"),
    (22, "Homing cycle enable"),
    (23, "Homing direction invert mask"),
    (24, "Homing locate feed rate (mm/min)"),
    (25, "Homing search seek rate (mm/min)"),
    (26, "Homing switch debounce delay (ms)"),
    (27, "Homing switch pull-off distance (mm)"),
    (30, "Maximum spindle speed (RPM)"),
    (31, "Minimum spindle speed (RPM)"),
    (32, "Laser mode enable"),
    (100, "X-axis steps per millimeter"),
    (101, "Y-axis steps per millimeter"),
    (102, "Z-axis steps per millimeter"),
    (110, "X-axis maximum rate (mm/min)"),
    (111, "Y-axis maximum rate (mm/min)"),
    (112, "Z-axis maximum rate (mm/min)"),
    (120, "X-axis acceleration (mm/sec^2)"),
    (121, "Y-axis acceleration (mm/sec^2)"),
    (122, "Z-axis acceleration (mm/sec^2)"),
    (130, "X-axis maximum travel (mm)"),
    (131, "Y-axis maximum travel (mm)"),
    (132, "Z-axis maximum travel (mm)") ]

/-- The method `GrblController::getSettingDescription`. -/
def GrblController.getSettingDescription (id : Int) : Str :=
  match settingDescriptions.lookup id with
  | some d => d.toList
  | none => "Unknown setting".toList

/-- The character class `[0-9.]` of the settings pattern. -/
def isNumChar (c : Char) : Bool :=
  c.isDigit || c = '.'

/-- A match of the pattern `\$(\d+)=([0-9.]+)` that starts at the first byte of the
text: the two captured groups. Both repetitions are greedy, and giving back a digit
never helps, as the byte after a shorter run of digits is again a digit. -/
def matchSettingAt (s : Str) : Option (Str × Str) :=
  match s with
  | c :: r =>
    if c = '$' then
      let ds := r.takeWhile Char.isDigit
      if ds.isEmpty then none
      else
        match r.dropWhile Char.isDigit with
        | d :: r2 =>
          if d = '=' then
            let v := r2.takeWhile isNumChar
            if v.isEmpty then none else some (ds, v)
          else none
        | [] => none
    else none
  | [] => none

/-- The call `std::regex_search(line, match, settingRegex)`: the leftmost match. -/
def searchSetting : Str → Option (Str × Str)
  | [] => none
  | c :: cs =>
    match matchSettingAt (c :: cs) with
    | some m => some m
    | none => searchSetting cs

/-- The loop body of `parseSettings` on one line: nothing for a line without a match,
else the entry, or the exception a conversion throws. -/
def parseSettingLine (line : Str) : Except Exc (Option GrblSetting) :=
  match searchSetting line with
  | none => Except.ok none
  | some (g1, g2) =>
    match stoi g1 with
    | Except.error e => Except.error e
    | Except.ok id =>
      match stod g2 with
      | Except.error e => Except.error e
      | Except.ok v =>
        Except.ok (some { id := id, value := v, description := GrblController.getSettingDescription id })

/-- The loop of `parseSettings` over the lines, with the entries pushed so far. -/
def parseSettingLines : List Str → List GrblSetting → Except Exc (List GrblSetting)
  | [], settings => Except.ok settings
  | line :: rest, settings =>
    match parseSettingLine line with
    | Except.error e => Except.error e
    | Except.ok none => parseSettingLines rest settings
    | Except.ok (some entry) => parseSettingLines rest (settings ++ [entry])

/-- The method `GrblController::parseSettings`; `Except.error` is an exception that
leaves the method. -/
def GrblController.parseSettings (response : Str) : Except Exc (List GrblSetting) :=
  parseSettingLines (getlines response) []

/-! ## Transport (`SerialPort`) -/

/-- One answer of the device and the operating system to an iteration of a read loop.
`dt` is the time in milliseconds the iteration takes on the steady clock. -/
inductive RxEvent where
  /-- `select` reports data and `read` delivers the byte `c`. -/
  | byte (c : Char) (dt : Nat)
  /-- No byte is delivered: `select` returns zero or less, or `read` does. -/
  | quiet (dt : Nat)
deriving DecidableEq, Repr

/-- A system call the transport made on its descriptor, with what it passed and got. -/
inductive PortOp where
  | write (bytes : Str) (ret : Int)
  | drain
  | writeByte (b : Char) (ret : Int)
  | readLine (timeoutMs : Int) (line : Str)
  | readAll (timeoutMs : Int) (text : Str)
deriving DecidableEq, Repr

/-- A `SerialPort` object and the device behind its descriptor: `rx` holds the answers
to the coming read iterations (none left: the device stays silent), `wr` the return
values of the coming `::write` calls (none left: every byte is accepted), `clock` the
steady clock in milliseconds and `log` the operations made so far. -/
structure SerialPort where
  m_fd : Int
  m_device : Str
  rx : List RxEvent
  wr : List Int
  clock : Nat
  log : List PortOp
deriving DecidableEq, Repr

/-- The trailing carriage return of a finished line is dropped. -/
def stripCR (line : Str) : Str :=
  if line.getLast? = some '\r' then line.dropLast else line

/-- The loop of `SerialPort::readLine`: the bytes gathered so far and the milliseconds
elapsed since the call started; the result is the line, the answers left and the
elapsed time at the end. -/
def readLineLoop (timeoutMs : Int) : List RxEvent → Str → Nat → Str × List RxEvent × Nat
  | [], line, elapsed =>
    if timeoutMs ≤ (elapsed : Int) then (line, [], elapsed) else (line, [], timeoutMs.toNat)
  | ev :: rest, line, elapsed =>
    if timeoutMs ≤ (elapsed : Int) then (line, ev :: rest, elapsed)
    else
      match ev with
      | RxEvent.quiet dt => (line, rest, elapsed + dt)
      | RxEvent.byte c dt =>
        if c = '\n' then (stripCR line, rest, elapsed + dt)
        else readLineLoop timeoutMs rest (line ++ [c]) (elapsed + dt)

/-- The method `SerialPort::readLine`. -/
def SerialPort.readLine (p : SerialPort) (timeoutMs : Int) : Str × SerialPort :=
  if p.m_fd < 0 then ([], p)
  else
    let r := readLineLoop timeoutMs p.rx [] 0
    (r.1, { p with rx := r.2.1, clock := p.clock + r.2.2,
                   log := p.log ++ [PortOp.readLine timeoutMs r.1] })

/-- The method `SerialPort::write`. -/
def SerialPort.write (p : SerialPort) (data : Str) : Bool × SerialPort :=
  if p.m_fd < 0 then (false, p)
  else
    let toSend := if !data.isEmpty && data.getLast? != some '\n' then data ++ ['\n'] else data
    let written : Int := p.wr.headD toSend.length
    let p1 := { p with wr := p.wr.tail, log := p.log ++ [PortOp.write toSend written] }
    if written < 0 then (false, p1)
    else (written == (toSend.length : Int), { p1 with log := p1.log ++ [PortOp.drain] })

/-- The method `SerialPort::writeByte`. -/
def SerialPort.writeByte (p : SerialPort) (byte : Char) : Bool × SerialPort :=
  if p.m_fd < 0 then (false, p)
  else
    let written : Int := p.wr.headD 1
    (written == 1, { p with wr := p.wr.tail, log := p.log ++ [PortOp.writeByte byte written] })

/-- The bytes one `::read` of `readAll` delivers after a first byte: the bytes of the
coming answers that take no time (they are there already), as far as the buffer of
255 bytes has room; the count is the room left. -/
def takeChunk : Nat → List RxEvent → Str × List RxEvent
  | 0, rx => ([], rx)
  | _ + 1, [] => ([], [])
  | room + 1, RxEvent.byte c dt :: rest =>
    if dt = 0 then ((takeChunk room rest).1.cons c, (takeChunk room rest).2)
    else ([], RxEvent.byte c dt :: rest)
  | _ + 1, RxEvent.quiet dt :: rest => ([], RxEvent.quiet dt :: rest)

/-- The loop of `SerialPort::readAll`: the text gathered so far and the milliseconds
elapsed since the call started. The buffer is appended as a C string, so what follows
a NUL byte within one read is dropped. Every turn consumes an answer of the device;
the first argument bounds the turns. -/
def readAllLoop (timeoutMs : Int) : Nat → List RxEvent → Str → Nat → Str × List RxEvent × Nat
  | 0, rx, result, elapsed => (result, rx, elapsed)
  | _ + 1, [], result, elapsed =>
    if timeoutMs ≤ (elapsed : Int) then (result, [], elapsed) else (result, [], timeoutMs.toNat)
  | turns + 1, ev :: rest, result, elapsed =>
    if timeoutMs ≤ (elapsed : Int) then (result, ev :: rest, elapsed)
    else
      match ev with
      | RxEvent.quiet dt => (result, rest, elapsed + dt)
      | RxEvent.byte c dt =>
        let chunk := takeChunk 254 rest
        readAllLoop timeoutMs turns chunk.2 (result ++ cstr (c :: chunk.1)) (elapsed + dt)

/-- The method `SerialPort::readAll`. -/
def SerialPort.readAll (p : SerialPort) (timeoutMs : Int) : Str × SerialPort :=
  if p.m_fd < 0 then ([], p)
  else
    let r := readAllLoop timeoutMs (p.rx.length + 1) p.rx [] 0
    (r.1, { p with rx := r.2.1, clock := p.clock + r.2.2,
                   log := p.log ++ [PortOp.readAll timeoutMs r.1] })

/-- The call `std::this_thread::sleep_for` of a thread that holds the port: the steady
clock advances; the answers of the device are those to the reads that follow. -/
def SerialPort.sleepFor (p : SerialPort) (ms : Nat) : SerialPort :=
  { p with clock := p.clock + ms }

/-! ## Host (the devices behind the paths) -/

/-- A call on a device path that reached the operating system, and its outcome. -/
inductive HostOp where
  | open (device : Str) (baudRate : Int) (ok : Bool)
  | close (device : Str)
deriving DecidableEq, Repr

/-- The path a call was made on. -/
def HostOp.device : HostOp → Str
  | HostOp.open device _ _ => device
  | HostOp.close device => device

/-- The device behind a path: `opens` holds the outcomes of the coming attempts to open
and configure it (`::open` and `configurePort` must both succeed; none left: `present`
decides), `rx` and `wr` its answers to the reads and writes of whoever holds it open. -/
structure HostDevice where
  present : Bool
  opens : List Bool
  rx : List RxEvent
  wr : List Int
deriving DecidableEq, Repr

/-- The operating system as the transport sees it: the entries of the directory `/dev`
in the order `readdir` yields them (`none`: `opendir` fails), the device behind every
path (distinct paths name distinct devices) and the calls made so far. -/
structure Host where
  devDir : Option (List Str)
  dev : Str → HostDevice
  log : List HostOp

/-- The host with the device behind `device` replaced. -/
def Host.setDev (h : Host) (device : Str) (d : HostDevice) : Host :=
  { h with dev := fun q => if q = device then d else h.dev q }

/-- The constructor `SerialPort::SerialPort`: no descriptor. -/
def SerialPort.new : SerialPort :=
  { m_fd := -1, m_device := [], rx := [], wr := [], clock := 0, log := [] }

/-- The call `::close(m_fd)`: the device keeps the answers it has not given yet. -/
def SerialPort.sysClose (p : SerialPort) (h : Host) : Host :=
  { h.setDev p.m_device { h.dev p.m_device with rx := p.rx, wr := p.wr } with
    log := h.log ++ [HostOp.close p.m_device] }

/-- The method `SerialPort::open`. A descriptor is a small non-negative number; the
client only ever tests its sign. -/
def SerialPort.open (p : SerialPort) (h : Host) (device : Str) (baudRate : Int) :
    Bool × SerialPort × Host :=
  let h0 := if 0 ≤ p.m_fd then p.sysClose h else h
  let d := h0.dev device
  let ok := d.opens.headD d.present
  let h1 := { h0.setDev device { d with opens := d.opens.tail } with
              log := h0.log ++ [HostOp.open device baudRate ok] }
  if ok then
    (true, { p with m_fd := 3, m_device := device, rx := d.rx, wr := d.wr }, h1)
  else (false, { p with m_fd := -1 }, h1)

/-- The method `SerialPort::close`. -/
def SerialPort.close (p : SerialPort) (h : Host) : SerialPort × Host :=
  if 0 ≤ p.m_fd then ({ p with m_fd := -1, m_device := [] }, p.sysClose h)
  else (p, h)

/-- The end of a `SerialPort` object that a `unique_ptr` or a scope owned (`none`: the
pointer was empty): the destructor closes it. -/
def SerialPort.destroy (p : Option SerialPort) (h : Host) : Host :=
  match p with
  | some q => (q.close h).2
  | none => h

/-- The comparison `a < b` of two `std::string`s: bytewise, a proper start being less. -/
def strLess : Str → Str → Bool
  | [], [] => false
  | [], _ :: _ => true
  | _ :: _, [] => false
  | a :: as, b :: bs =>
    if a.toNat < b.toNat then true
    else if b.toNat < a.toNat then false
    else strLess as bs

/-- The relation `std::sort` orders by: `b` is not less than `a`. -/
def strLe (a b : Str) : Prop := strLess b a = false

instance (a b : Str) : Decidable (strLe a b) :=
  inferInstanceAs (Decidable (strLess b a = false))

/-- The method `SerialPort::listPorts`. -/
def SerialPort.listPorts (h : Host) : List Str :=
  match h.devDir with
  | none => []
  | some names =>
    let ports := (names.filter (fun name =>
      findStr "ttyUSB".toList name == some 0 || findStr "ttyACM".toList name == some 0)).map
        (fun name => "/dev/".toList ++ name)
    ports.insertionSort strLe

/-! ## Protocol client (`GrblController`) -/

/-- A value of an event payload. -/
inductive JsonVal where
  | str (s : Str)
  | int (n : Int)
  | num (d : Double)
deriving DecidableEq, Repr

/-- One call of `emitEvent`: the type tag, the payload, whether the session lock was
held by the calling operation at that moment, and the observer that was invoked
(`none` when no handler is registered). -/
structure Event where
  type : Str
  data : List (Str × JsonVal)
  lockHeld : Bool
  observer : Option Nat
deriving DecidableEq, Repr

/-- The member variables of `GrblController`, and the calls of `emitEvent` so far. -/
structure GrblController where
  m_serial : Option SerialPort
  m_port : Str
  m_version : Str
  m_connected : Bool
  m_mutex : Bool
  m_eventHandler : Option Nat
  events : List Event
deriving DecidableEq, Repr

/-- The method `GrblController::emitEvent`. -/
def GrblController.emitEvent (s : GrblController) (type : Str) (data : List (Str × JsonVal)) :
    GrblController :=
  { s with events := s.events ++
      [{ type := type, data := data, lockHeld := s.m_mutex, observer := s.m_eventHandler }] }

/-- Whether a line holds one of the tokens that end the wait. -/
def isTerminalLine (line : Str) : Bool :=
  containsStr "ok".toList line || containsStr "error".toList line || containsStr "ALARM".toList line

/-- The loop of `GrblController::waitForOk`, `startTime` being the clock value taken
before it. Every turn consumes an answer of the device or lets 500 ms pass, so the
turns of a wait on an open port are bounded; the first argument counts them down, and
when it is spent (a port that is not open returns at once from every read, and the
loop spins until the deadline) the wait ends as a timeout. -/
def waitForOkLoop (timeoutMs : Int) (startTime : Nat) : Nat → Str → SerialPort → Str × SerialPort
  | 0, result, p => (result ++ "timeout".toList, p)
  | turns + 1, result, p =>
    let r := p.readLine 500
    let line := r.1
    let result1 := if !line.isEmpty then result ++ line ++ ['\n'] else result
    if !line.isEmpty && isTerminalLine line then (result1, r.2)
    else if timeoutMs ≤ ((r.2.clock - startTime : Nat) : Int) then (result1 ++ "timeout".toList, r.2)
    else waitForOkLoop timeoutMs startTime turns result1 r.2

/-- The method `GrblController::waitForOk`, on the transport of the session. -/
def GrblController.waitForOk (timeoutMs : Int) (p : SerialPort) : Str × SerialPort :=
  waitForOkLoop timeoutMs p.clock (p.rx.length + timeoutMs.toNat / 500 + 2) [] p

/-- The common shape of the queued commands: under the session lock, nothing when the
session is not connected; else the command line is written, the wait runs, the result
is whether the response holds "ok", and on success the event (if any) is emitted. -/
def GrblController.queued (s : GrblController) (cmd : Str) (timeoutMs : Int)
    (event : Option (Str × List (Str × JsonVal))) : Bool × GrblController :=
  let s1 := { s with m_mutex := true }
  match s1.m_connected, s1.m_serial with
  | true, some p =>
    let w := p.write cmd
    let r := GrblController.waitForOk timeoutMs w.2
    let s2 := { s1 with m_serial := some r.2 }
    let success := containsStr "ok".toList r.1
    let s3 :=
      match success, event with
      | true, some (type, data) => s2.emitEvent type data
      | _, _ => s2
    (success, { s3 with m_mutex := false })
  | _, _ => (false, { s1 with m_mutex := false })

/-- The method `GrblController::home`. -/
def GrblController.home (s : GrblController) : Bool × GrblController :=
  s.queued "$H".toList 30000 (some ("grbl_homing_complete".toList, []))

/-- The command line `moveG0` builds in its string stream. -/
def moveG0Cmd (x y z : Option Double) : Str :=
  let cmd := "G0".toList
  let cmd := match x with
    | some v => cmd ++ " X".toList ++ fixed3 v
    | none => cmd
  let cmd := match y with
    | some v => cmd ++ " Y".toList ++ fixed3 v
    | none => cmd
  let cmd := match z with
    | some v => cmd ++ " Z".toList ++ fixed3 v
    | none => cmd
  cmd

/-- The method `GrblController::moveG0`. -/
def GrblController.moveG0 (s : GrblController) (x y z : Option Double) : Bool × GrblController :=
  s.queued (moveG0Cmd x y z) 5000 none

/-- The command line `moveG1` builds in its string stream. -/
def moveG1Cmd (x y z : Option Double) (feed : Double) : Str :=
  let cmd := "G1".toList
  let cmd := match x with
    | some v => cmd ++ " X".toList ++ fixed3 v
    | none => cmd
  let cmd := match y with
    | some v => cmd ++ " Y".toList ++ fixed3 v
    | none => cmd
  let cmd := match z with
    | some v => cmd ++ " Z".toList ++ fixed3 v
    | none => cmd
  cmd ++ " F".toList ++ fixed3 feed

/-- The method `GrblController::moveG1`. -/
def GrblController.moveG1 (s : GrblController) (x y z : Option Double) (feed : Double) :
    Bool × GrblController :=
  s.queued (moveG1Cmd x y z feed) 5000 none

/-- The command line `jog` builds in its string stream. -/
def jogCmd (axis : Char) (distance feed : Double) : Str :=
  "$J=G91 ".toList ++ [axis] ++ fixed3 distance ++ " F".toList ++ fixed3 feed

/-- The method `GrblController::jog`. -/
def GrblController.jog (s : GrblController) (axis : Char) (distance feed : Double) :
    Bool × GrblController :=
  s.queued (jogCmd axis distance feed) 5000 none

/-- The method `GrblController::unlock`. -/
def GrblController.unlock (s : GrblController) : Bool × GrblController :=
  s.queued "$X".toList 2000 (some ("grbl_unlocked".toList, []))

/-- The command line `setSetting` builds in its string stream. -/
def setSettingCmd (id : Int) (value : Double) : Str :=
  "$".toList ++ intText id ++ "=".toList ++ fixed3 value

/-- The method `GrblController::setSetting`. -/
def GrblController.setSetting (s : GrblController) (id : Int) (value : Double) :
    Bool × GrblController :=
  s.queued (setSettingCmd id value) 2000
    (some ("grbl_setting_changed".toList,
      [("id".toList, JsonVal.int id), ("value".toList, JsonVal.num value)]))

/-- The method `GrblController::getStatus`. -/
def GrblController.getStatus (s : GrblController) : GrblStatus × GrblController :=
  let s1 := { s with m_mutex := true }
  let status : GrblStatus := { state := "Unknown".toList }
  match s1.m_connected, s1.m_serial with
  | true, some p =>
    -- Send status query
    let w := p.writeByte '?'
    -- Read response
    let r := w.2.readLine 500
    let response := r.1
    let s2 := { s1 with m_serial := some r.2, m_mutex := false }
    if !response.isEmpty && response.head? = some '<' then
      (GrblController.parseStatus response, s2)
    else (status, s2)
  | _, _ => ({ status with state := "Disconnected".toList }, { s1 with m_mutex := false })

/-- The loop of `GrblController::getSettings` that gathers the listing, `startTime`
being the clock value taken before it. A turn that goes on has read a non-empty line,
so it has consumed an answer of the device: the first argument bounds the turns. -/
def getSettingsLoop (startTime : Nat) : Nat → Str → SerialPort → Str × SerialPort
  | 0, allResponse, p => (allResponse, p)
  | turns + 1, allResponse, p =>
    let r := p.readLine 500
    let line := r.1
    if line.isEmpty then (allResponse, r.2)
    else
      let allResponse1 := allResponse ++ line ++ ['\n']
      -- Check for ok or error
      if containsStr "ok".toList line then (allResponse1, r.2)
      else if 5000 < r.2.clock - startTime then (allResponse1, r.2)
      else getSettingsLoop startTime turns allResponse1 r.2

/-- The method `GrblController::getSettings`; `Except.error` is an exception that
leaves the method (the lock guard releases the lock on the way out). -/
def GrblController.getSettings (s : GrblController) :
    Except Exc (List GrblSetting) × GrblController :=
  let s1 := { s with m_mutex := true }
  match s1.m_connected, s1.m_serial with
  | true, some p =>
    let w := p.write "$$".toList
    let r := getSettingsLoop w.2.clock (w.2.rx.length + 1) [] w.2
    (GrblController.parseSettings r.1, { s1 with m_serial := some r.2, m_mutex := false })
  | _, _ => (Except.ok [], { s1 with m_mutex := false })

/-- The method `GrblController::sendCommand`. -/
def GrblController.sendCommand (s : GrblController) (cmd : Str) (timeoutMs : Int) :
    Str × GrblController :=
  let s1 := { s with m_mutex := true }
  match s1.m_connected, s1.m_serial with
  | true, some p =>
    let w := p.write cmd
    let r := GrblController.waitForOk timeoutMs w.2
    (r.1, { s1 with m_serial := some r.2, m_mutex := false })
  | _, _ => ("error: not connected".toList, { s1 with m_mutex := false })

/-- The method `GrblController::sendRealTimeCommand`. -/
def GrblController.sendRealTimeCommand (s : GrblController) (cmd : Char) :
    Bool × GrblController :=
  let s1 := { s with m_mutex := true }
  match s1.m_connected, s1.m_serial with
  | true, some p =>
    let w := p.writeByte cmd
    (w.1, { s1 with m_serial := some w.2, m_mutex := false })
  | _, _ => (false, { s1 with m_mutex := false })

/-- The method `GrblController::cancelJog`. -/
def GrblController.cancelJog (s : GrblController) : Bool × GrblController :=
  s.sendRealTimeCommand (Char.ofNat 0x85)

/-- The method `GrblController::feedHold`: the event is emitted after
`sendRealTimeCommand` has returned. -/
def GrblController.feedHold (s : GrblController) : Bool × GrblController :=
  let r := s.sendRealTimeCommand '!'
  if r.1 then (r.1, r.2.emitEvent "grbl_feed_hold".toList [])
  else (r.1, r.2)

/-- The method `GrblController::cycleStart`. -/
def GrblController.cycleStart (s : GrblController) : Bool × GrblController :=
  let r := s.sendRealTimeCommand '~'
  if r.1 then (r.1, r.2.emitEvent "grbl_cycle_start".toList [])
  else (r.1, r.2)

/-- The method `GrblController::softReset`. -/
def GrblController.softReset (s : GrblController) : Bool × GrblController :=
  let s1 := { s with m_mutex := true }
  match s1.m_connected, s1.m_serial with
  | true, some p =>
    let w := p.writeByte (Char.ofNat 0x18)
    -- Wait for GRBL to restart
    let p1 := w.2.sleepFor 2000
    -- Read any response
    let r := p1.readAll 500
    let s2 := { s1 with m_serial := some r.2 }
    let s3 := s2.emitEvent "grbl_reset".toList []
    (true, { s3 with m_mutex := false })
  | _, _ => (false, { s1 with m_mutex := false })

/-- The method `GrblController::setEventHandler` (`none`: an empty function object). -/
def GrblController.setEventHandler (s : GrblController) (handler : Option Nat) :
    GrblController :=
  let s1 := { s with m_mutex := true }
  { s1 with m_eventHandler := handler, m_mutex := false }

/-- The loop that extracts the version line: the first line of the response that holds
"Grbl" is stored; `version` is the member as it stands when no line does. -/
def versionLine : List Str → Str → Str
  | [], version => version
  | line :: rest, version =>
    if containsStr "Grbl".toList line then line else versionLine rest version

/-- The loop of `GrblController::autoDetectPort` over the ports that are left. -/
def autoDetectLoop (baudRate : Int) : List Str → GrblController → Host →
    Bool × GrblController × Host
  | [], s, h => (false, s, h)
  | port :: rest, s, h =>
    let o := SerialPort.new.open h port baudRate
    if !o.1 then autoDetectLoop baudRate rest s (SerialPort.destroy (some o.2.1) o.2.2)
    else
      -- Send soft reset
      let w := o.2.1.writeByte (Char.ofNat 0x18)
      let p1 := w.2.sleepFor 2000
      -- Read response
      let r := p1.readAll 1000
      let response := r.1
      let c := r.2.close o.2.2
      let h1 := SerialPort.destroy (some c.1) c.2
      if containsStr "Grbl".toList response then
        -- Now open with our member serial
        let s1 := { s with m_mutex := true }
        let h2 := SerialPort.destroy s1.m_serial h1
        let o2 := SerialPort.new.open h2 port baudRate
        if !o2.1 then
          autoDetectLoop baudRate rest { s1 with m_serial := none, m_mutex := false }
            (SerialPort.destroy (some o2.2.1) o2.2.2)
        else
          let s2 := { s1 with m_serial := some o2.2.1, m_port := port }
          -- Extract version
          let s3 := { s2 with m_version := versionLine (getlines response) s2.m_version,
                              m_connected := true }
          let s4 := s3.emitEvent "grbl_connected".toList
            [("port".toList, JsonVal.str s3.m_port), ("version".toList, JsonVal.str s3.m_version)]
          (true, { s4 with m_mutex := false }, o2.2.2)
      else autoDetectLoop baudRate rest s h1

/-- The method `GrblController::autoDetectPort`. -/
def GrblController.autoDetectPort (s : GrblController) (h : Host) (baudRate : Int) :
    Bool × GrblController × Host :=
  autoDetectLoop baudRate (SerialPort.listPorts h) s h

/-- The method `GrblController::connect`. -/
def GrblController.connect (s : GrblController) (h : Host) (port : Str) (baudRate : Int) :
    Bool × GrblController × Host :=
  let s1 := { s with m_mutex := true }
  if s1.m_connected then (true, { s1 with m_mutex := false }, h)
  else
    let h1 := SerialPort.destroy s1.m_serial h
    let s2 := { s1 with m_serial := some SerialPort.new }
    -- Auto-detect or use specified port
    let targetPort := port
    if targetPort.isEmpty then
      -- Release lock temporarily for auto-detect
      let found := GrblController.autoDetectPort { s2 with m_mutex := false } h1 baudRate
      let s3 := { found.2.1 with m_mutex := true }
      if !found.1 then
        (false, { s3 with m_serial := none, m_mutex := false },
          SerialPort.destroy s3.m_serial found.2.2)
      else (true, { s3 with m_mutex := false }, found.2.2)
    else
      -- Connect to specified port
      let o := SerialPort.new.open h1 targetPort baudRate
      if !o.1 then
        (false, { s2 with m_serial := none, m_mutex := false },
          SerialPort.destroy (some o.2.1) o.2.2)
      else
        let s3 := { s2 with m_port := targetPort }
        -- Send soft reset and wait for GRBL banner
        let w := o.2.1.writeByte (Char.ofNat 0x18)
        let p1 := w.2.sleepFor 2000
        -- Read banner
        let r := p1.readAll 1000
        let response := r.1
        -- Look for "Grbl" in response
        if containsStr "Grbl".toList response then
          -- Extract version line
          let s4 := { s3 with m_serial := some r.2,
                              m_version := versionLine (getlines response) s3.m_version,
                              m_connected := true }
          let s5 := s4.emitEvent "grbl_connected".toList
            [("port".toList, JsonVal.str s4.m_port), ("version".toList, JsonVal.str s4.m_version)]
          (true, { s5 with m_mutex := false }, o.2.2)
        else
          let c := r.2.close o.2.2
          (false, { s3 with m_serial := none, m_mutex := false },
            SerialPort.destroy (some c.1) c.2)

/-- The method `GrblController::disconnect`. -/
def GrblController.disconnect (s : GrblController) (h : Host) : GrblController × Host :=
  let s1 := { s with m_mutex := true }
  match s1.m_serial, s1.m_connected with
  | some p, true =>
    let c := p.close h
    let s2 := { s1 with m_serial := none, m_connected := false }
    let s3 := s2.emitEvent "grbl_disconnected".toList [("port".toList, JsonVal.str s2.m_port)]
    ({ s3 with m_port := [], m_version := [], m_mutex := false },
      SerialPort.destroy (some c.1) c.2)
  | _, _ => ({ s1 with m_mutex := false }, h)

/-- The session as the constructor leaves it: the default member initialisers. -/
def GrblController.new : GrblController :=
  { m_serial := none, m_port := [], m_version := [], m_connected := false,
    m_mutex := false, m_eventHandler := none, events := [] }

/-- A call of a public method of the session, with its arguments. -/
inductive Call where
  | listPorts
  | connect (port : Str) (baudRate : Int)
  | disconnect
  | getPort
  | getVersion
  | getStatus
  | getStatusJson
  | getState
  | home
  | moveG0 (x y z : Option Double)
  | moveG1 (x y z : Option Double) (feed : Double)
  | jog (axis : Char) (distance feed : Double)
  | cancelJog
  | feedHold
  | cycleStart
  | softReset
  | unlock
  | getSettings
  | getSettingsJson
  | setSetting (id : Int) (value : Double)
  | sendCommand (cmd : Str) (timeoutMs : Int)
  | sendRealTimeCommand (cmd : Char)
  | setEventHandler (handler : Option Nat)

/-- The session and the host after a call has returned (or has raised). -/
def Call.run (c : Call) (s : GrblController) (h : Host) : GrblController × Host :=
  match c with
  | Call.listPorts => (s, h)
  | Call.connect port baudRate => (s.connect h port baudRate).2
  | Call.disconnect => s.disconnect h
  | Call.getPort => ({ s with m_mutex := false }, h)
  | Call.getVersion => ({ s with m_mutex := false }, h)
  | Call.getStatus => ((s.getStatus).2, h)
  | Call.getStatusJson => ((s.getStatus).2, h)
  | Call.getState => ((s.getStatus).2, h)
  | Call.home => ((s.home).2, h)
  | Call.moveG0 x y z => ((s.moveG0 x y z).2, h)
  | Call.moveG1 x y z feed => ((s.moveG1 x y z feed).2, h)
  | Call.jog axis distance feed => ((s.jog axis distance feed).2, h)
  | Call.cancelJog => ((s.cancelJog).2, h)
  | Call.feedHold => ((s.feedHold).2, h)
  | Call.cycleStart => ((s.cycleStart).2, h)
  | Call.softReset => ((s.softReset).2, h)
  | Call.unlock => ((s.unlock).2, h)
  | Call.getSettings => ((s.getSettings).2, h)
  | Call.getSettingsJson => ((s.getSettings).2, h)
  | Call.setSetting id value => ((s.setSetting id value).2, h)
  | Call.sendCommand cmd timeoutMs => ((s.sendCommand cmd timeoutMs).2, h)
  | Call.sendRealTimeCommand cmd => ((s.sendRealTimeCommand cmd).2, h)
  | Call.setEventHandler handler => (s.setEventHandler handler, h)

/-- The sessions and hosts a sequence of calls leads to from the initial state, on any
host. -/
inductive Reachable : GrblController → Host → Prop where
  | init (h : Host) : Reachable GrblController.new h
  | call (c : Call) (s : GrblController) (h : Host) :
      Reachable s h → Reachable (c.run s h).1 (c.run s h).2

/-! ## Reading the log -/

/-- The lines `readLine` returned, in order, as a stretch of the log records them. -/
def linesRead : List PortOp → List Str
  | [] => []
  | PortOp.readLine _ line :: ops => line :: linesRead ops
  | _ :: ops => linesRead ops

/-- The text a wait gathers from the lines it read: every non-empty line, each followed
by a newline. -/
def gathered : List Str → Str
  | [] => []
  | l :: ls => if l.isEmpty then gathered ls else l ++ '\n' :: gathered ls

/-! ## Notions of the specification -/

/-- Fixed notation with three decimals: an optional minus sign, at least one integer
digit, a point and exactly three digits. -/
def IsFixed3 (t : Str) : Prop :=
  ∃ sign ip d1 d2 d3, t = sign ++ ip ++ ['.', d1, d2, d3] ∧ (sign = [] ∨ sign = ['-']) ∧
    ip ≠ [] ∧ (∀ c ∈ ip, c.isDigit = true) ∧
    d1.isDigit = true ∧ d2.isDigit = true ∧ d3.isDigit = true

/-- One optional axis word of a motion line, as the specification words it: a blank,
the axis letter and the value for a supplied axis, nothing for an omitted one. -/
def axisWord (letter : Char) (v : Option Double) : Str :=
  match v with
  | some d => ' ' :: letter :: fixed3 d
  | none => []

/-- A decimal number as a status frame spells it: an optional minus sign, the integer
digits and, when there are fraction digits, a point and those digits. -/
structure Decimal where
  neg : Bool
  ip : Str
  fp : Str
deriving DecidableEq, Repr

/-- The spelling is well formed: at least one integer digit, and digits only. -/
def Decimal.WF (d : Decimal) : Prop :=
  d.ip ≠ [] ∧ d.ip.all Char.isDigit = true ∧ d.fp.all Char.isDigit = true

instance (d : Decimal) : Decidable d.WF := by
  unfold Decimal.WF
  infer_instance

/-- The text of a decimal number. -/
def Decimal.text (d : Decimal) : Str :=
  (if d.neg then ['-'] else []) ++ (d.ip ++ (if d.fp.isEmpty then [] else '.' :: d.fp))

/-- The number a decimal spelling denotes. -/
def Decimal.value (d : Decimal) : Double :=
  decimalValue d.neg d.ip d.fp 0

/-- The number is within the range of binary64: it does not round to an infinity. -/
def Decimal.InRange (d : Decimal) : Prop :=
  overflowsDouble d.value = false

instance (d : Decimal) : Decidable d.InRange := by
  unfold Decimal.InRange
  infer_instance

/-- An integer as a status frame spells it: an optional minus sign and digits. -/
structure Numeral where
  neg : Bool
  digits : Str
deriving DecidableEq, Repr

/-- The spelling is well formed: at least one digit, and digits only. -/
def Numeral.WF (n : Numeral) : Prop :=
  n.digits ≠ [] ∧ n.digits.all Char.isDigit = true

instance (n : Numeral) : Decidable n.WF := by
  unfold Numeral.WF
  infer_instance

/-- The text of an integer. -/
def Numeral.text (n : Numeral) : Str :=
  (if n.neg then ['-'] else []) ++ n.digits

/-- The integer a spelling denotes. -/
def Numeral.value (n : Numeral) : Int :=
  if n.neg then -(digitsVal n.digits : Int) else (digitsVal n.digits : Int)

/-- The integer fits the type `int` (32 bits). -/
def Numeral.FitsInt (n : Numeral) : Prop :=
  -(2 ^ 31) ≤ n.value ∧ n.value ≤ 2 ^ 31 - 1

instance (n : Numeral) : Decidable n.FitsInt := by
  unfold Numeral.FitsInt
  infer_instance

/-- The status frame `<S|MPos:x,y,z|WPos:u,v,w|Bf:p,r|FS:f,s|Ov:a,b,c|Pn:P>`. -/
def statusFrame (S : Str) (x y z u v w : Decimal) (p r : Numeral) (f s : Decimal)
    (a b c : Numeral) (P : Str) : Str :=
  "<".toList ++ S ++ "|MPos:".toList ++ x.text ++ ",".toList ++ y.text ++ ",".toList ++ z.text
    ++ "|WPos:".toList ++ u.text ++ ",".toList ++ v.text ++ ",".toList ++ w.text
    ++ "|Bf:".toList ++ p.text ++ ",".toList ++ r.text
    ++ "|FS:".toList ++ f.text ++ ",".toList ++ s.text
    ++ "|Ov:".toList ++ a.text ++ ",".toList ++ b.text ++ ",".toList ++ c.text
    ++ "|Pn:".toList ++ P ++ ">".toList

/-- The text does not continue a number: it is empty or starts with a byte that is
no digit, no point and no exponent marker. -/
def EndsNumber (tail : Str) : Prop :=
  ∀ c, tail.head? = some c → c.isDigit = false ∧ c ≠ '.' ∧ c ≠ 'e' ∧ c ≠ 'E'

/-- The first occurrence of `pat` in `s` is at index `i`, and `post` is the text after it. -/
def FoundAt (pat s : Str) (i : Nat) (post : Str) : Prop :=
  findStr pat s = some i ∧ i + pat.length ≤ s.length ∧ s.drop (i + pat.length) = post

/-- The line holds the settings pattern after `pre`: a dollar sign, the digits `ds`, an
equals sign and the run `v` of digits and points, which ends where `post` starts. -/
def SettingAt (line pre ds v post : Str) : Prop :=
  line = pre ++ '$' :: (ds ++ '=' :: (v ++ post)) ∧
  ds ≠ [] ∧ ds.all Char.isDigit = true ∧ v ≠ [] ∧ v.all isNumChar = true ∧
  (∀ c, post.head? = some c → isNumChar c = false)

/-- The line contains the settings pattern. -/
def HasSetting (line : Str) : Prop :=
  ∃ pre ds v post, SettingAt line pre ds v post

/-- The leftmost place where the line holds the settings pattern. -/
def LeftmostSetting (line pre ds v post : Str) : Prop :=
  SettingAt line pre ds v post ∧
  ∀ pre2 ds2 v2 post2, SettingAt line pre2 ds2 v2 post2 → pre.length ≤ pre2.length

/-- The entry of a line: the id and the value of the leftmost occurrence of the pattern,
and the description the table gives for the id ("Unknown setting" without one). -/
def EntryOf (e : GrblSetting) (line : Str) : Prop :=
  ∃ pre ds v post, LeftmostSetting line pre ds v post ∧ e.id = (digitsVal ds : Int) ∧
    stod v = Except.ok e.value ∧
    e.description = ((settingDescriptions.lookup e.id).map String.toList).getD
      "Unknown setting".toList

/-- The entries of a list of lines: in line order, one entry for each line that
contains the pattern and none for any other line. -/
inductive Parsed : List Str → List GrblSetting → Prop where
  | nil : Parsed [] []
  | skip (line : Str) (lines : List Str) (entries : List GrblSetting) :
      ¬ HasSetting line → Parsed lines entries → Parsed (line :: lines) entries
  | take (line : Str) (lines : List Str) (e : GrblSetting) (entries : List GrblSetting) :
      EntryOf e line → Parsed lines entries → Parsed (line :: lines) (e :: entries)

/-- The session owns a transport and that transport is open. -/
def OwnsOpenTransport (s : GrblController) : Prop :=
  ∃ p, s.m_serial = some p ∧ 0 ≤ p.m_fd

/-- The session is connected and owns an open transport, or it is not connected and
owns no transport at all. -/
def Sound (s : GrblController) : Prop :=
  (s.m_connected = true ∧ OwnsOpenTransport s) ∨ (s.m_connected = false ∧ s.m_serial = none)

/-- The text read after the soft reset on an open port: the byte 0x18 is written, two
seconds pass, and everything that arrives within a second is read. -/
def bannerText (p : SerialPort) : Str :=
  (((p.writeByte (Char.ofNat 0x18)).2.sleepFor 2000).readAll 1000).1

/-- Whether the next attempt to open the device succeeds. -/
def HostDevice.opensNext (d : HostDevice) : Bool :=
  d.opens.headD d.present

/-- The port object a successful `open` of the device on the path `device` yields. -/
def HostDevice.opened (d : HostDevice) (device : Str) : SerialPort :=
  { SerialPort.new with m_fd := 3, m_device := device, rx := d.rx, wr := d.wr }

/-- The response of the device to a probe: the text read after the soft reset once it
has been opened. -/
def HostDevice.probeText (d : HostDevice) : Str :=
  bannerText (d.opened [])

/-- The device qualifies: it opens and its probe response holds "Grbl". -/
def Qualifies (d : HostDevice) : Prop :=
  d.opensNext = true ∧ "Grbl".toList <:+: d.probeText

/-- Opening the device once more, after a first successful open, succeeds. -/
def Reopens (d : HostDevice) : Prop :=
  d.opens.tail.headD d.present = true

/-- The candidate qualifies on the host: `open` on a fresh port object succeeds and the
text read after the soft reset holds "Grbl". -/
def QualifiesOn (h : Host) (port : Str) (baudRate : Int) : Prop :=
  (SerialPort.new.open h port baudRate).1 = true ∧
  "Grbl".toList <:+: bannerText (SerialPort.new.open h port baudRate).2.1

/-- The host after a candidate that opens has been probed and closed again. -/
def hostAfterProbe (h : Host) (port : Str) (baudRate : Int) : Host :=
  (((((SerialPort.new.open h port baudRate).2.1.writeByte (Char.ofNat 0x18)).2.sleepFor
    2000).readAll 1000).2.close (SerialPort.new.open h port baudRate).2.2).2

/-- Re-opening the candidate succeeds: after its probe has been closed, `open` on a
fresh port object succeeds once more. -/
def ReopensOn (h : Host) (port : Str) (baudRate : Int) : Prop :=
  (SerialPort.new.open (hostAfterProbe h port baudRate) port baudRate).1 = true

/-- From `h` to `h1` only the paths of `P` were called on: the directory and every
other device are the same, and the log grew by calls on paths of `P`. -/
def TouchedOnly (P : List Str) (h h1 : Host) : Prop :=
  h1.devDir = h.devDir ∧ (∀ q, q ∉ P → h1.dev q = h.dev q) ∧
  ∃ l, h1.log = h.log ++ l ∧ ∀ op ∈ l, op.device ∈ P

/-- The text `a` comes before `b` in lexicographic order: `a` is a proper start of `b`,
or at the first place where they differ the byte of `a` is the smaller. -/
def LexLt (a b : Str) : Prop :=
  (∃ t, t ≠ [] ∧ b = a ++ t) ∨
  (∃ c x y ra rb, a = c ++ x :: ra ∧ b = c ++ y :: rb ∧ x.toNat < y.toNat)

/-- The name of a directory entry starts with "ttyUSB" or with "ttyACM". -/
def IsSerialName (name : Str) : Prop :=
  "ttyUSB".toList <+: name ∨ "ttyACM".toList <+: name

/-- The answers of a device that delivers the bytes of `bs` one after the other, each
with the milliseconds that pass until it has been read. -/
def arriving (bs : List (Char × Nat)) : List RxEvent :=
  bs.map (fun b => RxEvent.byte b.1 b.2)

/-- The bytes of a timed sequence. -/
def bytesOf (bs : List (Char × Nat)) : Str :=
  bs.map Prod.fst

/-- The milliseconds a timed sequence of bytes takes to arrive. -/
def duration (bs : List (Char × Nat)) : Nat :=
  (bs.map Prod.snd).sum

/-- A line as the device sends it: the bytes before the newline with their delays, and
the delay of the newline that ends the line. -/
structure TimedLine where
  bytes : List (Char × Nat)
  nl : Nat
deriving DecidableEq, Repr

/-- The answers of the device that make up the line. -/
def TimedLine.events (l : TimedLine) : List RxEvent :=
  arriving l.bytes ++ [RxEvent.byte '\n' l.nl]

/-- The text of the line: its bytes without the carriage return before the newline. -/
def TimedLine.text (l : TimedLine) : Str :=
  stripCR (bytesOf l.bytes)

/-- The milliseconds the whole line takes, newline included. -/
def TimedLine.time (l : TimedLine) : Nat :=
  duration l.bytes + l.nl

/-- The line is one line, and its newline is read within the 500 ms of one read: no
byte before the newline is a newline, and the bytes before it take less than 500 ms. -/
def TimedLine.InTime (l : TimedLine) : Prop :=
  (∀ b ∈ l.bytes, b.1 ≠ '\n') ∧ duration l.bytes < 500

instance (l : TimedLine) : Decidable l.InTime := by
  unfold TimedLine.InTime
  infer_instance

/-- The answers of the device that make up a listing of lines. -/
def listing (ls : List TimedLine) : List RxEvent :=
  (ls.map TimedLine.events).flatten

/-- The milliseconds a listing takes. -/
def listingTime (ls : List TimedLine) : Nat :=
  (ls.map TimedLine.time).sum

/-- The texts of the lines, each followed by a newline. -/
def joinedLines (texts : List Str) : Str :=
  (texts.map (fun t => t ++ ['\n'])).flatten

/-! ## Concrete sessions -/

/-- An open port behind which the device delivers the bytes of `text`, one every `dt`
milliseconds, and is silent afterwards. -/
def devicePort (text : Str) (dt : Nat) : SerialPort :=
  { m_fd := 3, m_device := "/dev/ttyUSB0".toList,
    rx := text.map (fun c => RxEvent.byte c dt), wr := [], clock := 0, log := [] }

/-- A connected session on the port `p`, with an observer registered. -/
def sessionOn (p : SerialPort) : GrblController :=
  { m_serial := some p, m_port := "/dev/ttyUSB0".toList,
    m_version := "Grbl 1.1h [\x27$\x27 for help]".toList, m_connected := true,
    m_mutex := false, m_eventHandler := some 0, events := [] }

/-- An open port whose device refuses the next byte written to it. -/
def refusingPort : SerialPort :=
  { devicePort [] 1 with wr := [-1] }

/-- A device that opens and then delivers the bytes of `text`, one every `dt`
milliseconds, and is silent afterwards. -/
def deviceSending (text : Str) (dt : Nat) : HostDevice :=
  { present := true, opens := [], rx := text.map (fun c => RxEvent.byte c dt), wr := [] }

/-- No device: every attempt to open the path fails. -/
def noDevice : HostDevice :=
  { present := false, opens := [], rx := [], wr := [] }

/-- A host whose directory `/dev` holds the given names, each with its device; no
other path can be opened. -/
def hostOf (devs : List (Str × HostDevice)) : Host :=
  { devDir := some (devs.map Prod.fst),
    dev := fun q =>
      ((devs.find? (fun e => "/dev/".toList ++ e.1 == q)).map Prod.snd).getD noDevice,
    log := [] }

/-- The banner a GRBL device sends after a soft reset. -/
def banner : Str := "\r\nGrbl 1.1h [\x27$\x27 for help]\r\n".toList

/-- A host with one device, behind the path "/dev/ttyUSB0". -/
def oneDevice (d : HostDevice) : Host :=
  hostOf [("ttyUSB0".toList, d)]

/-- A device that is there but cannot be opened at the first attempt. -/
def busyDevice : HostDevice :=
  { present := true, opens := [false], rx := [], wr := [] }

/-- A host with four serial devices, listed by the directory in no particular order:
"ttyACM0" cannot be opened, "ttyUSB0" answers "ok", "ttyUSB1" and "ttyUSB2" send the
banner. -/
def fourDevices : Host :=
  hostOf [("ttyUSB2".toList, deviceSending banner 1), (".".toList, noDevice),
          ("ttyUSB0".toList, deviceSending "ok\r\n".toList 1), ("ttyACM0".toList, busyDevice),
          ("tty0".toList, noDevice), ("ttyUSB1".toList, deviceSending banner 1)]

/-- The session as the constructor leaves it, with an observer registered. -/
def observedSession : GrblController :=
  GrblController.new.setEventHandler (some 0)

/-- The line with the bytes of `text` before its newline, one byte every `dt`
milliseconds. -/
def timedLine (text : Str) (dt : Nat) : TimedLine :=
  { bytes := text.map (fun c => (c, dt)), nl := dt }

/-! ## Basic facts about strings -/

theorem containsStr_iff_occurs (pat s : Str) : containsStr pat s = true ↔ pat <:+: s := by
  induction s with
  | nil =>
    cases pat <;> simp [containsStr, findStr]
  | cons c cs ih =>
    unfold containsStr at ih ⊢
    rw [findStr, List.infix_cons_iff]
    by_cases h : pat.isPrefixOf (c :: cs) = true
    · simp only [h, if_true, Option.isSome_some, true_iff]
      exact Or.inl (List.isPrefixOf_iff_prefix.mp h)
    · have h2 : ¬ pat <+: c :: cs := fun hp => h (List.isPrefixOf_iff_prefix.mpr hp)
      simp only [h, Option.isSome_map']
      simpa [h2] using ih

theorem prefix_of_prefix_append_sep {pat l rest : Str} {sep : Char} (hsep : sep ∉ pat)
    (h : pat <+: l ++ sep :: rest) : pat <+: l := by
  rcases List.prefix_or_prefix_of_prefix h (List.prefix_append l (sep :: rest)) with h1 | h1
  · exact h1
  · obtain ⟨t, rfl⟩ := h1
    have h3 : t <+: sep :: rest := (List.prefix_append_right_inj l).mp h
    cases t with
    | nil => simp
    | cons a t =>
      have h4 := (List.cons_prefix_cons.mp h3).1
      exact absurd (by simp [h4]) hsep

theorem infix_append_sep {pat l rest : Str} {sep : Char} (hsep : sep ∉ pat)
    (h : pat <:+: l ++ sep :: rest) : pat <:+: l ∨ pat <:+: rest := by
  induction l with
  | nil =>
    rw [List.nil_append, List.infix_cons_iff] at h
    rcases h with h | h
    · left
      have := prefix_of_prefix_append_sep (l := []) hsep (by simpa using h)
      exact this.isInfix
    · exact Or.inr h
  | cons a l ih =>
    rw [List.cons_append, List.infix_cons_iff] at h
    rcases h with h | h
    · left
      have := prefix_of_prefix_append_sep (l := a :: l) hsep (by simpa using h)
      exact this.isInfix
    · rcases ih h with h1 | h1
      · exact Or.inl (List.infix_cons h1)
      · exact Or.inr h1

/-! ## Facts about the transport -/

theorem stripCR_subset (line : Str) (c : Char) (h : c ∈ stripCR line) : c ∈ line := by
  unfold stripCR at h
  split at h
  · exact List.mem_of_mem_dropLast h
  · exact h

theorem readLineLoop_no_newline (timeoutMs : Int) (rx : List RxEvent) (line : Str) (elapsed : Nat)
    (h : '\n' ∉ line) : '\n' ∉ (readLineLoop timeoutMs rx line elapsed).1 := by
  induction rx generalizing line elapsed with
  | nil =>
    unfold readLineLoop
    split <;> exact h
  | cons ev rest ih =>
    unfold readLineLoop
    split
    · exact h
    · cases ev with
      | quiet dt => exact h
      | byte c dt =>
        by_cases hc : c = '\n'
        · simp only [hc, if_true]
          exact fun hm => h (stripCR_subset line _ hm)
        · simp only [hc, if_false]
          apply ih
          simp only [List.mem_append, List.mem_singleton, not_or]
          exact ⟨h, fun e => hc e.symm⟩

theorem readLine_no_newline (p : SerialPort) (timeoutMs : Int) : '\n' ∉ (p.readLine timeoutMs).1 := by
  unfold SerialPort.readLine
  split
  · simp
  · exact readLineLoop_no_newline timeoutMs p.rx [] 0 (by simp)

theorem readLine_log (p : SerialPort) (timeoutMs : Int) :
    (p.readLine timeoutMs).2.log =
      p.log ++ (if p.m_fd < 0 then [] else [PortOp.readLine timeoutMs (p.readLine timeoutMs).1]) := by
  unfold SerialPort.readLine
  split <;> simp

theorem isTerminalLine_nil : isTerminalLine [] = false := by decide

theorem linesRead_append (a b : List PortOp) : linesRead (a ++ b) = linesRead a ++ linesRead b := by
  induction a with
  | nil => rfl
  | cons op a ih => cases op <;> simp [linesRead, ih]

theorem linesRead_map_readLine (t : Int) (lines : List Str) :
    linesRead (lines.map (PortOp.readLine t)) = lines := by
  induction lines with
  | nil => rfl
  | cons l ls ih => simp [linesRead, ih]

theorem gathered_singleton (l : Str) :
    gathered [l] = if l.isEmpty then [] else l ++ ['\n'] := by
  cases l <;> simp [gathered]

theorem gathered_cons (l : Str) (ls : List Str) :
    gathered (l :: ls) = gathered [l] ++ gathered ls := by
  cases l <;> simp [gathered]

/-- One turn of the wait loop. -/
theorem waitForOkLoop_succ (timeoutMs : Int) (startTime n : Nat) (result : Str) (p : SerialPort) :
    waitForOkLoop timeoutMs startTime (n + 1) result p =
      if isTerminalLine (p.readLine 500).1 = true then
        (result ++ gathered [(p.readLine 500).1], (p.readLine 500).2)
      else if timeoutMs ≤ (((p.readLine 500).2.clock - startTime : Nat) : Int) then
        (result ++ gathered [(p.readLine 500).1] ++ "timeout".toList, (p.readLine 500).2)
      else waitForOkLoop timeoutMs startTime n (result ++ gathered [(p.readLine 500).1])
        (p.readLine 500).2 := by
  rw [waitForOkLoop]
  generalize p.readLine 500 = r
  obtain ⟨line, p1⟩ := r
  cases line with
  | nil => simp [gathered, isTerminalLine_nil]
  | cons a l =>
    by_cases h : isTerminalLine (a :: l) = true
    · simp [gathered, h]
    · simp [gathered, h]

/-- What a run of the wait loop does: the log grows by the lines read, none of which
holds a newline; either the last line read is the only one with a terminal token and
the text is what was gathered, or no line has one and the timeout marker follows. -/
theorem waitForOkLoop_spec (timeoutMs : Int) (startTime : Nat) (turns : Nat) (result : Str)
    (p : SerialPort) :
    ∃ lines : List Str,
      (waitForOkLoop timeoutMs startTime turns result p).2.log
          = p.log ++ lines.map (PortOp.readLine 500) ∧
      (∀ l ∈ lines, '\n' ∉ l) ∧
      ((∃ pre t, lines = pre ++ [t] ∧ (∀ l ∈ pre, isTerminalLine l = false) ∧
          isTerminalLine t = true ∧
          (waitForOkLoop timeoutMs startTime turns result p).1 = result ++ gathered lines) ∨
       ((∀ l ∈ lines, isTerminalLine l = false) ∧
          (waitForOkLoop timeoutMs startTime turns result p).1
            = result ++ gathered lines ++ "timeout".toList)) := by
  induction turns generalizing result p with
  | zero =>
    exact ⟨[], by simp [waitForOkLoop], by simp, Or.inr ⟨by simp, by simp [waitForOkLoop, gathered]⟩⟩
  | succ n ih =>
    rw [waitForOkLoop_succ]
    by_cases hfd : p.m_fd < 0
    · -- a port that is not open: the read returns the empty line at once
      have hr : p.readLine 500 = ([], p) := by simp [SerialPort.readLine, hfd]
      simp only [hr, isTerminalLine_nil, Bool.false_eq_true, if_false]
      by_cases hfire : timeoutMs ≤ ((p.clock - startTime : Nat) : Int)
      · simp only [hfire, if_true]
        exact ⟨[], by simp, by simp, Or.inr ⟨by simp, by simp [gathered]⟩⟩
      · simp only [hfire, if_false]
        simpa [gathered] using ih result p
    · have hlog := readLine_log p 500
      simp only [hfd, if_false] at hlog
      have hnl := readLine_no_newline p 500
      generalize p.readLine 500 = r at hlog hnl
      obtain ⟨line, p1⟩ := r
      simp only at hlog hnl ⊢
      by_cases hterm : isTerminalLine line = true
      · simp only [hterm, if_true]
        exact ⟨[line], by simp [hlog], by simpa using hnl,
          Or.inl ⟨[], line, rfl, by simp, hterm, rfl⟩⟩
      · have hterm2 : isTerminalLine line = false := by simpa using hterm
        simp only [hterm2, Bool.false_eq_true, if_false]
        by_cases hfire : timeoutMs ≤ ((p1.clock - startTime : Nat) : Int)
        · simp only [hfire, if_true]
          exact ⟨[line], by simp [hlog], by simpa using hnl, Or.inr ⟨by simpa using hterm2, rfl⟩⟩
        · simp only [hfire, if_false]
          obtain ⟨lines, h1, h2, h3⟩ := ih (result ++ gathered [line]) p1
          refine ⟨line :: lines, by simp [h1, hlog], ?_, ?_⟩
          · intro l hl
            rcases List.mem_cons.mp hl with rfl | hl
            · exact hnl
            · exact h2 l hl
          · have hg : result ++ gathered [line] ++ gathered lines
                = result ++ gathered (line :: lines) := by
              rw [gathered_cons line lines, List.append_assoc]
            rcases h3 with ⟨pre, t, e1, e2, e3, e4⟩ | ⟨e1, e2⟩
            · left
              refine ⟨line :: pre, t, by simp [e1], ?_, e3, ?_⟩
              · intro l hl
                rcases List.mem_cons.mp hl with rfl | hl
                · exact hterm2
                · exact e2 l hl
              · rw [e4, hg]
            · right
              refine ⟨?_, ?_⟩
              · intro l hl
                rcases List.mem_cons.mp hl with rfl | hl
                · exact hterm2
                · exact e1 l hl
              · rw [e2, hg]

theorem readLineLoop_progress (rx : List RxEvent) (line : Str) (elapsed : Nat) :
    (readLineLoop 500 rx line elapsed).2.1.length ≤ rx.length ∧
    elapsed ≤ (readLineLoop 500 rx line elapsed).2.2 ∧
    (elapsed < 500 → ((readLineLoop 500 rx line elapsed).2.1.length < rx.length ∨
      (rx = [] ∧ (readLineLoop 500 rx line elapsed).2.2 = 500))) := by
  induction rx generalizing line elapsed with
  | nil =>
    unfold readLineLoop
    by_cases h : (500 : Int) ≤ (elapsed : Int)
    · simp only [h, if_true]
      refine ⟨le_refl _, le_refl _, fun h2 => ?_⟩
      omega
    · simp only [h, if_false]
      have h5 : (500 : Int).toNat = 500 := rfl
      simp only [h5, List.length_nil, true_and]
      refine ⟨le_refl _, ?_, fun _ => Or.inr trivial⟩
      omega
  | cons ev rest ih =>
    unfold readLineLoop
    by_cases h : (500 : Int) ≤ (elapsed : Int)
    · simp only [h, if_true]
      refine ⟨le_refl _, le_refl _, fun h2 => ?_⟩
      omega
    · simp only [h, if_false]
      cases ev with
      | quiet dt =>
        simp only [List.length_cons]
        refine ⟨by omega, by omega, fun _ => Or.inl (by omega)⟩
      | byte c dt =>
        by_cases hc : c = '\n'
        · simp only [hc, if_true, List.length_cons]
          refine ⟨by omega, by omega, fun _ => Or.inl (by omega)⟩
        · simp only [hc, if_false, List.length_cons]
          obtain ⟨h1, h2, _⟩ := ih (line ++ [c]) (elapsed + dt)
          refine ⟨by omega, by omega, fun _ => Or.inl (by omega)⟩

theorem readLine_progress (p : SerialPort) (hfd : 0 ≤ p.m_fd) :
    (p.readLine 500).2.m_fd = p.m_fd ∧
    (p.readLine 500).2.rx.length ≤ p.rx.length ∧
    p.clock ≤ (p.readLine 500).2.clock ∧
    ((p.readLine 500).2.rx.length < p.rx.length ∨
      ((p.readLine 500).2.rx.length = p.rx.length ∧ (p.readLine 500).2.clock = p.clock + 500)) := by
  have hfd2 : ¬ p.m_fd < 0 := by omega
  obtain ⟨h1, h2, h3⟩ := readLineLoop_progress p.rx [] 0
  simp only [SerialPort.readLine, hfd2, if_false, true_and]
  refine ⟨h1, by omega, ?_⟩
  rcases h3 (by omega) with h | ⟨h, h4⟩
  · exact Or.inl h
  · right
    refine ⟨?_, by omega⟩
    have := h1
    rw [h] at this ⊢
    simp only [List.length_nil] at this ⊢
    omega

/-- The bound on the turns of the wait loop is never what ends a wait on an open
port: with more turns allowed the loop returns the same. -/
theorem waitForOkLoop_turns (timeoutMs : Int) (startTime : Nat) (turns : Nat) (result : Str)
    (p : SerialPort) (hfd : 0 ≤ p.m_fd) (hst : startTime ≤ p.clock)
    (hm : p.rx.length + (timeoutMs.toNat - (p.clock - startTime) + 499) / 500 < turns) (k : Nat) :
    waitForOkLoop timeoutMs startTime (turns + k) result p
      = waitForOkLoop timeoutMs startTime turns result p := by
  induction turns generalizing result p with
  | zero => omega
  | succ n ih =>
    rw [show n + 1 + k = (n + k) + 1 by omega, waitForOkLoop_succ, waitForOkLoop_succ]
    by_cases hterm : isTerminalLine (p.readLine 500).1 = true
    · simp only [hterm, if_true]
    · simp only [hterm, if_false]
      by_cases hfire : timeoutMs ≤ (((p.readLine 500).2.clock - startTime : Nat) : Int)
      · simp only [hfire, if_true]
      · simp only [hfire, if_false]
        obtain ⟨h1, h2, h3, h4⟩ := readLine_progress p hfd
        apply ih
        · rw [h1]; exact hfd
        · omega
        · have hT : (timeoutMs.toNat : Int) = timeoutMs := Int.toNat_of_nonneg (by omega)
          generalize timeoutMs.toNat = T at hT hm ⊢
          generalize (p.readLine 500).2.clock = c1 at *
          generalize (p.readLine 500).2.rx.length = n1 at *
          rcases h4 with h4 | ⟨h4, h5⟩
          · omega
          · omega

theorem infix_gathered {pat : Str} (hsep : '\n' ∉ pat) (lines : List Str) (tail : Str)
    (h : pat <:+: gathered lines ++ tail) : (∃ l ∈ lines, pat <:+: l) ∨ pat <:+: tail := by
  induction lines with
  | nil => exact Or.inr (by simpa [gathered] using h)
  | cons l ls ih =>
    rw [gathered] at h
    by_cases hl : l.isEmpty = true
    · rw [if_pos hl] at h
      rcases ih h with ⟨m, hm, hp⟩ | hp
      · exact Or.inl ⟨m, List.mem_cons_of_mem _ hm, hp⟩
      · exact Or.inr hp
    · rw [if_neg hl, List.append_assoc, List.cons_append] at h
      rcases infix_append_sep hsep h with hp | hp
      · exact Or.inl ⟨l, List.mem_cons_self _ _, hp⟩
      · rcases ih hp with ⟨m, hm, hp2⟩ | hp2
        · exact Or.inl ⟨m, List.mem_cons_of_mem _ hm, hp2⟩
        · exact Or.inr hp2

theorem containsStr_gathered_timeout {pat : Str} (hsep : '\n' ∉ pat)
    (htail : containsStr pat "timeout".toList = false) (lines : List Str)
    (hlines : ∀ l ∈ lines, containsStr pat l = false) :
    containsStr pat (gathered lines ++ "timeout".toList) = false := by
  rw [Bool.eq_false_iff]
  intro hc
  rcases infix_gathered hsep lines _ ((containsStr_iff_occurs _ _).mp hc) with ⟨l, hl, hp⟩ | hp
  · have := hlines l hl
    rw [(containsStr_iff_occurs _ _).mpr hp] at this
    exact Bool.noConfusion this
  · rw [(containsStr_iff_occurs _ _).mpr hp] at htail
    exact Bool.noConfusion htail

theorem waitForOk_lines (timeoutMs : Int) (p : SerialPort) (lines : List Str)
    (h : (GrblController.waitForOk timeoutMs p).2.log = p.log ++ lines.map (PortOp.readLine 500)) :
    linesRead ((GrblController.waitForOk timeoutMs p).2.log.drop p.log.length) = lines := by
  rw [h, List.drop_left, linesRead_map_readLine]

theorem waitForOk_turns (timeoutMs : Int) (p : SerialPort) (hfd : 0 ≤ p.m_fd) (k : Nat) :
    waitForOkLoop timeoutMs p.clock (p.rx.length + timeoutMs.toNat / 500 + 2 + k) [] p
      = GrblController.waitForOk timeoutMs p := by
  unfold GrblController.waitForOk
  apply waitForOkLoop_turns _ _ _ _ _ hfd (le_refl _)
  omega

/-- C4. A wait in which no line read holds "ok", "error" or "ALARM" returns the
non-empty lines read, each followed by a newline, and then the marker "timeout": the
text ends with "timeout" and holds none of the three tokens, so the success test of
every caller (the search for "ok") is false. On an open port the bound on the turns
of the loop plays no part in it. -/
theorem waitForOk_timeout (timeoutMs : Int) (p : SerialPort)
    (h : ∀ l ∈ linesRead ((GrblController.waitForOk timeoutMs p).2.log.drop p.log.length),
      isTerminalLine l = false) :
    (GrblController.waitForOk timeoutMs p).1
        = gathered (linesRead ((GrblController.waitForOk timeoutMs p).2.log.drop p.log.length))
            ++ "timeout".toList ∧
    "timeout".toList <:+ (GrblController.waitForOk timeoutMs p).1 ∧
    containsStr "ok".toList (GrblController.waitForOk timeoutMs p).1 = false ∧
    containsStr "error".toList (GrblController.waitForOk timeoutMs p).1 = false ∧
    containsStr "ALARM".toList (GrblController.waitForOk timeoutMs p).1 = false ∧
    (0 ≤ p.m_fd → ∀ k, waitForOkLoop timeoutMs p.clock
        (p.rx.length + timeoutMs.toNat / 500 + 2 + k) [] p = GrblController.waitForOk timeoutMs p) := by
  obtain ⟨lines, hlog, _, hcase⟩ :=
    waitForOkLoop_spec timeoutMs p.clock (p.rx.length + timeoutMs.toNat / 500 + 2) [] p
  have hlines := waitForOk_lines timeoutMs p lines hlog
  rw [hlines] at h ⊢
  have htext : (GrblController.waitForOk timeoutMs p).1 = gathered lines ++ "timeout".toList := by
    rcases hcase with ⟨pre, t, e1, _, e3, _⟩ | ⟨_, e2⟩
    · have := h t (by simp [e1])
      rw [e3] at this
      exact Bool.noConfusion this
    · simpa using e2
  have hparts : ∀ l ∈ lines, containsStr "ok".toList l = false ∧
      containsStr "error".toList l = false ∧ containsStr "ALARM".toList l = false := by
    intro l hl
    have := h l hl
    simpa [isTerminalLine, and_assoc] using this
  refine ⟨htext, ⟨gathered lines, htext.symm⟩, ?_, ?_, ?_, fun hfd k => waitForOk_turns timeoutMs p hfd k⟩
  · rw [htext]
    exact containsStr_gathered_timeout (by decide) (by decide) lines (fun l hl => (hparts l hl).1)
  · rw [htext]
    exact containsStr_gathered_timeout (by decide) (by decide) lines (fun l hl => (hparts l hl).2.1)
  · rw [htext]
    exact containsStr_gathered_timeout (by decide) (by decide) lines (fun l hl => (hparts l hl).2.2)

/-- C4 at a concrete wait: the device sends the line "hello" and falls silent; a wait
of 1000 ms reads "hello" and two empty lines and returns "hello", a newline and
"timeout". -/
theorem waitForOk_timeout_witness :
    linesRead ((GrblController.waitForOk 1000 (devicePort "hello\r\n".toList 1)).2.log.drop 0)
        = ["hello".toList, [], []] ∧
    (GrblController.waitForOk 1000 (devicePort "hello\r\n".toList 1)).1
        = "hello\ntimeout".toList ∧
    containsStr "ok".toList (GrblController.waitForOk 1000 (devicePort "hello\r\n".toList 1)).1
        = false := by
  have h := waitForOk_timeout 1000 (devicePort "hello\r\n".toList 1) (by decide)
  exact ⟨by decide, h.1.trans (by decide), h.2.2.1⟩

/-- C5. A wait that reads a line holding "ok", "error" or "ALARM" stops at that line:
the lines read are lines without such a token followed by that one line, nothing is
read after it (the log ends with it), and the text returned is exactly every
non-empty line read, each followed by a newline, with no timeout marker after the
last newline. On an open port the bound on the turns of the loop plays no part. -/
theorem waitForOk_terminal (timeoutMs : Int) (p : SerialPort)
    (h : ∃ l ∈ linesRead ((GrblController.waitForOk timeoutMs p).2.log.drop p.log.length),
      isTerminalLine l = true) :
    ∃ pre t,
      linesRead ((GrblController.waitForOk timeoutMs p).2.log.drop p.log.length) = pre ++ [t] ∧
      (∀ l ∈ pre, isTerminalLine l = false) ∧ isTerminalLine t = true ∧
      (GrblController.waitForOk timeoutMs p).2.log
        = p.log ++ (pre ++ [t]).map (PortOp.readLine 500) ∧
      (GrblController.waitForOk timeoutMs p).1 = gathered (pre ++ [t]) ∧
      (GrblController.waitForOk timeoutMs p).1 = gathered pre ++ t ++ ['\n'] ∧
      (0 ≤ p.m_fd → ∀ k, waitForOkLoop timeoutMs p.clock
        (p.rx.length + timeoutMs.toNat / 500 + 2 + k) [] p = GrblController.waitForOk timeoutMs p) := by
  obtain ⟨lines, hlog, _, hcase⟩ :=
    waitForOkLoop_spec timeoutMs p.clock (p.rx.length + timeoutMs.toNat / 500 + 2) [] p
  have hlines := waitForOk_lines timeoutMs p lines hlog
  rw [hlines] at h ⊢
  rcases hcase with ⟨pre, t, e1, e2, e3, e4⟩ | ⟨e1, _⟩
  · refine ⟨pre, t, e1, e2, e3, ?_, ?_, ?_, fun hfd k => waitForOk_turns timeoutMs p hfd k⟩
    · rw [← e1]; exact hlog
    · rw [← e1]; simpa using e4
    · have ht : t.isEmpty = false := by
        cases t with
        | nil => simp [isTerminalLine_nil] at e3
        | cons a l => rfl
      have hg : gathered (pre ++ [t]) = gathered pre ++ t ++ ['\n'] := by
        clear e1 e2 h hlog hlines e4
        induction pre with
        | nil => simp [gathered, ht]
        | cons a pre ih =>
          rw [List.cons_append, gathered_cons, ih, gathered_cons a pre]
          simp
      rw [← hg, ← e1]; simpa using e4
  · obtain ⟨l, hl, ht⟩ := h
    rw [e1 l hl] at ht
    exact Bool.noConfusion ht

/-- C5 at a concrete wait: the device answers "[MSG:Caution: Unlocked]" and "ok"
and then more; the wait returns the two lines and leaves the rest unread. -/
theorem waitForOk_terminal_witness :
    (∃ pre t,
      linesRead ((GrblController.waitForOk 2000
        (devicePort "[MSG:Caution: Unlocked]\r\nok\r\nGrbl\r\n".toList 1)).2.log.drop 0) = pre ++ [t] ∧
      (∀ l ∈ pre, isTerminalLine l = false) ∧ isTerminalLine t = true ∧
      (GrblController.waitForOk 2000
        (devicePort "[MSG:Caution: Unlocked]\r\nok\r\nGrbl\r\n".toList 1)).1
          = gathered pre ++ t ++ ['\n']) ∧
    (GrblController.waitForOk 2000
        (devicePort "[MSG:Caution: Unlocked]\r\nok\r\nGrbl\r\n".toList 1)).1
      = "[MSG:Caution: Unlocked]\nok\n".toList ∧
    (GrblController.waitForOk 2000
        (devicePort "[MSG:Caution: Unlocked]\r\nok\r\nGrbl\r\n".toList 1)).2.rx
      = "Grbl\r\n".toList.map (fun c => RxEvent.byte c 1) := by
  obtain ⟨pre, t, h1, h2, h3, _, _, h6, _⟩ := waitForOk_terminal 2000
    (devicePort "[MSG:Caution: Unlocked]\r\nok\r\nGrbl\r\n".toList 1) (by decide)
  exact ⟨⟨pre, t, h1, h2, h3, h6⟩, by decide, by decide⟩

/-! ## Facts about number formatting -/

theorem digitChar_isDigit : ∀ k, k < 10 → (Nat.digitChar k).isDigit = true := by decide

theorem toDigitsCore_isDigit (fuel n : Nat) (ds : List Char) (h : ∀ c ∈ ds, c.isDigit = true) :
    ∀ c ∈ Nat.toDigitsCore 10 fuel n ds, c.isDigit = true := by
  induction fuel generalizing n ds with
  | zero => simpa [Nat.toDigitsCore] using h
  | succ f ih =>
    have hd : ∀ c ∈ Nat.digitChar (n % 10) :: ds, c.isDigit = true := by
      intro c hc
      rcases List.mem_cons.mp hc with rfl | hc
      · exact digitChar_isDigit _ (Nat.mod_lt _ (by decide))
      · exact h c hc
    rw [Nat.toDigitsCore]
    by_cases hz : n / 10 = 0
    · simpa [hz] using hd
    · simp only [hz, if_false]
      exact ih _ _ hd

theorem toDigitsCore_ne_nil (fuel n : Nat) (ds : List Char) (h : ds ≠ [] ∨ 0 < fuel) :
    Nat.toDigitsCore 10 fuel n ds ≠ [] := by
  induction fuel generalizing n ds with
  | zero =>
    rcases h with h | h
    · simpa [Nat.toDigitsCore] using h
    · omega
  | succ f ih =>
    rw [Nat.toDigitsCore]
    by_cases hz : n / 10 = 0
    · simp [hz]
    · simp only [hz, if_false]
      exact ih _ _ (Or.inl (by simp))

theorem toDigits_isDigit (n : Nat) : ∀ c ∈ Nat.toDigits 10 n, c.isDigit = true :=
  toDigitsCore_isDigit _ _ [] (by simp)

theorem toDigits_ne_nil (n : Nat) : Nat.toDigits 10 n ≠ [] :=
  toDigitsCore_ne_nil _ _ [] (Or.inr (Nat.succ_pos n))

theorem fixed3_isFixed3 (v : Double) : IsFixed3 (fixed3 v) := by
  refine ⟨if v < 0 then ['-'] else [], Nat.toDigits 10 (roundMilli v / 1000),
    Nat.digitChar (roundMilli v % 1000 / 100 % 10), Nat.digitChar (roundMilli v % 1000 / 10 % 10),
    Nat.digitChar (roundMilli v % 1000 % 10), ?_, ?_, toDigits_ne_nil _, toDigits_isDigit _,
    digitChar_isDigit _ (Nat.mod_lt _ (by decide)), digitChar_isDigit _ (Nat.mod_lt _ (by decide)),
    digitChar_isDigit _ (Nat.mod_lt _ (by decide))⟩
  · simp [fixed3, pad3]
  · by_cases h : v < 0 <;> simp [h]

theorem fixed3_chars (v : Double) : ∀ c ∈ fixed3 v, c = '-' ∨ c = '.' ∨ c.isDigit = true := by
  obtain ⟨sign, ip, d1, d2, d3, e, hs, _, hip, h1, h2, h3⟩ := fixed3_isFixed3 v
  intro c hc
  rw [e] at hc
  simp only [List.mem_append, List.mem_cons, List.mem_singleton, List.not_mem_nil, or_false] at hc
  rcases hc with (hc | hc) | hc | hc | hc | hc
  · rcases hs with rfl | rfl
    · simp at hc
    · left; simpa using hc
  · exact Or.inr (Or.inr (hip c hc))
  · exact Or.inr (Or.inl hc)
  · exact Or.inr (Or.inr (hc ▸ h1))
  · exact Or.inr (Or.inr (hc ▸ h2))
  · exact Or.inr (Or.inr (hc ▸ h3))

theorem fixed3_not_mem (v : Double) (c : Char) (h1 : c ≠ '-') (h2 : c ≠ '.')
    (h3 : c.isDigit = false) : c ∉ fixed3 v := by
  intro hc
  rcases fixed3_chars v c hc with h | h | h
  · exact h1 h
  · exact h2 h
  · rw [h3] at h; exact Bool.noConfusion h

theorem fixed3_getLast (l : Str) (v : Double) :
    ∃ d, d.isDigit = true ∧ (l ++ fixed3 v).getLast? = some d := by
  obtain ⟨sign, ip, d1, d2, d3, e, _, _, _, _, _, h3⟩ := fixed3_isFixed3 v
  refine ⟨d3, h3, ?_⟩
  rw [e]
  have : l ++ (sign ++ ip ++ ['.', d1, d2, d3]) = (l ++ sign ++ ip ++ ['.', d1, d2]) ++ [d3] := by
    simp
  rw [this, List.getLast?_append]
  simp

theorem fixed3_neg_head (v : Double) (h : v < 0) : ∃ rest, fixed3 v = '-' :: rest := by
  refine ⟨Nat.toDigits 10 (roundMilli v / 1000) ++ '.' :: pad3 (roundMilli v % 1000), ?_⟩
  simp [fixed3, h]

/-! ## Facts about the queued commands -/

theorem write_log (p : SerialPort) (data : Str) (hfd : 0 ≤ p.m_fd) (hne : data ≠ [])
    (hlast : data.getLast? ≠ some '\n') :
    ∃ ret rest, (p.write data).2.log = p.log ++ PortOp.write (data ++ ['\n']) ret :: rest := by
  have hfd2 : ¬ p.m_fd < 0 := by omega
  have hne2 : data.isEmpty = false := by cases data <;> simp_all
  have hl : (data.getLast? != some '\n') = true := by simpa using hlast
  unfold SerialPort.write
  simp only [hfd2, if_false, hne2, Bool.not_false, hl, Bool.and_self, if_true]
  split
  · exact ⟨p.wr.headD ((data ++ ['\n']).length : Int), [], rfl⟩
  · exact ⟨p.wr.headD ((data ++ ['\n']).length : Int), [PortOp.drain], by simp⟩

theorem waitForOk_log (timeoutMs : Int) (p : SerialPort) :
    ∃ lines : List Str,
      (GrblController.waitForOk timeoutMs p).2.log = p.log ++ lines.map (PortOp.readLine 500) := by
  obtain ⟨lines, h, _⟩ :=
    waitForOkLoop_spec timeoutMs p.clock (p.rx.length + timeoutMs.toNat / 500 + 2) [] p
  exact ⟨lines, h⟩

/-- A queued command on a connected session. -/
theorem queued_connected (s : GrblController) (p : SerialPort) (cmd : Str) (timeoutMs : Int)
    (event : Option (Str × List (Str × JsonVal)))
    (hc : s.m_connected = true) (hs : s.m_serial = some p) :
    s.queued cmd timeoutMs event =
      (containsStr "ok".toList (GrblController.waitForOk timeoutMs (p.write cmd).2).1,
       { s with
          m_serial := some (GrblController.waitForOk timeoutMs (p.write cmd).2).2,
          m_mutex := false,
          events := s.events ++
            (match event with
             | some (type, data) =>
               if containsStr "ok".toList (GrblController.waitForOk timeoutMs (p.write cmd).2).1
               then [{ type := type, data := data, lockHeld := true, observer := s.m_eventHandler }]
               else []
             | none => []) }) := by
  unfold GrblController.queued
  simp only [hc, hs]
  cases hok : containsStr "ok".toList (GrblController.waitForOk timeoutMs (p.write cmd).2).1 <;>
    cases event <;> simp [GrblController.emitEvent]

theorem queued_writes (s : GrblController) (p : SerialPort) (cmd : Str) (timeoutMs : Int)
    (event : Option (Str × List (Str × JsonVal)))
    (hc : s.m_connected = true) (hs : s.m_serial = some p) (hfd : 0 ≤ p.m_fd)
    (hne : cmd ≠ []) (hlast : cmd.getLast? ≠ some '\n') :
    ∃ ret rest p1, (s.queued cmd timeoutMs event).2.m_serial = some p1 ∧
      p1.log = p.log ++ PortOp.write (cmd ++ ['\n']) ret :: rest := by
  obtain ⟨ret, rest, hw⟩ := write_log p cmd hfd hne hlast
  obtain ⟨lines, hl⟩ := waitForOk_log timeoutMs (p.write cmd).2
  refine ⟨ret, rest ++ lines.map (PortOp.readLine 500),
    (GrblController.waitForOk timeoutMs (p.write cmd).2).2, ?_, ?_⟩
  · rw [queued_connected s p cmd timeoutMs event hc hs]
  · rw [hl, hw]; simp

theorem axisWord_not_mem (letter c : Char) (v : Option Double) (h0 : c ≠ letter) (hb : c ≠ ' ')
    (h1 : c ≠ '-') (h2 : c ≠ '.') (h3 : c.isDigit = false) : c ∉ axisWord letter v := by
  cases v with
  | none => simp [axisWord]
  | some d =>
    simp only [axisWord, List.mem_cons, not_or]
    exact ⟨hb, h0, fixed3_not_mem d c h1 h2 h3⟩

theorem moveG0Cmd_eq (x y z : Option Double) :
    moveG0Cmd x y z = "G0".toList ++ axisWord 'X' x ++ axisWord 'Y' y ++ axisWord 'Z' z := by
  cases x <;> cases y <;> cases z <;> simp [moveG0Cmd, axisWord]

theorem moveG1Cmd_eq (x y z : Option Double) (feed : Double) :
    moveG1Cmd x y z feed = "G1".toList ++ axisWord 'X' x ++ axisWord 'Y' y ++ axisWord 'Z' z
      ++ " F".toList ++ fixed3 feed := by
  cases x <;> cases y <;> cases z <;> simp [moveG1Cmd, axisWord]

theorem getLast_ne_newline_of_digit {l : Str} {d : Char} (hd : d.isDigit = true)
    (h : l.getLast? = some d) : l.getLast? ≠ some '\n' := by
  rw [h]
  intro e
  have e2 : d = '\n' := Option.some.inj e
  rw [e2] at hd
  exact absurd hd (by decide)

theorem axisWord_getLast (l : Str) (letter : Char) (v : Option Double)
    (h : ∃ d, d.isDigit = true ∧ l.getLast? = some d) :
    ∃ d, d.isDigit = true ∧ (l ++ axisWord letter v).getLast? = some d := by
  cases v with
  | none => simpa [axisWord] using h
  | some a =>
    have := fixed3_getLast (l ++ [' ', letter]) a
    simpa [axisWord] using this

theorem moveG0Cmd_getLast (x y z : Option Double) :
    ∃ d, d.isDigit = true ∧ (moveG0Cmd x y z).getLast? = some d := by
  rw [moveG0Cmd_eq]
  exact axisWord_getLast _ _ _ (axisWord_getLast _ _ _ (axisWord_getLast _ _ _ ⟨'0', by decide, by decide⟩))

/-- C8. The line `moveG0` writes on a connected session is "G0" followed by the words
" X<x>", " Y<y>", " Z<z>" of exactly the supplied axes in that order, every value in
fixed notation with three decimals, and the letter of an omitted axis occurs nowhere
in it; `moveG1` writes the same words after "G1" and always " F<feed>" last. Each line
goes to the transport once, closed by a newline, before anything is read. -/
theorem move_command_lines (s : GrblController) (p : SerialPort) (x y z : Option Double)
    (feed : Double) (hc : s.m_connected = true) (hs : s.m_serial = some p) (hfd : 0 ≤ p.m_fd) :
    (∃ ret rest p1, (s.moveG0 x y z).2.m_serial = some p1 ∧
      p1.log = p.log ++ PortOp.write
        ("G0".toList ++ axisWord 'X' x ++ axisWord 'Y' y ++ axisWord 'Z' z ++ ['\n']) ret :: rest) ∧
    (∃ ret rest p1, (s.moveG1 x y z feed).2.m_serial = some p1 ∧
      p1.log = p.log ++ PortOp.write
        ("G1".toList ++ axisWord 'X' x ++ axisWord 'Y' y ++ axisWord 'Z' z
          ++ " F".toList ++ fixed3 feed ++ ['\n']) ret :: rest) ∧
    (x = none → 'X' ∉ "G0".toList ++ axisWord 'X' x ++ axisWord 'Y' y ++ axisWord 'Z' z) ∧
    (y = none → 'Y' ∉ "G0".toList ++ axisWord 'X' x ++ axisWord 'Y' y ++ axisWord 'Z' z) ∧
    (z = none → 'Z' ∉ "G0".toList ++ axisWord 'X' x ++ axisWord 'Y' y ++ axisWord 'Z' z) ∧
    (x = none → 'X' ∉ "G1".toList ++ axisWord 'X' x ++ axisWord 'Y' y ++ axisWord 'Z' z
      ++ " F".toList ++ fixed3 feed) ∧
    (y = none → 'Y' ∉ "G1".toList ++ axisWord 'X' x ++ axisWord 'Y' y ++ axisWord 'Z' z
      ++ " F".toList ++ fixed3 feed) ∧
    (z = none → 'Z' ∉ "G1".toList ++ axisWord 'X' x ++ axisWord 'Y' y ++ axisWord 'Z' z
      ++ " F".toList ++ fixed3 feed) ∧
    (∀ v, x = some v ∨ y = some v ∨ z = some v ∨ feed = v → IsFixed3 (fixed3 v)) := by
  have hnone : ∀ c l : Char, c ∉ axisWord l none := by
    intro c l
    simp [axisWord]
  have hX : ∀ (l : Char) (v : Option Double), 'X' ≠ l → 'X' ∉ axisWord l v := fun l v h =>
    axisWord_not_mem l 'X' v h (by decide) (by decide) (by decide) (by decide)
  have hY : ∀ (l : Char) (v : Option Double), 'Y' ≠ l → 'Y' ∉ axisWord l v := fun l v h =>
    axisWord_not_mem l 'Y' v h (by decide) (by decide) (by decide) (by decide)
  have hZ : ∀ (l : Char) (v : Option Double), 'Z' ≠ l → 'Z' ∉ axisWord l v := fun l v h =>
    axisWord_not_mem l 'Z' v h (by decide) (by decide) (by decide) (by decide)
  have hFX : 'X' ∉ fixed3 feed := fixed3_not_mem feed 'X' (by decide) (by decide) (by decide)
  have hFY : 'Y' ∉ fixed3 feed := fixed3_not_mem feed 'Y' (by decide) (by decide) (by decide)
  have hFZ : 'Z' ∉ fixed3 feed := fixed3_not_mem feed 'Z' (by decide) (by decide) (by decide)
  have hG0 : 'X' ∉ "G0".toList ∧ 'Y' ∉ "G0".toList ∧ 'Z' ∉ "G0".toList := by decide
  have hG1 : 'X' ∉ "G1".toList ∧ 'Y' ∉ "G1".toList ∧ 'Z' ∉ "G1".toList := by decide
  have hF : 'X' ∉ " F".toList ∧ 'Y' ∉ " F".toList ∧ 'Z' ∉ " F".toList := by decide
  have hXY := hX 'Y' y (by decide)
  have hXZ := hX 'Z' z (by decide)
  have hYX := hY 'X' x (by decide)
  have hYZ := hY 'Z' z (by decide)
  have hZX := hZ 'X' x (by decide)
  have hZY := hZ 'Y' y (by decide)
  refine ⟨?_, ?_, ?_, ?_, ?_, ?_, ?_, ?_, fun v _ => fixed3_isFixed3 v⟩
  · obtain ⟨d, hd, hl⟩ := moveG0Cmd_getLast x y z
    rw [← moveG0Cmd_eq]
    exact queued_writes s p (moveG0Cmd x y z) 5000 none hc hs hfd
      (by intro e; rw [e] at hl; simp at hl) (getLast_ne_newline_of_digit hd hl)
  · obtain ⟨d, hd, hl⟩ := fixed3_getLast
      ("G1".toList ++ axisWord 'X' x ++ axisWord 'Y' y ++ axisWord 'Z' z ++ " F".toList) feed
    rw [← moveG1Cmd_eq] at hl ⊢
    exact queued_writes s p (moveG1Cmd x y z feed) 5000 none hc hs hfd
      (by intro e; rw [e] at hl; simp at hl) (getLast_ne_newline_of_digit hd hl)
  · rintro rfl
    simp only [List.mem_append, not_or]
    exact ⟨⟨⟨hG0.1, hnone _ _⟩, hXY⟩, hXZ⟩
  · rintro rfl
    simp only [List.mem_append, not_or]
    exact ⟨⟨⟨hG0.2.1, hYX⟩, hnone _ _⟩, hYZ⟩
  · rintro rfl
    simp only [List.mem_append, not_or]
    exact ⟨⟨⟨hG0.2.2, hZX⟩, hZY⟩, hnone _ _⟩
  · rintro rfl
    simp only [List.mem_append, not_or]
    exact ⟨⟨⟨⟨⟨hG1.1, hnone _ _⟩, hXY⟩, hXZ⟩, hF.1⟩, hFX⟩
  · rintro rfl
    simp only [List.mem_append, not_or]
    exact ⟨⟨⟨⟨⟨hG1.2.1, hYX⟩, hnone _ _⟩, hYZ⟩, hF.2.1⟩, hFY⟩
  · rintro rfl
    simp only [List.mem_append, not_or]
    exact ⟨⟨⟨⟨⟨hG1.2.2, hZX⟩, hZY⟩, hnone _ _⟩, hF.2.2⟩, hFZ⟩

/-- C8 with only y supplied (y = 10.5, feed 300): the first operation of `moveG0` on the
transport writes "G0 Y10.500" and a newline, `moveG1` writes "G1 Y10.500 F300.000" and
a newline, and neither 'X' nor 'Z' occurs in the `moveG0` line. -/
theorem move_command_lines_witness :
    (∃ ret rest p1,
      ((sessionOn (devicePort "ok\r\n".toList 1)).moveG0 none (some (21 / 2)) none).2.m_serial
        = some p1 ∧
      p1.log = PortOp.write "G0 Y10.500\n".toList ret :: rest) ∧
    (∃ ret rest p1,
      ((sessionOn (devicePort "ok\r\n".toList 1)).moveG1 none (some (21 / 2)) none 300).2.m_serial
        = some p1 ∧
      p1.log = PortOp.write "G1 Y10.500 F300.000\n".toList ret :: rest) ∧
    'X' ∉ "G0 Y10.500".toList ∧ 'Z' ∉ "G0 Y10.500".toList := by
  have h := move_command_lines (sessionOn (devicePort "ok\r\n".toList 1))
    (devicePort "ok\r\n".toList 1) none (some (21 / 2)) none 300 rfl rfl (by decide)
  have e0 : "G0".toList ++ axisWord 'X' none ++ axisWord 'Y' (some (21 / 2)) ++ axisWord 'Z' none
      = "G0 Y10.500".toList := by decide!
  have e1 : ("G1".toList ++ axisWord 'X' none ++ axisWord 'Y' (some (21 / 2)) ++ axisWord 'Z' none
      ++ " F".toList ++ fixed3 300) = "G1 Y10.500 F300.000".toList := by decide!
  rw [e0, e1] at h
  obtain ⟨⟨r0, t0, q0, a0, b0⟩, ⟨r1, t1, q1, a1, b1⟩, hx, _, hz, _⟩ := h
  exact ⟨⟨r0, t0, q0, a0, by simpa [devicePort] using b0⟩,
    ⟨r1, t1, q1, a1, by simpa [devicePort] using b1⟩, hx rfl, hz rfl⟩

/-- C9. The line `jog` writes on a connected session is "$J=G91 ", the axis character,
the distance in fixed notation with three decimals, " F" and the feed in fixed
notation with three decimals; the minus sign of a negative distance comes right after
the axis character. The line goes to the transport once, closed by a newline, before
anything is read. -/
theorem jog_command_line (s : GrblController) (p : SerialPort) (axis : Char)
    (distance feed : Double) (hc : s.m_connected = true) (hs : s.m_serial = some p)
    (hfd : 0 ≤ p.m_fd) :
    (∃ ret rest p1, (s.jog axis distance feed).2.m_serial = some p1 ∧
      p1.log = p.log ++ PortOp.write
        ("$J=G91 ".toList ++ [axis] ++ fixed3 distance ++ " F".toList ++ fixed3 feed ++ ['\n']) ret
          :: rest) ∧
    IsFixed3 (fixed3 distance) ∧ IsFixed3 (fixed3 feed) ∧
    (distance < 0 → ∃ rest, fixed3 distance = '-' :: rest) := by
  refine ⟨?_, fixed3_isFixed3 _, fixed3_isFixed3 _, fixed3_neg_head distance⟩
  obtain ⟨d, hd, hl⟩ := fixed3_getLast
    ("$J=G91 ".toList ++ [axis] ++ fixed3 distance ++ " F".toList) feed
  exact queued_writes s p (jogCmd axis distance feed) 5000 none hc hs hfd
    (by simp [jogCmd]) (getLast_ne_newline_of_digit hd hl)

/-- C9 for a jog of the X axis by -2.5 at feed 1000: the line is "$J=G91 X-2.500 F1000.000". -/
theorem jog_command_line_witness :
    ∃ ret rest p1,
      ((sessionOn (devicePort "ok\r\n".toList 1)).jog 'X' (-5 / 2) 1000).2.m_serial = some p1 ∧
      p1.log = PortOp.write "$J=G91 X-2.500 F1000.000\n".toList ret :: rest := by
  obtain ⟨⟨r0, t0, q0, a0, b0⟩, _⟩ := jog_command_line (sessionOn (devicePort "ok\r\n".toList 1))
    (devicePort "ok\r\n".toList 1) 'X' (-5 / 2) 1000 rfl rfl (by decide)
  have e0 : "$J=G91 ".toList ++ ['X'] ++ fixed3 (-5 / 2) ++ " F".toList ++ fixed3 1000 ++ ['\n']
      = "$J=G91 X-2.500 F1000.000\n".toList := by decide!
  rw [e0] at b0
  exact ⟨r0, t0, q0, a0, by simpa [devicePort] using b0⟩

theorem queued_result (s : GrblController) (p : SerialPort) (cmd : Str) (timeoutMs : Int)
    (event : Option (Str × List (Str × JsonVal)))
    (hc : s.m_connected = true) (hs : s.m_serial = some p) :
    (s.queued cmd timeoutMs event).1
      = containsStr "ok".toList (GrblController.waitForOk timeoutMs (p.write cmd).2).1 := by
  rw [queued_connected s p cmd timeoutMs event hc hs]

theorem queued_events_some (s : GrblController) (p : SerialPort) (cmd : Str) (timeoutMs : Int)
    (type : Str) (data : List (Str × JsonVal))
    (hc : s.m_connected = true) (hs : s.m_serial = some p) :
    (s.queued cmd timeoutMs (some (type, data))).2.events
      = s.events ++
        (if (s.queued cmd timeoutMs (some (type, data))).1 = true
         then [{ type := type, data := data, lockHeld := true, observer := s.m_eventHandler }]
         else []) := by
  rw [queued_connected s p cmd timeoutMs _ hc hs]

theorem queued_events_none (s : GrblController) (p : SerialPort) (cmd : Str) (timeoutMs : Int)
    (hc : s.m_connected = true) (hs : s.m_serial = some p) :
    (s.queued cmd timeoutMs none).2.events = s.events := by
  rw [queued_connected s p cmd timeoutMs _ hc hs]
  simp

/-- C7. On a connected session each of `home`, `moveG0`, `moveG1`, `jog`, `unlock` and
`setSetting` returns true exactly when the text its wait returned holds "ok"; `home`,
`unlock` and `setSetting` emit their event (the last with the id and the value)
exactly when that result is true, and `moveG0`, `moveG1` and `jog` emit nothing. -/
theorem queued_command_results (s : GrblController) (p : SerialPort) (x y z : Option Double)
    (feed distance value : Double) (axis : Char) (id : Int)
    (hc : s.m_connected = true) (hs : s.m_serial = some p) :
    ((s.home).1 = containsStr "ok".toList
        (GrblController.waitForOk 30000 (p.write "$H".toList).2).1 ∧
     (s.home).2.events = s.events ++
        (if (s.home).1 = true then
          [{ type := "grbl_homing_complete".toList, data := [], lockHeld := true,
             observer := s.m_eventHandler }]
         else [])) ∧
    ((s.moveG0 x y z).1 = containsStr "ok".toList
        (GrblController.waitForOk 5000 (p.write (moveG0Cmd x y z)).2).1 ∧
     (s.moveG0 x y z).2.events = s.events) ∧
    ((s.moveG1 x y z feed).1 = containsStr "ok".toList
        (GrblController.waitForOk 5000 (p.write (moveG1Cmd x y z feed)).2).1 ∧
     (s.moveG1 x y z feed).2.events = s.events) ∧
    ((s.jog axis distance feed).1 = containsStr "ok".toList
        (GrblController.waitForOk 5000 (p.write (jogCmd axis distance feed)).2).1 ∧
     (s.jog axis distance feed).2.events = s.events) ∧
    ((s.unlock).1 = containsStr "ok".toList
        (GrblController.waitForOk 2000 (p.write "$X".toList).2).1 ∧
     (s.unlock).2.events = s.events ++
        (if (s.unlock).1 = true then
          [{ type := "grbl_unlocked".toList, data := [], lockHeld := true,
             observer := s.m_eventHandler }]
         else [])) ∧
    ((s.setSetting id value).1 = containsStr "ok".toList
        (GrblController.waitForOk 2000 (p.write (setSettingCmd id value)).2).1 ∧
     (s.setSetting id value).2.events = s.events ++
        (if (s.setSetting id value).1 = true then
          [{ type := "grbl_setting_changed".toList,
             data := [("id".toList, JsonVal.int id), ("value".toList, JsonVal.num value)],
             lockHeld := true, observer := s.m_eventHandler }]
         else [])) :=
  ⟨⟨queued_result s p _ _ _ hc hs, queued_events_some s p _ _ _ _ hc hs⟩,
   ⟨queued_result s p _ _ _ hc hs, queued_events_none s p _ _ hc hs⟩,
   ⟨queued_result s p _ _ _ hc hs, queued_events_none s p _ _ hc hs⟩,
   ⟨queued_result s p _ _ _ hc hs, queued_events_none s p _ _ hc hs⟩,
   ⟨queued_result s p _ _ _ hc hs, queued_events_some s p _ _ _ _ hc hs⟩,
   ⟨queued_result s p _ _ _ hc hs, queued_events_some s p _ _ _ _ hc hs⟩⟩

/-- C7 on a device that answers "ok": `home` returns true and emits the one event
"grbl_homing_complete"; `moveG0` returns true and emits nothing. -/
theorem queued_command_results_witness :
    ((sessionOn (devicePort "ok\r\n".toList 1)).home).1 = true ∧
    ((sessionOn (devicePort "ok\r\n".toList 1)).home).2.events
      = [{ type := "grbl_homing_complete".toList, data := [], lockHeld := true,
           observer := some 0 }] ∧
    ((sessionOn (devicePort "ok\r\n".toList 1)).moveG0 none (some 1) none).1 = true ∧
    ((sessionOn (devicePort "ok\r\n".toList 1)).moveG0 none (some 1) none).2.events = [] := by
  have h := queued_command_results (sessionOn (devicePort "ok\r\n".toList 1))
    (devicePort "ok\r\n".toList 1) none (some 1) none 100 1 1 'X' 0 rfl rfl
  have h1 : ((sessionOn (devicePort "ok\r\n".toList 1)).home).1 = true :=
    h.1.1.trans (by decide)
  have h2 := h.1.2
  rw [if_pos h1] at h2
  have e : containsStr "ok".toList (GrblController.waitForOk 5000
      ((devicePort "ok\r\n".toList 1).write (moveG0Cmd none (some 1) none)).2).1 = true := by
    decide!
  exact ⟨h1, h2, h.2.1.1.trans e, h.2.1.2⟩

/-- C6, the claim as stated fails: the device answers the one line "error: bad token";
the response holds the token "error", and `home` returns true, as "token" holds "ok". -/
theorem error_response_counterexample :
    containsStr "error".toList
      (GrblController.waitForOk 30000
        ((devicePort "error: bad token\r\n".toList 1).write "$H".toList).2).1 = true ∧
    ((sessionOn (devicePort "error: bad token\r\n".toList 1)).home).1 = true := by
  decide

/-- C6, amended. On a connected session, when the response to `home`, `moveG0`,
`moveG1`, `jog`, `unlock` or `setSetting` holds "error" or "ALARM" and does not hold
"ok", the result of the operation is false. -/
theorem error_response_fails (s : GrblController) (p : SerialPort) (x y z : Option Double)
    (feed distance value : Double) (axis : Char) (id : Int)
    (hc : s.m_connected = true) (hs : s.m_serial = some p) :
    ((containsStr "error".toList (GrblController.waitForOk 30000 (p.write "$H".toList).2).1 = true ∨
      containsStr "ALARM".toList (GrblController.waitForOk 30000 (p.write "$H".toList).2).1 = true) →
      containsStr "ok".toList (GrblController.waitForOk 30000 (p.write "$H".toList).2).1 = false →
      (s.home).1 = false) ∧
    ((containsStr "error".toList
        (GrblController.waitForOk 5000 (p.write (moveG0Cmd x y z)).2).1 = true ∨
      containsStr "ALARM".toList
        (GrblController.waitForOk 5000 (p.write (moveG0Cmd x y z)).2).1 = true) →
      containsStr "ok".toList
        (GrblController.waitForOk 5000 (p.write (moveG0Cmd x y z)).2).1 = false →
      (s.moveG0 x y z).1 = false) ∧
    ((containsStr "error".toList
        (GrblController.waitForOk 5000 (p.write (moveG1Cmd x y z feed)).2).1 = true ∨
      containsStr "ALARM".toList
        (GrblController.waitForOk 5000 (p.write (moveG1Cmd x y z feed)).2).1 = true) →
      containsStr "ok".toList
        (GrblController.waitForOk 5000 (p.write (moveG1Cmd x y z feed)).2).1 = false →
      (s.moveG1 x y z feed).1 = false) ∧
    ((containsStr "error".toList
        (GrblController.waitForOk 5000 (p.write (jogCmd axis distance feed)).2).1 = true ∨
      containsStr "ALARM".toList
        (GrblController.waitForOk 5000 (p.write (jogCmd axis distance feed)).2).1 = true) →
      containsStr "ok".toList
        (GrblController.waitForOk 5000 (p.write (jogCmd axis distance feed)).2).1 = false →
      (s.jog axis distance feed).1 = false) ∧
    ((containsStr "error".toList (GrblController.waitForOk 2000 (p.write "$X".toList).2).1 = true ∨
      containsStr "ALARM".toList (GrblController.waitForOk 2000 (p.write "$X".toList).2).1 = true) →
      containsStr "ok".toList (GrblController.waitForOk 2000 (p.write "$X".toList).2).1 = false →
      (s.unlock).1 = false) ∧
    ((containsStr "error".toList
        (GrblController.waitForOk 2000 (p.write (setSettingCmd id value)).2).1 = true ∨
      containsStr "ALARM".toList
        (GrblController.waitForOk 2000 (p.write (setSettingCmd id value)).2).1 = true) →
      containsStr "ok".toList
        (GrblController.waitForOk 2000 (p.write (setSettingCmd id value)).2).1 = false →
      (s.setSetting id value).1 = false) := by
  refine ⟨?_, ?_, ?_, ?_, ?_, ?_⟩ <;>
  · intro _ hok
    rw [← hok]
    exact queued_result s p _ _ _ hc hs

/-- C6 amended, on a device that answers "error:9": the response holds "error" and no
"ok", and `home` returns false. -/
theorem error_response_fails_witness :
    containsStr "error".toList
      (GrblController.waitForOk 30000
        ((devicePort "error:9\r\n".toList 1).write "$H".toList).2).1 = true ∧
    ((sessionOn (devicePort "error:9\r\n".toList 1)).home).1 = false := by
  have h := (error_response_fails (sessionOn (devicePort "error:9\r\n".toList 1))
    (devicePort "error:9\r\n".toList 1) none none none 0 0 0 'X' 0 rfl rfl).1
    (Or.inl (by decide)) (by decide)
  exact ⟨by decide, h⟩

/-- C10. On a connected session, when the line read in answer to the status query is
empty or does not begin with '<', `getStatus` returns the state "Unknown" with every
other field at its default: both positions (0,0,0), feed 0, spindle 0, the three
overrides 100, no pins and both buffer counters 0. The function is total: nothing is
raised. -/
theorem getStatus_unknown (s : GrblController) (p : SerialPort)
    (hc : s.m_connected = true) (hs : s.m_serial = some p)
    (h : ((p.writeByte '?').2.readLine 500).1 = [] ∨
         ((p.writeByte '?').2.readLine 500).1.head? ≠ some '<') :
    (s.getStatus).1 =
      { state := "Unknown".toList, machinePos := { x := 0, y := 0, z := 0 },
        workPos := { x := 0, y := 0, z := 0 }, feedRate := 0, spindleSpeed := 0,
        feedOverride := 100, rapidOverride := 100, spindleOverride := 100,
        inputPins := [], bufferPlannerAvail := 0, bufferRxAvail := 0 } := by
  unfold GrblController.getStatus
  simp only [hc, hs]
  rcases h with h | h
  · simp [h]
  · simp [h]

/-- C10 on a device that answers the status query with the line "ok": the status is
"Unknown" with the defaults. -/
theorem getStatus_unknown_witness :
    ((sessionOn (devicePort "ok\r\n".toList 1)).getStatus).1 =
      { state := "Unknown".toList, machinePos := { x := 0, y := 0, z := 0 },
        workPos := { x := 0, y := 0, z := 0 }, feedRate := 0, spindleSpeed := 0,
        feedOverride := 100, rapidOverride := 100, spindleOverride := 100,
        inputPins := [], bufferPlannerAvail := 0, bufferRxAvail := 0 } :=
  getStatus_unknown (sessionOn (devicePort "ok\r\n".toList 1)) (devicePort "ok\r\n".toList 1)
    rfl rfl (Or.inr (by decide))

/-! ## Facts about searching a frame -/

theorem prefix_colon_iff (q u rest : Str) (hq : ':' ∉ q) (hu : ':' ∉ u) :
    (q ++ [':']) <+: (u ++ ':' :: rest) ↔ q = u := by
  constructor
  · intro h
    have hq2 : q <+: u ++ ':' :: rest := (List.prefix_append q [':']).trans h
    have hu2 : u <+: u ++ ':' :: rest := List.prefix_append _ _
    rcases List.prefix_or_prefix_of_prefix hq2 hu2 with ⟨t, rfl⟩ | ⟨t, rfl⟩
    · rw [List.append_assoc, List.prefix_append_right_inj] at h
      cases t with
      | nil => simp
      | cons a t =>
        have := (List.cons_prefix_cons.mp h).1
        exact absurd (by simp [← this]) hu
    · rw [List.append_assoc, List.prefix_append_right_inj] at h
      cases t with
      | nil => simp
      | cons a t =>
        have := (List.cons_prefix_cons.mp h).1
        exact absurd (by simp [this]) hq
  · rintro rfl
    rw [List.prefix_append_right_inj]
    exact List.cons_prefix_cons.mpr ⟨rfl, List.nil_prefix⟩

theorem findStr_cons (pat : Str) (c : Char) (cs : Str) :
    findStr pat (c :: cs) =
      if pat <+: c :: cs then some 0 else (findStr pat cs).map (· + 1) := by
  rw [findStr]
  by_cases h : pat <+: c :: cs
  · rw [if_pos h, if_pos (List.isPrefixOf_iff_prefix.mpr h)]
  · rw [if_neg h, if_neg (fun hp => h (List.isPrefixOf_iff_prefix.mp hp))]

/-- The pattern `q:` is found where the text before the first colon ends with `q`. -/
theorem findStr_hop_found (q u rest : Str) (hq : ':' ∉ q) (hu : ':' ∉ u) (hs : q <:+ u) :
    findStr (q ++ [':']) (u ++ ':' :: rest) = some (u.length - q.length) := by
  induction u with
  | nil =>
    have hq0 : q = [] := List.suffix_nil.mp hs
    subst hq0
    simp [findStr_cons]
  | cons c u ih =>
    rw [List.cons_append, findStr_cons]
    have hp := prefix_colon_iff q (c :: u) rest hq hu
    rw [List.cons_append] at hp
    by_cases he : q = c :: u
    · rw [if_pos (hp.mpr he), he]
      simp
    · rw [if_neg (fun h => he (hp.mp h))]
      have hs2 : q <:+ u := by
        rcases List.suffix_cons_iff.mp hs with h | h
        · exact absurd h he
        · exact h
      rw [ih (fun h => hu (List.mem_cons_of_mem _ h)) hs2]
      have := hs2.length_le
      simp only [Option.map_some', List.length_cons]
      congr 1
      omega

/-- The pattern `q:` is not found before the first colon when the text before that
colon does not end with `q`: the search goes on after the colon. -/
theorem findStr_hop_skip (q u rest : Str) (hq : ':' ∉ q) (hu : ':' ∉ u) (hs : ¬ q <:+ u) :
    findStr (q ++ [':']) (u ++ ':' :: rest)
      = (findStr (q ++ [':']) rest).map (· + (u.length + 1)) := by
  induction u with
  | nil =>
    have hq0 : q ≠ [] := fun h => hs (h ▸ List.suffix_refl _)
    have hp := prefix_colon_iff q [] rest hq hu
    rw [List.nil_append] at hp ⊢
    rw [findStr_cons, if_neg (fun h => hq0 (hp.mp h))]
    simp
  | cons c u ih =>
    rw [List.cons_append, findStr_cons]
    have hp := prefix_colon_iff q (c :: u) rest hq hu
    rw [List.cons_append] at hp
    have he : q ≠ c :: u := fun h => hs (h ▸ List.suffix_refl _)
    rw [if_neg (fun h => he (hp.mp h))]
    have hs2 : ¬ q <:+ u := fun h => hs (List.suffix_cons_iff.mpr (Or.inr h))
    rw [ih (fun h => hu (List.mem_cons_of_mem _ h)) hs2]
    cases findStr (q ++ [':']) rest with
    | none => rfl
    | some n =>
      simp only [Option.map_some', List.length_cons]
      congr 1

theorem findStr_no_colon (q s : Str) (hs : ':' ∉ s) : findStr (q ++ [':']) s = none := by
  have h : ¬ (q ++ [':']) <:+: s := by
    rintro ⟨a, b, rfl⟩
    exact hs (by simp)
  have h2 : containsStr (q ++ [':']) s = false := by
    rw [Bool.eq_false_iff]
    exact fun hc => h ((containsStr_iff_occurs _ _).mp hc)
  simpa [containsStr] using h2

theorem suffix_append_lit (q a b : Str) (h : q.length ≤ b.length) : q <:+ a ++ b ↔ q <:+ b :=
  ⟨fun hq => List.suffix_of_suffix_length_le hq (List.suffix_append a b) h,
   fun hq => hq.trans (List.suffix_append a b)⟩

theorem findFirstOf_append (set u rest : Str) (d : Char) (hu : ∀ c ∈ u, set.contains c = false)
    (hd : set.contains d = true) : findFirstOf set (u ++ d :: rest) = some u.length := by
  induction u with
  | nil =>
    rw [List.nil_append, findFirstOf, if_pos hd]
    rfl
  | cons c u ih =>
    rw [List.cons_append, findFirstOf, hu c (List.mem_cons_self _ _),
      ih (fun c hc => hu c (List.mem_cons_of_mem _ hc))]
    rfl


/-! ## Facts about scanning numbers -/

theorem takeWhile_append_stop (q : Char → Bool) (ds tail : Str) (hds : ds.all q = true)
    (ht : ∀ c, tail.head? = some c → q c = false) :
    (ds ++ tail).takeWhile q = ds ∧ (ds ++ tail).dropWhile q = tail := by
  induction ds with
  | nil =>
    cases tail with
    | nil => simp
    | cons c t =>
      have := ht c rfl
      simp [List.takeWhile, List.dropWhile, this]
  | cons d ds ih =>
    have hd : q d = true ∧ ds.all q = true := by simpa using hds
    obtain ⟨h1, h2⟩ := ih hd.2
    simp [List.takeWhile, List.dropWhile, hd.1, h1, h2]

theorem endsNumber_digit (tail : Str) (h : EndsNumber tail) :
    ∀ c, tail.head? = some c → Char.isDigit c = false :=
  fun c hc => (h c hc).1

theorem endsNumber_cons (c : Char) (rest : Str) (h1 : c.isDigit = false) (h2 : c ≠ '.')
    (h3 : c ≠ 'e') (h4 : c ≠ 'E') : EndsNumber (c :: rest) := by
  intro d hd
  have : c = d := by simpa using hd
  subst this
  exact ⟨h1, h2, h3, h4⟩

theorem endsNumber_nil : EndsNumber [] := by
  intro d hd
  simp at hd

theorem scanFraction_frac (fp tail : Str) (hfp : fp.all Char.isDigit = true)
    (ht : EndsNumber tail) :
    scanFraction ((if fp.isEmpty then [] else '.' :: fp) ++ tail) = (fp, tail) := by
  cases fp with
  | nil =>
    cases tail with
    | nil => rfl
    | cons c t =>
      have := (ht c rfl).2.1
      simp [scanFraction, this]
  | cons d fp =>
    obtain ⟨h1, h2⟩ := takeWhile_append_stop Char.isDigit (d :: fp) tail hfp (endsNumber_digit tail ht)
    simp only [List.isEmpty_cons, Bool.false_eq_true, if_false, List.cons_append, scanFraction,
      if_true]
    rw [List.cons_append] at h1 h2
    rw [h1, h2]

theorem scanExponent_none (b : Bool) (tail : Str) (ht : EndsNumber tail) :
    scanExponent b tail = (false, false, [], tail) := by
  cases tail with
  | nil => rfl
  | cons c t =>
    obtain ⟨_, _, h3, h4⟩ := ht c rfl
    simp [scanExponent, h3, h4]

theorem scanSign_digit (c : Char) (r : Str) (hc : c.isDigit = true) :
    scanSign (c :: r) = (false, c :: r) := by
  have h1 : c ≠ '-' := by rintro rfl; exact absurd hc (by decide)
  have h2 : c ≠ '+' := by rintro rfl; exact absurd hc (by decide)
  simp [scanSign, h1, h2]

theorem isSpace_digit (c : Char) (hc : c.isDigit = true) : isSpace c = false := by
  have h1 : c ≠ ' ' := by rintro rfl; exact absurd hc (by decide)
  have h2 : c ≠ '\t' := by rintro rfl; exact absurd hc (by decide)
  have h3 : c ≠ '\n' := by rintro rfl; exact absurd hc (by decide)
  have h4 : c ≠ '\x0b' := by rintro rfl; exact absurd hc (by decide)
  have h5 : c ≠ '\x0c' := by rintro rfl; exact absurd hc (by decide)
  have h6 : c ≠ '\r' := by rintro rfl; exact absurd hc (by decide)
  simp [isSpace, h1, h2, h3, h4, h5, h6]

/-- Skipping white space and an optional sign in front of a signed run of digits. -/
theorem scanSign_signed (neg : Bool) (ds tail : Str) (hne : ds ≠ [])
    (hds : ds.all Char.isDigit = true) :
    ((if neg then ['-'] else []) ++ (ds ++ tail)).dropWhile isSpace
        = (if neg then ['-'] else []) ++ (ds ++ tail) ∧
    scanSign ((if neg then ['-'] else []) ++ (ds ++ tail)) = (neg, ds ++ tail) := by
  cases ds with
  | nil => exact absurd rfl hne
  | cons d ds =>
    have hd : d.isDigit = true ∧ ds.all Char.isDigit = true := by simpa using hds
    cases neg with
    | true =>
      refine ⟨?_, ?_⟩
      · simp [List.dropWhile, isSpace]
      · simp [scanSign]
    | false =>
      refine ⟨?_, ?_⟩
      · simp [List.dropWhile, isSpace_digit d hd.1]
      · simpa using scanSign_digit d (ds ++ tail) hd.1

theorem scanNumber_decimal (d : Decimal) (tail : Str) (hd : d.WF) (ht : EndsNumber tail) :
    (d.text ++ tail).dropWhile isSpace = d.text ++ tail ∧
    scanNumber (d.text ++ tail) =
      { neg := d.neg, ip := d.ip, fp := d.fp, hasExp := false, eneg := false, ed := [],
        rest := tail } := by
  obtain ⟨hne, hip, hfp⟩ := hd
  have htxt : d.text ++ tail
      = (if d.neg then ['-'] else []) ++ (d.ip ++ ((if d.fp.isEmpty then [] else '.' :: d.fp) ++ tail)) := by
    simp [Decimal.text]
  obtain ⟨h1, h2⟩ := scanSign_signed d.neg d.ip
    ((if d.fp.isEmpty then [] else '.' :: d.fp) ++ tail) hne hip
  have hstop : ∀ c, ((if d.fp.isEmpty then [] else '.' :: d.fp) ++ tail).head? = some c →
      Char.isDigit c = false := by
    intro c hc
    cases hfe : d.fp with
    | nil =>
      rw [hfe] at hc
      exact (ht c (by simpa using hc)).1
    | cons a fp =>
      rw [hfe] at hc
      have : c = '.' := by simpa using hc.symm
      rw [this]
      decide
  obtain ⟨h3, h4⟩ := takeWhile_append_stop Char.isDigit d.ip _ hip hstop
  rw [htxt]
  refine ⟨h1, ?_⟩
  simp only [scanNumber, h2, h3, h4, scanFraction_frac d.fp tail hfp ht, scanExponent_none _ tail ht]

theorem istreamDouble_decimal (d : Decimal) (tail : Str) (hd : d.WF) (hr : d.InRange)
    (ht : EndsNumber tail) :
    istreamDouble (d.text ++ tail) = (d.value, some tail) := by
  obtain ⟨h1, h2⟩ := scanNumber_decimal d tail hd ht
  have hne : (d.ip ++ d.fp).isEmpty = false := by
    cases hip : d.ip with
    | nil => exact absurd hip hd.1
    | cons a l => rfl
  have hv : overflowsDouble (decimalValue d.neg d.ip d.fp 0) = false := hr
  simp [istreamDouble, h1, h2, hne, NumTok.value, Decimal.value, hv]

theorem scanfDouble_decimal (d : Decimal) (tail : Str) (hd : d.WF) (ht : EndsNumber tail) :
    scanfDouble (d.text ++ tail) = some (d.value, tail) := by
  obtain ⟨h1, h2⟩ := scanNumber_decimal d tail hd ht
  have hne : (d.ip ++ d.fp).isEmpty = false := by
    cases hip : d.ip with
    | nil => exact absurd hip hd.1
    | cons a l => rfl
  simp [scanfDouble, h1, h2, hne, NumTok.value, Decimal.value]

theorem readPosition_triple (x y z : Decimal) (hx : x.WF) (hy : y.WF) (hz : z.WF)
    (rx : x.InRange) (ry : y.InRange) (rz : z.InRange) :
    readPosition (x.text ++ (',' :: (y.text ++ (',' :: z.text))))
      = { x := x.value, y := y.value, z := z.value } := by
  have e1 := istreamDouble_decimal x (',' :: (y.text ++ (',' :: z.text))) hx rx
    (endsNumber_cons _ _ (by decide) (by decide) (by decide) (by decide))
  have e2 := istreamDouble_decimal y (',' :: z.text) hy ry
    (endsNumber_cons _ _ (by decide) (by decide) (by decide) (by decide))
  have e3 := istreamDouble_decimal z [] hz rz endsNumber_nil
  rw [List.append_nil] at e3
  have c1 : ∀ r : Str, istreamChar (',' :: r) = some (',', r) := by
    intro r
    simp [istreamChar, List.dropWhile, isSpace]
  simp only [readPosition, e1, c1, e2, e3]

theorem toInt32_fits (n : Int) (h1 : -(2 ^ 31) ≤ n) (h2 : n ≤ 2 ^ 31 - 1) :
    toInt32 (strtolClamp n) = n := by
  have hc : strtolClamp n = n := by
    unfold strtolClamp
    omega
  rw [hc]
  unfold toInt32
  omega

theorem scanfInt_numeral (n : Numeral) (tail : Str) (hn : n.WF) (hf : n.FitsInt)
    (ht : ∀ c, tail.head? = some c → Char.isDigit c = false) :
    scanfInt (n.text ++ tail) = some (n.value, tail) := by
  obtain ⟨hne, hds⟩ := hn
  obtain ⟨h1, h2⟩ := scanSign_signed n.neg n.digits tail hne hds
  obtain ⟨h3, h4⟩ := takeWhile_append_stop Char.isDigit n.digits tail hds ht
  have htxt : n.text ++ tail = (if n.neg then ['-'] else []) ++ (n.digits ++ tail) := by
    simp [Numeral.text]
  have hne2 : n.digits.isEmpty = false := by
    cases hd : n.digits with
    | nil => exact absurd hd hne
    | cons a l => rfl
  have hv := toInt32_fits n.value hf.1 hf.2
  unfold Numeral.value at hv
  rw [htxt]
  simp only [scanfInt, h1, h2, h3, h4, hne2, Bool.false_eq_true, if_false, hv, Numeral.value]

/-! ## Facts about parsing a frame -/

theorem foundAt_here (q u rest : Str) (hq : ':' ∉ q) (hu : ':' ∉ u) (hs : q <:+ u) :
    FoundAt (q ++ [':']) (u ++ ':' :: rest) (u.length - q.length) rest := by
  have hl := hs.length_le
  refine ⟨findStr_hop_found q u rest hq hu hs, ?_, ?_⟩
  · simp only [List.length_append, List.length_cons, List.length_nil]
    omega
  · have e : u.length - q.length + (q ++ [':']).length = u.length + 1 := by
      simp only [List.length_append, List.length_cons, List.length_nil]
      omega
    rw [e, show u ++ ':' :: rest = (u ++ [':']) ++ rest by simp]
    exact List.drop_left' (by simp)

theorem foundAt_later (q u rest : Str) (i : Nat) (post : Str) (hq : ':' ∉ q) (hu : ':' ∉ u)
    (hs : ¬ q <:+ u) (h : FoundAt (q ++ [':']) rest i post) :
    FoundAt (q ++ [':']) (u ++ ':' :: rest) (i + (u.length + 1)) post := by
  obtain ⟨h1, h2, h3⟩ := h
  refine ⟨?_, ?_, ?_⟩
  · rw [findStr_hop_skip q u rest hq hu hs, h1]
    rfl
  · simp only [List.length_append, List.length_cons] at h2 ⊢
    omega
  · have e : i + (u.length + 1) + (q ++ [':']).length
        = (u ++ [':']).length + (i + (q ++ [':']).length) := by
      simp only [List.length_append, List.length_cons, List.length_nil]
      omega
    rw [e, show u ++ ':' :: rest = (u ++ [':']) ++ rest by simp, List.drop_append]
    exact h3

theorem cstr_append (t rest : Str) (ht : '\x00' ∉ t) : cstr (t ++ rest) = t ++ cstr rest := by
  induction t with
  | nil => rfl
  | cons c t ih =>
    have hc : (c != '\x00') = true := by
      have : c ≠ '\x00' := fun h => ht (by simp [h])
      simpa using this
    have := ih (fun h => ht (List.mem_cons_of_mem _ h))
    unfold cstr at this ⊢
    rw [List.cons_append, List.takeWhile_cons, if_pos hc, this, List.cons_append]

theorem cstr_cons (c : Char) (rest : Str) (hc : c ≠ '\x00') : cstr (c :: rest) = c :: cstr rest := by
  have hc2 : (c != '\x00') = true := by simpa using hc
  unfold cstr
  rw [List.takeWhile_cons, if_pos hc2]

theorem sizeSub_some (e b : Nat) (h : b ≤ e) : sizeSub (some e) b = e - b := by
  simp [sizeSub, h]

theorem segment_of_drop (fr seg r set : Str) (d : Char) (k : Nat) (hk : k ≤ fr.length)
    (hd : fr.drop k = seg ++ d :: r) (hseg : ∀ c ∈ seg, set.contains c = false)
    (hset : set.contains d = true) :
    findFirstOfFrom set fr k = some (seg.length + k) ∧
    substr fr k (sizeSub (some (seg.length + k)) k) = seg := by
  have h1 : findFirstOfFrom set fr k = some (seg.length + k) := by
    unfold findFirstOfFrom
    rw [if_neg (by omega), hd, findFirstOf_append set seg r d hseg hset]
    rfl
  refine ⟨h1, ?_⟩
  unfold substr sizeSub
  simp only [hd]
  rw [if_pos (by omega), Nat.add_sub_cancel]
  exact List.take_left' rfl

theorem contains_singleton_false (d c : Char) (h : c ≠ d) : [d].contains c = false := by
  simp [h]

/-- The parse of a frame in which every segment has been located. -/
theorem parseStatus_segments (fr S rest0 mseg rM wseg rW rB rF rO P rP : Str)
    (iM iW iB iF iO iP : Nat) (p r a b c : Int) (f sp : Double) (e : Char)
    (h0 : fr = '<' :: (S ++ '|' :: rest0)) (hS : '|' ∉ S)
    (hM : FoundAt "MPos:".toList fr iM (mseg ++ '|' :: rM)) (hmseg : '|' ∉ mseg)
    (hW : FoundAt "WPos:".toList fr iW (wseg ++ '|' :: rW)) (hwseg : '|' ∉ wseg)
    (hB : FoundAt "Bf:".toList fr iB rB) (hb : sscanf_d_d (cstr rB) = some (p, r))
    (hF : FoundAt "FS:".toList fr iF rF) (hf : sscanf_lf_lf (cstr rF) = some (f, sp))
    (hL : findStr "|F:".toList fr = none)
    (hO : FoundAt "Ov:".toList fr iO rO) (ho : sscanf_d_d_d (cstr rO) = some (a, b, c))
    (hP : FoundAt "Pn:".toList fr iP (P ++ e :: rP)) (hPseg : '|' ∉ P ∧ '>' ∉ P)
    (he : e = '|' ∨ e = '>') :
    GrblController.parseStatus fr =
      { state := S, machinePos := readPosition mseg, workPos := readPosition wseg,
        feedRate := f, spindleSpeed := sp, feedOverride := a, rapidOverride := b,
        spindleOverride := c, inputPins := P, bufferPlannerAvail := p, bufferRxAvail := r } := by
  -- the state label
  have hst := segment_of_drop fr ('<' :: S) rest0 ['|'] '|' 0 (Nat.zero_le _)
    (by rw [h0]; rfl)
    (by
      intro x hx
      rcases List.mem_cons.mp hx with rfl | hx
      · decide
      · exact contains_singleton_false _ _ (fun h => hS (h ▸ hx)))
    (by decide)
  have hst1 : findChar '|' fr = some (S.length + 1) := by
    simpa [findChar, findCharFrom] using hst.1
  have hlen : 1 < fr.length := by
    rw [h0]
    simp
  have hst2 : substr fr 1 (sizeSub (some (S.length + 1)) 1) = S := by
    rw [sizeSub_some _ _ (by omega), Nat.add_sub_cancel, h0]
    exact List.take_left' rfl
  -- the positions
  obtain ⟨hM1, hM2, hM3⟩ := hM
  obtain ⟨hW1, hW2, hW3⟩ := hW
  obtain ⟨hB1, _, hB3⟩ := hB
  obtain ⟨hF1, _, hF3⟩ := hF
  obtain ⟨hO1, _, hO3⟩ := hO
  obtain ⟨hP1, hP2, hP3⟩ := hP
  have l5 : "MPos:".toList.length = 5 := rfl
  have l5w : "WPos:".toList.length = 5 := rfl
  have l3b : "Bf:".toList.length = 3 := rfl
  have l3f : "FS:".toList.length = 3 := rfl
  have l3o : "Ov:".toList.length = 3 := rfl
  have l3p : "Pn:".toList.length = 3 := rfl
  rw [l5] at hM2 hM3
  rw [l5w] at hW2 hW3
  rw [l3b] at hB3
  rw [l3f] at hF3
  rw [l3o] at hO3
  rw [l3p] at hP2 hP3
  have hMs := segment_of_drop fr mseg rM ['|'] '|' (iM + 5) hM2 hM3
    (fun x hx => contains_singleton_false _ _ (fun h => hmseg (h ▸ hx))) (by decide)
  have hWs := segment_of_drop fr wseg rW ['|'] '|' (iW + 5) hW2 hW3
    (fun x hx => contains_singleton_false _ _ (fun h => hwseg (h ▸ hx))) (by decide)
  have hPs := segment_of_drop fr P rP "|>".toList e (iP + 3) hP2 hP3
    (by
      intro x hx
      have h1 : x ≠ '|' := fun h => hPseg.1 (h ▸ hx)
      have h2 : x ≠ '>' := fun h => hPseg.2 (h ▸ hx)
      simp [h1, h2])
    (by rcases he with rfl | rfl <;> decide)
  unfold GrblController.parseStatus
  simp only [hst1, Option.isSome_some, hlen, gt_iff_lt, decide_True, Bool.and_self, if_true,
    hst2, hM1, findCharFrom, hMs.1, hMs.2, hW1, hWs.1, hWs.2, hB1, hB3, hb, hF1, hF3, hf, hL,
    hO1, hO3, ho, hP1, hPs.1, hPs.2]
  by_cases hz : f = 0
  · simp [hz]
  · simp [hz]

theorem decimal_text_chars (d : Decimal) (hd : d.WF) :
    ∀ c ∈ d.text, c = '-' ∨ c = '.' ∨ c.isDigit = true := by
  obtain ⟨_, hip, hfp⟩ := hd
  intro c hc
  unfold Decimal.text at hc
  rcases List.mem_append.mp hc with h | h
  · by_cases hn : d.neg = true
    · simp [hn] at h
      exact Or.inl h
    · simp [hn] at h
  · rcases List.mem_append.mp h with h | h
    · exact Or.inr (Or.inr (List.all_eq_true.mp hip c h))
    · by_cases he : d.fp.isEmpty = true
      · simp [he] at h
      · simp only [he, Bool.false_eq_true, if_false] at h
        rcases List.mem_cons.mp h with h | h
        · exact Or.inr (Or.inl h)
        · exact Or.inr (Or.inr (List.all_eq_true.mp hfp c h))

theorem numeral_text_chars (n : Numeral) (hn : n.WF) :
    ∀ c ∈ n.text, c = '-' ∨ c = '.' ∨ c.isDigit = true := by
  obtain ⟨_, hds⟩ := hn
  intro c hc
  unfold Numeral.text at hc
  rcases List.mem_append.mp hc with h | h
  · by_cases hneg : n.neg = true
    · simp [hneg] at h
      exact Or.inl h
    · simp [hneg] at h
  · exact Or.inr (Or.inr (List.all_eq_true.mp hds c h))

theorem not_mem_of_chars (t : Str) (h : ∀ c ∈ t, c = '-' ∨ c = '.' ∨ c.isDigit = true) (c : Char)
    (h1 : c ≠ '-') (h2 : c ≠ '.') (h3 : c.isDigit = false) : c ∉ t := by
  intro hc
  rcases h c hc with e | e | e
  · exact h1 e
  · exact h2 e
  · rw [h3] at e
    exact Bool.noConfusion e

theorem not_mem_of_letters (t : Str) (h : t.all Char.isAlpha = true) (c : Char)
    (hc : c.isAlpha = false) : c ∉ t := by
  intro hm
  have := List.all_eq_true.mp h c hm
  rw [hc] at this
  exact Bool.noConfusion this

theorem not_suffix_lit (q a b : Str) (hl : q.length ≤ b.length) (hb : ¬ q <:+ b) :
    ¬ q <:+ a ++ b :=
  fun h => hb ((suffix_append_lit q a b hl).mp h)

theorem suffix_lit (q a b : Str) (hb : q <:+ b) : q <:+ a ++ b :=
  hb.trans (List.suffix_append a b)

theorem sscanf_d_d_numerals (p r : Numeral) (tail : Str) (hp : p.WF) (hr : r.WF)
    (fp : p.FitsInt) (fr : r.FitsInt) (ht : ∀ c, tail.head? = some c → Char.isDigit c = false) :
    sscanf_d_d (p.text ++ ',' :: (r.text ++ tail)) = some (p.value, r.value) := by
  have e1 := scanfInt_numeral p (',' :: (r.text ++ tail)) hp fp
    (by intro c hc; have : c = ',' := by simpa using hc.symm
        rw [this]; decide)
  have e2 := scanfInt_numeral r tail hr fr ht
  simp only [sscanf_d_d, e1, e2]

theorem sscanf_d_d_d_numerals (a b c : Numeral) (tail : Str) (ha : a.WF) (hb : b.WF) (hc : c.WF)
    (fa : a.FitsInt) (fb : b.FitsInt) (fc : c.FitsInt)
    (ht : ∀ c, tail.head? = some c → Char.isDigit c = false) :
    sscanf_d_d_d (a.text ++ ',' :: (b.text ++ ',' :: (c.text ++ tail)))
      = some (a.value, b.value, c.value) := by
  have e1 := scanfInt_numeral a (',' :: (b.text ++ ',' :: (c.text ++ tail))) ha fa
    (by intro x hx; have : x = ',' := by simpa using hx.symm
        rw [this]; decide)
  have e2 := scanfInt_numeral b (',' :: (c.text ++ tail)) hb fb
    (by intro x hx; have : x = ',' := by simpa using hx.symm
        rw [this]; decide)
  have e3 := scanfInt_numeral c tail hc fc ht
  simp only [sscanf_d_d_d, e1, e2, e3]

theorem sscanf_lf_lf_decimals (f s : Decimal) (tail : Str) (hf : f.WF) (hs : s.WF)
    (ht : EndsNumber tail) :
    sscanf_lf_lf (f.text ++ ',' :: (s.text ++ tail)) = some (f.value, s.value) := by
  have e1 := scanfDouble_decimal f (',' :: (s.text ++ tail)) hf
    (endsNumber_cons _ _ (by decide) (by decide) (by decide) (by decide))
  have e2 := scanfDouble_decimal s tail hs ht
  simp only [sscanf_lf_lf, e1, e2]

/-- The frame, cut at its colons: before each colon stands a segment body and the
name of the next segment. -/
theorem statusFrame_cut (S : Str) (x y z u v w : Decimal) (p r : Numeral) (f s : Decimal)
    (a b c : Numeral) (P : Str) :
    statusFrame S x y z u v w p r f s a b c P =
      (('<' :: S) ++ "|MPos".toList) ++ ':' ::
      (((x.text ++ ',' :: (y.text ++ ',' :: z.text)) ++ "|WPos".toList) ++ ':' ::
      (((u.text ++ ',' :: (v.text ++ ',' :: w.text)) ++ "|Bf".toList) ++ ':' ::
      (((p.text ++ ',' :: r.text) ++ "|FS".toList) ++ ':' ::
      (((f.text ++ ',' :: s.text) ++ "|Ov".toList) ++ ':' ::
      (((a.text ++ ',' :: (b.text ++ ',' :: c.text)) ++ "|Pn".toList) ++ ':' ::
      (P ++ ['>'])))))) := by
  simp [statusFrame]

/-- C1, amended. For every frame `<S|MPos:x,y,z|WPos:u,v,w|Bf:p,r|FS:f,s|Ov:a,b,c|Pn:P>`
with S and P made of letters, x, y, z, u, v, w, f, s decimal numbers within the range of
the type `double` and p, r, a, b, c integers that fit the type `int`, `parseStatus`
returns the state S, the machine
position (x,y,z), the work position (u,v,w), the buffer counters p and r, the feed f,
the spindle speed s, the overrides (a,b,c) and the pins P. -/
theorem parseStatus_frame (S P : Str) (x y z u v w : Decimal) (p r : Numeral) (f s : Decimal)
    (a b c : Numeral)
    (hS : S.all Char.isAlpha = true) (hP : P.all Char.isAlpha = true)
    (hx : x.WF) (hy : y.WF) (hz : z.WF) (hu : u.WF) (hv : v.WF) (hw : w.WF)
    (hp : p.WF) (hr : r.WF) (hf : f.WF) (hs : s.WF) (ha : a.WF) (hb : b.WF) (hc : c.WF)
    (rx : x.InRange) (ry : y.InRange) (rz : z.InRange) (ru : u.InRange) (rv : v.InRange)
    (rw : w.InRange) (_rf : f.InRange) (_rs : s.InRange)
    (fp : p.FitsInt) (fr : r.FitsInt) (fa : a.FitsInt) (fb : b.FitsInt) (fc : c.FitsInt) :
    GrblController.parseStatus (statusFrame S x y z u v w p r f s a b c P) =
      { state := S,
        machinePos := { x := x.value, y := y.value, z := z.value },
        workPos := { x := u.value, y := v.value, z := w.value },
        feedRate := f.value, spindleSpeed := s.value,
        feedOverride := a.value, rapidOverride := b.value, spindleOverride := c.value,
        inputPins := P, bufferPlannerAvail := p.value, bufferRxAvail := r.value } := by
  -- bytes that cannot occur in the pieces
  have dch : ∀ d : Decimal, d.WF → ∀ ch : Char, ch ≠ '-' → ch ≠ '.' → ch.isDigit = false →
      ch ∉ d.text := fun d hd ch => not_mem_of_chars _ (decimal_text_chars d hd) ch
  have nch : ∀ n : Numeral, n.WF → ∀ ch : Char, ch ≠ '-' → ch ≠ '.' → ch.isDigit = false →
      ch ∉ n.text := fun n hn ch => not_mem_of_chars _ (numeral_text_chars n hn) ch
  have dcol : ∀ d : Decimal, d.WF → ':' ∉ d.text := fun d hd =>
    dch d hd ':' (by decide) (by decide) (by decide)
  have ncol : ∀ n : Numeral, n.WF → ':' ∉ n.text := fun n hn =>
    nch n hn ':' (by decide) (by decide) (by decide)
  have dbar : ∀ d : Decimal, d.WF → '|' ∉ d.text := fun d hd =>
    dch d hd '|' (by decide) (by decide) (by decide)
  have dnul : ∀ d : Decimal, d.WF → '\x00' ∉ d.text := fun d hd =>
    dch d hd '\x00' (by decide) (by decide) (by decide)
  have nnul : ∀ n : Numeral, n.WF → '\x00' ∉ n.text := fun n hn =>
    nch n hn '\x00' (by decide) (by decide) (by decide)
  have cS : ':' ∉ S := not_mem_of_letters S hS ':' (by decide)
  have bS : '|' ∉ S := not_mem_of_letters S hS '|' (by decide)
  have cP : ':' ∉ P := not_mem_of_letters P hP ':' (by decide)
  have bP : '|' ∉ P := not_mem_of_letters P hP '|' (by decide)
  have gP : '>' ∉ P := not_mem_of_letters P hP '>' (by decide)
  -- no colon before the colon of each segment name
  have c1 : ':' ∉ ('<' :: S) ++ "|MPos".toList := by
    simp [cS]
  have c2 : ':' ∉ (x.text ++ ',' :: (y.text ++ ',' :: z.text)) ++ "|WPos".toList := by
    simp [dcol x hx, dcol y hy, dcol z hz]
  have c3 : ':' ∉ (u.text ++ ',' :: (v.text ++ ',' :: w.text)) ++ "|Bf".toList := by
    simp [dcol u hu, dcol v hv, dcol w hw]
  have c4 : ':' ∉ (p.text ++ ',' :: r.text) ++ "|FS".toList := by
    simp [ncol p hp, ncol r hr]
  have c5 : ':' ∉ (f.text ++ ',' :: s.text) ++ "|Ov".toList := by
    simp [dcol f hf, dcol s hs]
  have c6 : ':' ∉ (a.text ++ ',' :: (b.text ++ ',' :: c.text)) ++ "|Pn".toList := by
    simp [ncol a ha, ncol b hb, ncol c hc]
  have c7 : ':' ∉ P ++ ['>'] := by
    simp [cP]
  rw [statusFrame_cut]
  -- the six segment names, each found after the colons before it
  have hMP := foundAt_here "MPos".toList (('<' :: S) ++ "|MPos".toList)
    (((x.text ++ ',' :: (y.text ++ ',' :: z.text)) ++ "|WPos".toList) ++ ':' ::
      (((u.text ++ ',' :: (v.text ++ ',' :: w.text)) ++ "|Bf".toList) ++ ':' ::
      (((p.text ++ ',' :: r.text) ++ "|FS".toList) ++ ':' ::
      (((f.text ++ ',' :: s.text) ++ "|Ov".toList) ++ ':' ::
      (((a.text ++ ',' :: (b.text ++ ',' :: c.text)) ++ "|Pn".toList) ++ ':' ::
      (P ++ ['>']))))))
    (by decide) c1 (suffix_lit _ _ _ (by decide))
  have hWP := foundAt_later "WPos".toList _ _ _ _ (by decide) c1 (not_suffix_lit _ _ _ (by decide) (by decide))
    (foundAt_here "WPos".toList ((x.text ++ ',' :: (y.text ++ ',' :: z.text)) ++ "|WPos".toList)
      (((u.text ++ ',' :: (v.text ++ ',' :: w.text)) ++ "|Bf".toList) ++ ':' ::
      (((p.text ++ ',' :: r.text) ++ "|FS".toList) ++ ':' ::
      (((f.text ++ ',' :: s.text) ++ "|Ov".toList) ++ ':' ::
      (((a.text ++ ',' :: (b.text ++ ',' :: c.text)) ++ "|Pn".toList) ++ ':' ::
      (P ++ ['>'])))))
      (by decide) c2 (suffix_lit _ _ _ (by decide)))
  have hBf := foundAt_later "Bf".toList _ _ _ _ (by decide) c1 (not_suffix_lit _ _ _ (by decide) (by decide))
    (foundAt_later "Bf".toList _ _ _ _ (by decide) c2 (not_suffix_lit _ _ _ (by decide) (by decide))
    (foundAt_here "Bf".toList ((u.text ++ ',' :: (v.text ++ ',' :: w.text)) ++ "|Bf".toList)
      (((p.text ++ ',' :: r.text) ++ "|FS".toList) ++ ':' ::
      (((f.text ++ ',' :: s.text) ++ "|Ov".toList) ++ ':' ::
      (((a.text ++ ',' :: (b.text ++ ',' :: c.text)) ++ "|Pn".toList) ++ ':' ::
      (P ++ ['>']))))
      (by decide) c3 (suffix_lit _ _ _ (by decide))))
  have hFS := foundAt_later "FS".toList _ _ _ _ (by decide) c1 (not_suffix_lit _ _ _ (by decide) (by decide))
    (foundAt_later "FS".toList _ _ _ _ (by decide) c2 (not_suffix_lit _ _ _ (by decide) (by decide))
    (foundAt_later "FS".toList _ _ _ _ (by decide) c3 (not_suffix_lit _ _ _ (by decide) (by decide))
    (foundAt_here "FS".toList ((p.text ++ ',' :: r.text) ++ "|FS".toList)
      (((f.text ++ ',' :: s.text) ++ "|Ov".toList) ++ ':' ::
      (((a.text ++ ',' :: (b.text ++ ',' :: c.text)) ++ "|Pn".toList) ++ ':' ::
      (P ++ ['>'])))
      (by decide) c4 (suffix_lit _ _ _ (by decide)))))
  have hOv := foundAt_later "Ov".toList _ _ _ _ (by decide) c1 (not_suffix_lit _ _ _ (by decide) (by decide))
    (foundAt_later "Ov".toList _ _ _ _ (by decide) c2 (not_suffix_lit _ _ _ (by decide) (by decide))
    (foundAt_later "Ov".toList _ _ _ _ (by decide) c3 (not_suffix_lit _ _ _ (by decide) (by decide))
    (foundAt_later "Ov".toList _ _ _ _ (by decide) c4 (not_suffix_lit _ _ _ (by decide) (by decide))
    (foundAt_here "Ov".toList ((f.text ++ ',' :: s.text) ++ "|Ov".toList)
      (((a.text ++ ',' :: (b.text ++ ',' :: c.text)) ++ "|Pn".toList) ++ ':' ::
      (P ++ ['>']))
      (by decide) c5 (suffix_lit _ _ _ (by decide))))))
  have hPn := foundAt_later "Pn".toList _ _ _ _ (by decide) c1 (not_suffix_lit _ _ _ (by decide) (by decide))
    (foundAt_later "Pn".toList _ _ _ _ (by decide) c2 (not_suffix_lit _ _ _ (by decide) (by decide))
    (foundAt_later "Pn".toList _ _ _ _ (by decide) c3 (not_suffix_lit _ _ _ (by decide) (by decide))
    (foundAt_later "Pn".toList _ _ _ _ (by decide) c4 (not_suffix_lit _ _ _ (by decide) (by decide))
    (foundAt_later "Pn".toList _ _ _ _ (by decide) c5 (not_suffix_lit _ _ _ (by decide) (by decide))
    (foundAt_here "Pn".toList _ (P ++ ['>']) (by decide) c6 (suffix_lit _ _ _ (by decide)))))))
  -- the older feed segment does not occur
  have hLF : findStr "|F:".toList
      ((('<' :: S) ++ "|MPos".toList) ++ ':' ::
      (((x.text ++ ',' :: (y.text ++ ',' :: z.text)) ++ "|WPos".toList) ++ ':' ::
      (((u.text ++ ',' :: (v.text ++ ',' :: w.text)) ++ "|Bf".toList) ++ ':' ::
      (((p.text ++ ',' :: r.text) ++ "|FS".toList) ++ ':' ::
      (((f.text ++ ',' :: s.text) ++ "|Ov".toList) ++ ':' ::
      (((a.text ++ ',' :: (b.text ++ ',' :: c.text)) ++ "|Pn".toList) ++ ':' ::
      (P ++ ['>']))))))) = none := by
    show findStr ("|F".toList ++ [':']) _ = none
    rw [findStr_hop_skip _ _ _ (by decide) c1 (not_suffix_lit _ _ _ (by decide) (by decide)),
      findStr_hop_skip _ _ _ (by decide) c2 (not_suffix_lit _ _ _ (by decide) (by decide)),
      findStr_hop_skip _ _ _ (by decide) c3 (not_suffix_lit _ _ _ (by decide) (by decide)),
      findStr_hop_skip _ _ _ (by decide) c4 (not_suffix_lit _ _ _ (by decide) (by decide)),
      findStr_hop_skip _ _ _ (by decide) c5 (not_suffix_lit _ _ _ (by decide) (by decide)),
      findStr_hop_skip _ _ _ (by decide) c6 (not_suffix_lit _ _ _ (by decide) (by decide)),
      findStr_no_colon _ _ c7]
    rfl
  -- what the scans of the numeric segments give
  have comma : ∀ t : Str, ∀ ch, (',' :: t).head? = some ch → Char.isDigit ch = false := by
    intro t ch h
    have : ch = ',' := by simpa using h.symm
    rw [this]
    decide
  have bar : ∀ t : Str, ∀ ch, ('|' :: t).head? = some ch → Char.isDigit ch = false := by
    intro t ch h
    have : ch = '|' := by simpa using h.symm
    rw [this]
    decide
  have sB : ∀ t : Str, sscanf_d_d (cstr ((p.text ++ ',' :: r.text) ++ '|' :: t))
      = some (p.value, r.value) := by
    intro t
    rw [List.append_assoc, cstr_append _ _ (nnul p hp), List.cons_append, cstr_cons _ _ (by decide),
      cstr_append _ _ (nnul r hr), cstr_cons _ _ (by decide)]
    exact sscanf_d_d_numerals p r _ hp hr fp fr (bar _)
  have sF : ∀ t : Str, sscanf_lf_lf (cstr ((f.text ++ ',' :: s.text) ++ '|' :: t))
      = some (f.value, s.value) := by
    intro t
    rw [List.append_assoc, cstr_append _ _ (dnul f hf), List.cons_append, cstr_cons _ _ (by decide),
      cstr_append _ _ (dnul s hs), cstr_cons _ _ (by decide)]
    exact sscanf_lf_lf_decimals f s _ hf hs
      (endsNumber_cons _ _ (by decide) (by decide) (by decide) (by decide))
  have sO : ∀ t : Str, sscanf_d_d_d (cstr ((a.text ++ ',' :: (b.text ++ ',' :: c.text)) ++ '|' :: t))
      = some (a.value, b.value, c.value) := by
    intro t
    rw [List.append_assoc, cstr_append _ _ (nnul a ha), List.cons_append, cstr_cons _ _ (by decide),
      List.append_assoc, cstr_append _ _ (nnul b hb), List.cons_append, cstr_cons _ _ (by decide),
      cstr_append _ _ (nnul c hc), cstr_cons _ _ (by decide)]
    exact sscanf_d_d_d_numerals a b c _ ha hb hc fa fb fc (bar _)
  have bM : '|' ∉ x.text ++ ',' :: (y.text ++ ',' :: z.text) := by
    simp [dbar x hx, dbar y hy, dbar z hz]
  have bW : '|' ∉ u.text ++ ',' :: (v.text ++ ',' :: w.text) := by
    simp [dbar u hu, dbar v hv, dbar w hw]
  have key := parseStatus_segments _ S _ (x.text ++ ',' :: (y.text ++ ',' :: z.text)) _
    (u.text ++ ',' :: (v.text ++ ',' :: w.text)) _ _ _ _ P [] _ _ _ _ _ _
    p.value r.value a.value b.value c.value f.value s.value '>'
    (by simp; rfl) bS
    (by simpa using hMP) bM (by simpa using hWP) bW (by simpa using hBf) (sB _)
    (by simpa using hFS) (sF _) hLF (by simpa using hOv) (sO _) (by simpa using hPn) ⟨bP, gP⟩
    (Or.inr rfl)
  rw [key, readPosition_triple x y z hx hy hz rx ry rz, readPosition_triple u v w hu hv hw ru rv rw]


/-- C1 at the frame of the specification: state "Idle", machine position (1,2,3), work
position (0.5,0.5,0.5), buffer counters 15 and 128, feed 500, spindle 0, overrides
(100,100,100) and pins "XYZ". -/
theorem parseStatus_frame_witness :
    GrblController.parseStatus
      "<Idle|MPos:1.000,2.000,3.000|WPos:0.500,0.500,0.500|Bf:15,128|FS:500.0,0.0|Ov:100,100,100|Pn:XYZ>".toList
      = { state := "Idle".toList,
          machinePos := { x := 1, y := 2, z := 3 },
          workPos := { x := 1 / 2, y := 1 / 2, z := 1 / 2 },
          feedRate := 500, spindleSpeed := 0,
          feedOverride := 100, rapidOverride := 100, spindleOverride := 100,
          inputPins := "XYZ".toList, bufferPlannerAvail := 15, bufferRxAvail := 128 } := by
  have h := parseStatus_frame "Idle".toList "XYZ".toList
    ⟨false, "1".toList, "000".toList⟩ ⟨false, "2".toList, "000".toList⟩
    ⟨false, "3".toList, "000".toList⟩ ⟨false, "0".toList, "500".toList⟩
    ⟨false, "0".toList, "500".toList⟩ ⟨false, "0".toList, "500".toList⟩
    ⟨false, "15".toList⟩ ⟨false, "128".toList⟩
    ⟨false, "500".toList, "0".toList⟩ ⟨false, "0".toList, "0".toList⟩
    ⟨false, "100".toList⟩ ⟨false, "100".toList⟩ ⟨false, "100".toList⟩
    (by decide) (by decide) (by decide) (by decide) (by decide) (by decide) (by decide)
    (by decide) (by decide) (by decide) (by decide) (by decide) (by decide) (by decide)
    (by decide) (by decide!) (by decide!) (by decide!) (by decide!) (by decide!) (by decide!)
    (by decide!) (by decide!) (by decide) (by decide) (by decide) (by decide) (by decide)
  exact h.trans (by decide!)

/-- C1, the claim as stated fails for numbers the types cannot hold. The frame with
`Bf:4294967311,128` is of the form, with p = 4294967311, and the planner counter
`parseStatus` returns is 15. In the frame whose x is 1 followed by 309 zeros (beyond
the range of `double`) and whose y is 2.000, the extraction of x fails: the x stored
is the greatest finite value and y stays 0. -/
theorem parseStatus_frame_counterexample :
    statusFrame "Idle".toList ⟨false, "1".toList, "000".toList⟩ ⟨false, "2".toList, "000".toList⟩
      ⟨false, "3".toList, "000".toList⟩ ⟨false, "0".toList, "500".toList⟩
      ⟨false, "0".toList, "500".toList⟩ ⟨false, "0".toList, "500".toList⟩
      ⟨false, "4294967311".toList⟩ ⟨false, "128".toList⟩
      ⟨false, "500".toList, "0".toList⟩ ⟨false, "0".toList, "0".toList⟩
      ⟨false, "100".toList⟩ ⟨false, "100".toList⟩ ⟨false, "100".toList⟩ "XYZ".toList
      = "<Idle|MPos:1.000,2.000,3.000|WPos:0.500,0.500,0.500|Bf:4294967311,128|FS:500.0,0.0|Ov:100,100,100|Pn:XYZ>".toList ∧
    Numeral.value ⟨false, "4294967311".toList⟩ = 4294967311 ∧
    (GrblController.parseStatus
      "<Idle|MPos:1.000,2.000,3.000|WPos:0.500,0.500,0.500|Bf:4294967311,128|FS:500.0,0.0|Ov:100,100,100|Pn:XYZ>".toList).bufferPlannerAvail
      = 15 ∧
    Decimal.value ⟨false, '1' :: List.replicate 309 '0', []⟩ = 10 ^ 309 ∧
    Decimal.value ⟨false, "2".toList, "000".toList⟩ = 2 ∧
    (GrblController.parseStatus
      (statusFrame "Idle".toList ⟨false, '1' :: List.replicate 309 '0', []⟩
        ⟨false, "2".toList, "000".toList⟩
        ⟨false, "3".toList, "000".toList⟩ ⟨false, "0".toList, "500".toList⟩
        ⟨false, "0".toList, "500".toList⟩ ⟨false, "0".toList, "500".toList⟩
        ⟨false, "15".toList⟩ ⟨false, "128".toList⟩
        ⟨false, "500".toList, "0".toList⟩ ⟨false, "0".toList, "0".toList⟩
        ⟨false, "100".toList⟩ ⟨false, "100".toList⟩ ⟨false, "100".toList⟩ "XYZ".toList)).machinePos
      = { x := dblMax, y := 0, z := 0 } := by
  refine ⟨by decide, by decide, by decide!, by decide!, by decide!, by decide!⟩

/-! ## Facts about the settings listing -/

theorem readLine_nonempty_progress (p : SerialPort) (h : (p.readLine 500).1 ≠ []) :
    (p.readLine 500).2.rx.length < p.rx.length := by
  by_cases hfd : p.m_fd < 0
  · simp [SerialPort.readLine, hfd] at h
  · obtain ⟨_, _, h3⟩ := readLineLoop_progress p.rx [] 0
    simp only [SerialPort.readLine, hfd, if_false] at h ⊢
    rcases h3 (by omega) with h4 | ⟨h4, _⟩
    · exact h4
    · rw [h4] at h
      simp [readLineLoop] at h

/-- The bound on the turns of the settings loop is never what ends it: with more turns
allowed the loop returns the same. -/
theorem getSettingsLoop_turns (startTime : Nat) (turns : Nat) (allResponse : Str)
    (p : SerialPort) (hm : p.rx.length < turns) (k : Nat) :
    getSettingsLoop startTime (turns + k) allResponse p
      = getSettingsLoop startTime turns allResponse p := by
  induction turns generalizing allResponse p with
  | zero => omega
  | succ n ih =>
    rw [show n + 1 + k = (n + k) + 1 by omega, getSettingsLoop, getSettingsLoop]
    by_cases he : (p.readLine 500).1.isEmpty = true
    · simp only [he, if_true]
    · simp only [he, Bool.false_eq_true, if_false]
      by_cases hok : containsStr "ok".toList (p.readLine 500).1 = true
      · simp only [hok, if_true]
      · simp only [hok, Bool.false_eq_true, if_false]
        by_cases ht : 5000 < (p.readLine 500).2.clock - startTime
        · simp only [ht, if_true]
        · simp only [ht, if_false]
          apply ih
          have := readLine_nonempty_progress p (by
            intro h0
            rw [h0] at he
            exact he rfl)
          omega

/-! ## Facts about the settings pattern -/

theorem takeWhile_all (q : Char → Bool) (l : Str) : (l.takeWhile q).all q = true := by
  induction l with
  | nil => rfl
  | cons c l ih =>
    rw [List.takeWhile_cons]
    by_cases h : q c = true
    · simp only [h, if_true, List.all_cons, Bool.true_and]
      exact ih
    · simp [h]

theorem dropWhile_head (q : Char → Bool) (l : Str) :
    ∀ c, (l.dropWhile q).head? = some c → q c = false := by
  induction l with
  | nil => intro c h; simp at h
  | cons d l ih =>
    intro c h
    rw [List.dropWhile_cons] at h
    by_cases hd : q d = true
    · rw [if_pos hd] at h
      exact ih c h
    · rw [if_neg hd] at h
      have : d = c := by simpa using h
      rw [← this]
      simpa using hd

theorem matchSettingAt_sound (s ds v : Str) (h : matchSettingAt s = some (ds, v)) :
    ∃ post, SettingAt s [] ds v post := by
  cases s with
  | nil => simp [matchSettingAt] at h
  | cons c r =>
    simp only [matchSettingAt] at h
    by_cases hc : c = '$'
    · subst hc
      rw [if_pos rfl] at h
      by_cases h1 : (r.takeWhile Char.isDigit).isEmpty = true
      · rw [if_pos h1] at h
        exact absurd h (by simp)
      · rw [if_neg h1] at h
        have hsplit := List.takeWhile_append_dropWhile Char.isDigit r
        cases hr : r.dropWhile Char.isDigit with
        | nil => rw [hr] at h; exact absurd h (by simp)
        | cons d r2 =>
          rw [hr] at h hsplit
          simp only at h
          by_cases hd : d = '='
          · subst hd
            rw [if_pos rfl] at h
            by_cases h2 : (r2.takeWhile isNumChar).isEmpty = true
            · rw [if_pos h2] at h
              exact absurd h (by simp)
            · rw [if_neg h2] at h
              have e := Option.some.inj h
              have e1 : r.takeWhile Char.isDigit = ds := congrArg Prod.fst e
              have e2 : r2.takeWhile isNumChar = v := congrArg Prod.snd e
              refine ⟨r2.dropWhile isNumChar, ?_, ?_, ?_, ?_, ?_, dropWhile_head isNumChar r2⟩
              · rw [← e2, List.takeWhile_append_dropWhile, ← e1, hsplit]
                rfl
              · rw [← e1]
                intro h0
                rw [h0] at h1
                exact h1 rfl
              · rw [← e1]
                exact takeWhile_all _ _
              · rw [← e2]
                intro h0
                rw [h0] at h2
                exact h2 rfl
              · rw [← e2]
                exact takeWhile_all _ _
          · rw [if_neg hd] at h
            exact absurd h (by simp)
    · rw [if_neg hc] at h
      exact absurd h (by simp)

theorem matchSettingAt_complete (s ds v post : Str) (h : SettingAt s [] ds v post) :
    matchSettingAt s = some (ds, v) := by
  obtain ⟨hs, hne, hds, hvne, hv, hpost⟩ := h
  rw [List.nil_append] at hs
  obtain ⟨h1, h2⟩ := takeWhile_append_stop Char.isDigit ds ('=' :: (v ++ post)) hds
    (by intro c hc; have : c = '=' := by simpa using hc.symm
        rw [this]; decide)
  obtain ⟨h3, h4⟩ := takeWhile_append_stop isNumChar v post hv hpost
  have e1 : ds.isEmpty = false := by cases ds <;> simp_all
  have e2 : v.isEmpty = false := by cases v <;> simp_all
  rw [hs]
  simp only [matchSettingAt, if_true, h1, h2, h3, e1, e2, Bool.false_eq_true, if_false]

theorem settingAt_cons (c : Char) (cs pre ds v post : Str) (h : SettingAt cs pre ds v post) :
    SettingAt (c :: cs) (c :: pre) ds v post := by
  obtain ⟨hs, rest⟩ := h
  exact ⟨by rw [hs]; rfl, rest⟩

theorem settingAt_tail (c : Char) (cs pre ds v post : Str)
    (h : SettingAt (c :: cs) (c :: pre) ds v post) : SettingAt cs pre ds v post := by
  obtain ⟨hs, rest⟩ := h
  exact ⟨by rw [List.cons_append] at hs; exact (List.cons.inj hs).2, rest⟩

theorem settingAt_head (c d : Char) (cs pre ds v post : Str)
    (h : SettingAt (c :: cs) (d :: pre) ds v post) : c = d := by
  obtain ⟨hs, _⟩ := h
  rw [List.cons_append] at hs
  exact (List.cons.inj hs).1

/-- A line on which the search fails does not contain the pattern. -/
theorem searchSetting_none (line : Str) (h : searchSetting line = none) : ¬ HasSetting line := by
  induction line with
  | nil =>
    rintro ⟨pre, ds, v, post, hs, _⟩
    cases pre <;> simp at hs
  | cons c cs ih =>
    rw [searchSetting] at h
    cases hm : matchSettingAt (c :: cs) with
    | some m => rw [hm] at h; exact absurd h (by simp)
    | none =>
      rw [hm] at h
      rintro ⟨pre, ds, v, post, hat⟩
      cases pre with
      | nil =>
        rw [matchSettingAt_complete _ _ _ _ hat] at hm
        exact absurd hm (by simp)
      | cons d pre =>
        have := settingAt_head _ _ _ _ _ _ _ hat
        subst this
        exact ih h ⟨pre, ds, v, post, settingAt_tail _ _ _ _ _ _ hat⟩

/-- What the search finds is the leftmost occurrence of the pattern. -/
theorem searchSetting_some (line ds v : Str) (h : searchSetting line = some (ds, v)) :
    ∃ pre post, LeftmostSetting line pre ds v post := by
  induction line with
  | nil => simp [searchSetting] at h
  | cons c cs ih =>
    rw [searchSetting] at h
    cases hm : matchSettingAt (c :: cs) with
    | some m =>
      rw [hm] at h
      have e : m = (ds, v) := Option.some.inj h
      rw [e] at hm
      obtain ⟨post, hat⟩ := matchSettingAt_sound _ _ _ hm
      exact ⟨[], post, hat, fun _ _ _ _ _ => Nat.zero_le _⟩
    | none =>
      rw [hm] at h
      obtain ⟨pre, post, hat, hleft⟩ := ih h
      refine ⟨c :: pre, post, settingAt_cons c cs pre ds v post hat, ?_⟩
      intro pre2 ds2 v2 post2 hat2
      cases pre2 with
      | nil =>
        rw [matchSettingAt_complete _ _ _ _ hat2] at hm
        exact absurd hm (by simp)
      | cons d pre2 =>
        have := settingAt_head _ _ _ _ _ _ _ hat2
        subst this
        have := hleft pre2 ds2 v2 post2 (settingAt_tail _ _ _ _ _ _ hat2)
        simp only [List.length_cons]
        omega

/-- The leftmost occurrence of the pattern is what the search finds. -/
theorem searchSetting_complete (line pre ds v post : Str) (h : LeftmostSetting line pre ds v post) :
    searchSetting line = some (ds, v) := by
  cases hsearch : searchSetting line with
  | none => exact absurd ⟨pre, ds, v, post, h.1⟩ (searchSetting_none line hsearch)
  | some m =>
    obtain ⟨ds2, v2⟩ := m
    obtain ⟨pre2, post2, h2⟩ := searchSetting_some line ds2 v2 hsearch
    have hlen : pre.length = pre2.length :=
      Nat.le_antisymm (h.2 _ _ _ _ h2.1) (h2.2 _ _ _ _ h.1)
    have e := h.1.1.symm.trans h2.1.1
    obtain ⟨_, e2⟩ := List.append_inj e hlen
    have m1 := matchSettingAt_complete ('$' :: (ds ++ '=' :: (v ++ post))) ds v post
      ⟨rfl, h.1.2⟩
    have m2 := matchSettingAt_complete ('$' :: (ds2 ++ '=' :: (v2 ++ post2))) ds2 v2 post2
      ⟨rfl, h2.1.2⟩
    rw [e2, m2] at m1
    exact m1

theorem stoi_digits (ds : Str) (hne : ds ≠ []) (hds : ds.all Char.isDigit = true) :
    stoi ds = if (2 ^ 31 - 1 : Int) < (digitsVal ds : Int) then Except.error Exc.out_of_range
      else Except.ok (digitsVal ds : Int) := by
  obtain ⟨h1, h2⟩ := scanSign_signed false ds [] hne hds
  obtain ⟨h3, h4⟩ := takeWhile_append_stop Char.isDigit ds [] hds (by intro c hc; simp at hc)
  simp only [Bool.false_eq_true, if_false, List.nil_append, List.append_nil] at h1 h2 h3 h4
  have e1 : ds.isEmpty = false := by cases ds <;> simp_all
  have hpos : ¬ ((digitsVal ds : Int) < -(2 ^ 31)) := by
    have : (0 : Int) ≤ (digitsVal ds : Int) := Int.natCast_nonneg _
    omega
  simp only [stoi, h1, h2, h3, e1, Bool.false_eq_true, if_false, hpos, false_or]

theorem getSettingDescription_eq (id : Int) :
    GrblController.getSettingDescription id
      = ((settingDescriptions.lookup id).map String.toList).getD "Unknown setting".toList := by
  unfold GrblController.getSettingDescription
  cases settingDescriptions.lookup id <;> rfl

theorem parseSettingLines_spec (lines : List Str) (acc : List GrblSetting)
    (hconv : ∀ line ∈ lines, ∀ pre ds v post, LeftmostSetting line pre ds v post →
      (digitsVal ds : Int) ≤ 2 ^ 31 - 1 ∧ ∃ val, stod v = Except.ok val) :
    ∃ entries, parseSettingLines lines acc = Except.ok (acc ++ entries) ∧ Parsed lines entries := by
  induction lines generalizing acc with
  | nil => exact ⟨[], by simp [parseSettingLines], Parsed.nil⟩
  | cons line lines ih =>
    have hrest : ∀ l ∈ lines, ∀ pre ds v post, LeftmostSetting l pre ds v post →
        (digitsVal ds : Int) ≤ 2 ^ 31 - 1 ∧ ∃ val, stod v = Except.ok val :=
      fun l hl => hconv l (List.mem_cons_of_mem _ hl)
    rw [parseSettingLines, parseSettingLine]
    cases hsearch : searchSetting line with
    | none =>
      obtain ⟨entries, h1, h2⟩ := ih acc hrest
      exact ⟨entries, h1, Parsed.skip line lines entries (searchSetting_none line hsearch) h2⟩
    | some m =>
      obtain ⟨ds, v⟩ := m
      obtain ⟨pre, post, hleft⟩ := searchSetting_some line ds v hsearch
      obtain ⟨hid, val, hval⟩ := hconv line (List.mem_cons_self _ _) pre ds v post hleft
      have hstoi := stoi_digits ds hleft.1.2.1 hleft.1.2.2.1
      rw [if_neg (by omega)] at hstoi
      simp only [hstoi, hval]
      obtain ⟨entries, h1, h2⟩ := ih
        (acc ++ [{ id := (digitsVal ds : Int), value := val,
                   description := GrblController.getSettingDescription (digitsVal ds : Int) }]) hrest
      refine ⟨{ id := (digitsVal ds : Int), value := val,
                description := GrblController.getSettingDescription (digitsVal ds : Int) } :: entries,
        by rw [h1]; simp, Parsed.take line lines _ entries ?_ h2⟩
      exact ⟨pre, ds, v, post, hleft, rfl, hval, getSettingDescription_eq _⟩

/-- C2, amended. For every text in which the leftmost match of every line has an id that
fits the type `int` and a value text that `std::stod` converts, `parseSettings` returns
a list that holds, in line order, exactly one entry for each line containing the
pattern (a dollar sign, digits, an equals sign, a run of digits and points) and no
entry for any other line; each entry has the id and the value of the leftmost
occurrence in its line and the description of the table for that id, or "Unknown
setting" when the table has none. -/
theorem parseSettings_entries (text : Str)
    (hconv : ∀ line ∈ getlines text, ∀ pre ds v post, LeftmostSetting line pre ds v post →
      (digitsVal ds : Int) ≤ 2 ^ 31 - 1 ∧ ∃ val, stod v = Except.ok val) :
    ∃ entries, GrblController.parseSettings text = Except.ok entries ∧
      Parsed (getlines text) entries := by
  obtain ⟨entries, h1, h2⟩ := parseSettingLines_spec (getlines text) [] hconv
  exact ⟨entries, by simpa [GrblController.parseSettings] using h1, h2⟩

/-- C2 at the text of the specification: the two entries (0, 10, "Step pulse time
(microseconds)") and (100, 250, "X-axis steps per millimeter"), and nothing for the
line "ok". -/
theorem parseSettings_entries_witness :
    (∃ entries, GrblController.parseSettings "$0=10\n$100=250.000\nok\n".toList = Except.ok entries ∧
      Parsed (getlines "$0=10\n$100=250.000\nok\n".toList) entries) ∧
    GrblController.parseSettings "$0=10\n$100=250.000\nok\n".toList
      = Except.ok [{ id := 0, value := 10, description := "Step pulse time (microseconds)".toList },
                   { id := 100, value := 250, description := "X-axis steps per millimeter".toList }] := by
  refine ⟨parseSettings_entries _ ?_, by decide!⟩
  intro line hline pre ds v post hleft
  have hs := searchSetting_complete line pre ds v post hleft
  have hl : line = "$0=10".toList ∨ line = "$100=250.000".toList ∨ line = "ok".toList := by
    have e : getlines "$0=10\n$100=250.000\nok\n".toList
        = ["$0=10".toList, "$100=250.000".toList, "ok".toList] := by decide
    rw [e] at hline
    simpa using hline
  rcases hl with rfl | rfl | rfl
  · have e : searchSetting "$0=10".toList = some ("0".toList, "10".toList) := by decide
    rw [e] at hs
    obtain ⟨rfl, rfl⟩ := Prod.mk.inj (Option.some.inj hs)
    exact ⟨by decide, 10, by decide!⟩
  · have e : searchSetting "$100=250.000".toList = some ("100".toList, "250.000".toList) := by
      decide
    rw [e] at hs
    obtain ⟨rfl, rfl⟩ := Prod.mk.inj (Option.some.inj hs)
    exact ⟨by decide, 250, by decide!⟩
  · have e : searchSetting "ok".toList = none := by decide
    rw [e] at hs
    exact absurd hs (by simp)

/-- C2, the claim as stated fails: the one line of the text "$4294967296=1" contains the
pattern, and `parseSettings` returns no list of entries, as the id does not fit the type
`int` (the conversion raises `std::out_of_range`). -/
theorem parseSettings_counterexample :
    HasSetting "$4294967296=1".toList ∧
    getlines "$4294967296=1\n".toList = ["$4294967296=1".toList] ∧
    GrblController.parseSettings "$4294967296=1\n".toList = Except.error Exc.out_of_range := by
  refine ⟨⟨[], "4294967296".toList, "1".toList, [], by decide, by decide, by decide, by decide,
    by decide, by simp⟩, by decide, by decide!⟩

/-- C3, the code raises: the device lists the line "$1=." and then "ok"; the pattern
matches, `std::stod(".")` throws `std::invalid_argument`, and nothing in
`parseSettings` or `getSettings` catches it. An id with more digits than an `int` holds
makes `std::stoi` throw `std::out_of_range` the same way. -/
theorem getSettings_raises :
    ((sessionOn (devicePort "$1=.\r\nok\r\n".toList 1)).getSettings).1
      = Except.error Exc.invalid_argument ∧
    ((sessionOn (devicePort "$99999999999=1\r\nok\r\n".toList 1)).getSettings).1
      = Except.error Exc.out_of_range := by
  decide!

/-! ## Facts about a session that is not connected -/

theorem queued_not_connected (s : GrblController) (cmd : Str) (timeoutMs : Int)
    (event : Option (Str × List (Str × JsonVal)))
    (hd : s.m_connected = false ∨ s.m_serial = none) (hl : s.m_mutex = false) :
    s.queued cmd timeoutMs event = (false, s) := by
  obtain ⟨ser, port, ver, conn, mtx, hdl, evs⟩ := s
  simp only at hd hl
  subst hl
  unfold GrblController.queued
  rcases hd with hd | hd
  · subst hd; rfl
  · subst hd; cases conn <;> rfl

theorem sendRealTimeCommand_not_connected (s : GrblController) (cmd : Char)
    (hd : s.m_connected = false ∨ s.m_serial = none) (hl : s.m_mutex = false) :
    s.sendRealTimeCommand cmd = (false, s) := by
  obtain ⟨ser, port, ver, conn, mtx, hdl, evs⟩ := s
  simp only at hd hl
  subst hl
  unfold GrblController.sendRealTimeCommand
  rcases hd with hd | hd
  · subst hd; rfl
  · subst hd; cases conn <;> rfl

/-- C11. On a session that is not connected (the flag is false, or no transport is
held) and whose lock is free, `home`, `moveG0`, `moveG1`, `jog`, `cancelJog`,
`feedHold`, `cycleStart`, `softReset`, `unlock`, `setSetting` and
`sendRealTimeCommand` return false, `getSettings` returns the empty list and
`getStatus` returns the state "Disconnected" with every other field at its default;
each leaves the session exactly as it was: the transport with its log, the events,
and every member. -/
theorem not_connected_operations (s : GrblController) (x y z : Option Double)
    (feed distance value : Double) (axis cmd : Char) (id : Int)
    (hd : s.m_connected = false ∨ s.m_serial = none) (hl : s.m_mutex = false) :
    s.home = (false, s) ∧ s.moveG0 x y z = (false, s) ∧ s.moveG1 x y z feed = (false, s) ∧
    s.jog axis distance feed = (false, s) ∧ s.cancelJog = (false, s) ∧
    s.feedHold = (false, s) ∧ s.cycleStart = (false, s) ∧ s.softReset = (false, s) ∧
    s.unlock = (false, s) ∧ s.setSetting id value = (false, s) ∧
    s.sendRealTimeCommand cmd = (false, s) ∧ s.getSettings = (Except.ok [], s) ∧
    s.getStatus =
      ({ state := "Disconnected".toList, machinePos := { x := 0, y := 0, z := 0 },
         workPos := { x := 0, y := 0, z := 0 }, feedRate := 0, spindleSpeed := 0,
         feedOverride := 100, rapidOverride := 100, spindleOverride := 100,
         inputPins := [], bufferPlannerAvail := 0, bufferRxAvail := 0 }, s) := by
  have hq := fun c t e => queued_not_connected s c t e hd hl
  have hr := fun c => sendRealTimeCommand_not_connected s c hd hl
  refine ⟨hq _ _ _, hq _ _ _, hq _ _ _, hq _ _ _, hr _, ?_, ?_, ?_, hq _ _ _, hq _ _ _,
    hr _, ?_, ?_⟩
  · unfold GrblController.feedHold
    rw [hr]; rfl
  · unfold GrblController.cycleStart
    rw [hr]; rfl
  · obtain ⟨ser, port, ver, conn, mtx, hdl, evs⟩ := s
    simp only at hd hl
    subst hl
    unfold GrblController.softReset
    rcases hd with hd | hd
    · subst hd; rfl
    · subst hd; cases conn <;> rfl
  · obtain ⟨ser, port, ver, conn, mtx, hdl, evs⟩ := s
    simp only at hd hl
    subst hl
    unfold GrblController.getSettings
    rcases hd with hd | hd
    · subst hd; rfl
    · subst hd; cases conn <;> rfl
  · obtain ⟨ser, port, ver, conn, mtx, hdl, evs⟩ := s
    simp only at hd hl
    subst hl
    unfold GrblController.getStatus
    rcases hd with hd | hd
    · subst hd; rfl
    · subst hd; cases conn <;> rfl

/-- C11 on the session as the constructor leaves it. -/
theorem not_connected_operations_witness :
    GrblController.new.home = (false, GrblController.new) ∧
    GrblController.new.moveG0 (some 1) none none = (false, GrblController.new) ∧
    GrblController.new.moveG1 (some 1) none none 300 = (false, GrblController.new) ∧
    GrblController.new.jog 'X' 1 300 = (false, GrblController.new) ∧
    GrblController.new.cancelJog = (false, GrblController.new) ∧
    GrblController.new.feedHold = (false, GrblController.new) ∧
    GrblController.new.cycleStart = (false, GrblController.new) ∧
    GrblController.new.softReset = (false, GrblController.new) ∧
    GrblController.new.unlock = (false, GrblController.new) ∧
    GrblController.new.setSetting 100 250 = (false, GrblController.new) ∧
    GrblController.new.sendRealTimeCommand '?' = (false, GrblController.new) ∧
    GrblController.new.getSettings = (Except.ok [], GrblController.new) ∧
    GrblController.new.getStatus =
      ({ state := "Disconnected".toList, machinePos := { x := 0, y := 0, z := 0 },
         workPos := { x := 0, y := 0, z := 0 }, feedRate := 0, spindleSpeed := 0,
         feedOverride := 100, rapidOverride := 100, spindleOverride := 100,
         inputPins := [], bufferPlannerAvail := 0, bufferRxAvail := 0 },
       GrblController.new) :=
  not_connected_operations GrblController.new (some 1) none none 300 1 250 'X' '?' 100
    (Or.inl rfl) rfl

/-- C12, as the code has it. On a session that is not connected and whose lock is
free, `sendCommand` returns the text "error: not connected" for every command text and
timeout, and leaves the session, with its transport, exactly as it was. -/
theorem sendCommand_not_connected (s : GrblController) (cmd : Str) (timeoutMs : Int)
    (hd : s.m_connected = false ∨ s.m_serial = none) (hl : s.m_mutex = false) :
    s.sendCommand cmd timeoutMs = ("error: not connected".toList, s) := by
  obtain ⟨ser, port, ver, conn, mtx, hdl, evs⟩ := s
  simp only at hd hl
  subst hl
  unfold GrblController.sendCommand
  rcases hd with hd | hd
  · subst hd; rfl
  · subst hd; cases conn <;> rfl

/-- C12 on the session as the constructor leaves it, for the command "G0 X1". -/
theorem sendCommand_not_connected_witness :
    GrblController.new.sendCommand "G0 X1".toList 5000
      = ("error: not connected".toList, GrblController.new) :=
  sendCommand_not_connected GrblController.new "G0 X1".toList 5000 (Or.inl rfl) rfl

/-- C12 as stated fails: on the session as the constructor leaves it, the text that
`sendCommand` returns for "G0 X1" is not the empty text. -/
theorem sendCommand_counterexample :
    GrblController.new.m_connected = false ∧
    (GrblController.new.sendCommand "G0 X1".toList 5000).1 ≠ [] := by
  decide

/-! ## Facts about closing and disconnecting -/

theorem destroy_closed (p : SerialPort) (h : Host) (hfd : p.m_fd < 0) :
    SerialPort.destroy (some p) h = h := by
  simp [SerialPort.destroy, SerialPort.close, Int.not_le.mpr hfd]

theorem close_fd (p : SerialPort) (h : Host) : (p.close h).1.m_fd < 0 := by
  unfold SerialPort.close
  by_cases hfd : 0 ≤ p.m_fd
  · simp [hfd]
  · rw [if_neg hfd]
    exact Int.not_le.mp hfd

theorem close_destroy (p : SerialPort) (h : Host) :
    SerialPort.destroy (some (p.close h).1) (p.close h).2 = (p.close h).2 :=
  destroy_closed _ _ (close_fd p h)

theorem close_open_log (p : SerialPort) (h : Host) (hfd : 0 ≤ p.m_fd) :
    (p.close h).2.log = h.log ++ [HostOp.close p.m_device] := by
  simp [SerialPort.close, hfd, SerialPort.sysClose, Host.setDev]

theorem disconnect_connected_eq (s : GrblController) (h : Host) (p : SerialPort)
    (hc : s.m_connected = true) (hs : s.m_serial = some p) :
    s.disconnect h =
      ({ s with m_serial := none, m_connected := false, m_port := [], m_version := [],
                m_mutex := false,
                events := s.events ++
                  [{ type := "grbl_disconnected".toList,
                     data := [("port".toList, JsonVal.str s.m_port)],
                     lockHeld := true, observer := s.m_eventHandler }] },
       (p.close h).2) := by
  unfold GrblController.disconnect
  simp only [hc, hs, close_destroy]
  rfl

theorem disconnect_not_connected_eq (s : GrblController) (h : Host)
    (hd : s.m_connected = false ∨ s.m_serial = none) (hl : s.m_mutex = false) :
    s.disconnect h = (s, h) := by
  obtain ⟨ser, port, ver, conn, mtx, hdl, evs⟩ := s
  simp only at hd hl
  subst hl
  unfold GrblController.disconnect
  rcases hd with hd | hd
  · subst hd; cases ser <;> rfl
  · subst hd; rfl

/-- C16. On a session that is not connected (the flag is false, or no transport is
held) and whose lock is free, `disconnect` is a no-op: the session (its transport,
port, version, connected flag and events) and the host (no call reaches a device) are
exactly as they were. -/
theorem disconnect_noop (s : GrblController) (h : Host)
    (hd : s.m_connected = false ∨ s.m_serial = none) (hl : s.m_mutex = false) :
    (s.disconnect h).1 = s ∧ (s.disconnect h).2.log = h.log ∧
    (s.disconnect h).2.dev = h.dev := by
  rw [disconnect_not_connected_eq s h hd hl]
  exact ⟨rfl, rfl, rfl⟩

/-- C16 on the session as the constructor leaves it, on a host with one device. -/
theorem disconnect_noop_witness :
    (GrblController.new.disconnect (hostOf [("ttyUSB0".toList, deviceSending banner 1)])).1
      = GrblController.new ∧
    (GrblController.new.disconnect (hostOf [("ttyUSB0".toList, deviceSending banner 1)])).2.log
      = (hostOf [("ttyUSB0".toList, deviceSending banner 1)]).log ∧
    (GrblController.new.disconnect (hostOf [("ttyUSB0".toList, deviceSending banner 1)])).2.dev
      = (hostOf [("ttyUSB0".toList, deviceSending banner 1)]).dev :=
  disconnect_noop GrblController.new (hostOf [("ttyUSB0".toList, deviceSending banner 1)])
    (Or.inl rfl) rfl

/-- C17. On a connected session whose transport `p` is open, `disconnect` closes the device of the transport (one `close` reaches the host) and
releases the transport, sets the connected flag to false, empties the port and the
version, and emits exactly one event, "grbl_disconnected", whose payload is the port
the session was bound to; a second `disconnect` right after changes neither the
session nor the host. -/
theorem disconnect_connected (s : GrblController) (h : Host) (p : SerialPort)
    (hc : s.m_connected = true) (hs : s.m_serial = some p) (hfd : 0 ≤ p.m_fd) :
    (s.disconnect h).1.m_serial = none ∧ (s.disconnect h).1.m_connected = false ∧
    (s.disconnect h).1.m_port = [] ∧ (s.disconnect h).1.m_version = [] ∧
    (s.disconnect h).1.events = s.events ++
      [{ type := "grbl_disconnected".toList, data := [("port".toList, JsonVal.str s.m_port)],
         lockHeld := true, observer := s.m_eventHandler }] ∧
    (s.disconnect h).2.log = h.log ++ [HostOp.close p.m_device] ∧
    (s.disconnect h).1.disconnect (s.disconnect h).2 = s.disconnect h := by
  rw [disconnect_connected_eq s h p hc hs]
  refine ⟨rfl, rfl, rfl, rfl, rfl, close_open_log p h hfd, ?_⟩
  exact disconnect_not_connected_eq _ _ (Or.inl rfl) rfl

/-- C17 on a connected session bound to "/dev/ttyUSB0". -/
theorem disconnect_connected_witness :
    ((sessionOn (devicePort [] 1)).disconnect (hostOf [])).1.m_serial = none ∧
    ((sessionOn (devicePort [] 1)).disconnect (hostOf [])).1.m_connected = false ∧
    ((sessionOn (devicePort [] 1)).disconnect (hostOf [])).1.m_port = [] ∧
    ((sessionOn (devicePort [] 1)).disconnect (hostOf [])).1.m_version = [] ∧
    ((sessionOn (devicePort [] 1)).disconnect (hostOf [])).1.events =
      [{ type := "grbl_disconnected".toList,
         data := [("port".toList, JsonVal.str "/dev/ttyUSB0".toList)],
         lockHeld := true, observer := some 0 }] ∧
    ((sessionOn (devicePort [] 1)).disconnect (hostOf [])).2.log
      = [HostOp.close "/dev/ttyUSB0".toList] ∧
    ((sessionOn (devicePort [] 1)).disconnect (hostOf [])).1.disconnect
        ((sessionOn (devicePort [] 1)).disconnect (hostOf [])).2
      = (sessionOn (devicePort [] 1)).disconnect (hostOf []) :=
  disconnect_connected (sessionOn (devicePort [] 1)) (hostOf []) (devicePort [] 1)
    rfl rfl (by decide)

/-! ## Facts about the soft reset -/

theorem softReset_connected (s : GrblController) (p : SerialPort)
    (hc : s.m_connected = true) (hs : s.m_serial = some p) :
    s.softReset =
      (true,
       { s with
          m_serial := some (((p.writeByte (Char.ofNat 0x18)).2.sleepFor 2000).readAll 500).2,
          m_mutex := false,
          events := s.events ++
            [{ type := "grbl_reset".toList, data := [], lockHeld := true,
               observer := s.m_eventHandler }] }) := by
  unfold GrblController.softReset
  simp only [hc, hs]
  rfl

/-- C20, as the code has it. On every connected session `softReset` returns true and
emits the event "grbl_reset", whether the transport accepted the byte 0x18 or not: the
result of `writeByte` is not looked at. -/
theorem softReset_ignores_write (s : GrblController) (p : SerialPort)
    (hc : s.m_connected = true) (hs : s.m_serial = some p) :
    (s.softReset).1 = true ∧
    (s.softReset).2.events = s.events ++
      [{ type := "grbl_reset".toList, data := [], lockHeld := true,
         observer := s.m_eventHandler }] := by
  rw [softReset_connected s p hc hs]
  exact ⟨rfl, rfl⟩

/-- C20 on a connected session whose device refuses the byte: the write returns -1,
`writeByte` is false, and `softReset` is true and has emitted "grbl_reset". -/
theorem softReset_ignores_write_witness :
    (refusingPort.writeByte (Char.ofNat 0x18)).1 = false ∧
    ((sessionOn refusingPort).softReset).1 = true ∧
    ((sessionOn refusingPort).softReset).2.events =
      [{ type := "grbl_reset".toList, data := [], lockHeld := true, observer := some 0 }] :=
  ⟨by decide, softReset_ignores_write (sessionOn refusingPort) refusingPort rfl rfl⟩

/-! ## Facts about the descriptor -/

theorem readLine_fd (p : SerialPort) (timeoutMs : Int) :
    (p.readLine timeoutMs).2.m_fd = p.m_fd := by
  unfold SerialPort.readLine
  split <;> rfl

theorem write_fd (p : SerialPort) (data : Str) : (p.write data).2.m_fd = p.m_fd := by
  unfold SerialPort.write
  split
  · rfl
  · simp only []
    split <;> split <;> rfl

theorem writeByte_fd (p : SerialPort) (byte : Char) : (p.writeByte byte).2.m_fd = p.m_fd := by
  unfold SerialPort.writeByte
  split <;> rfl

theorem readAll_fd (p : SerialPort) (timeoutMs : Int) :
    (p.readAll timeoutMs).2.m_fd = p.m_fd := by
  unfold SerialPort.readAll
  split <;> rfl

theorem sleepFor_fd (p : SerialPort) (ms : Nat) : (p.sleepFor ms).m_fd = p.m_fd := rfl

theorem waitForOkLoop_fd (timeoutMs : Int) (startTime : Nat) (turns : Nat) (result : Str)
    (p : SerialPort) :
    (waitForOkLoop timeoutMs startTime turns result p).2.m_fd = p.m_fd := by
  induction turns generalizing result p with
  | zero => rfl
  | succ n ih =>
    rw [waitForOkLoop_succ]
    split
    · exact readLine_fd p 500
    · split
      · exact readLine_fd p 500
      · rw [ih, readLine_fd]

theorem waitForOk_fd (timeoutMs : Int) (p : SerialPort) :
    (GrblController.waitForOk timeoutMs p).2.m_fd = p.m_fd :=
  waitForOkLoop_fd _ _ _ _ _

theorem getSettingsLoop_fd (startTime : Nat) (turns : Nat) (allResponse : Str)
    (p : SerialPort) :
    (getSettingsLoop startTime turns allResponse p).2.m_fd = p.m_fd := by
  induction turns generalizing allResponse p with
  | zero => rfl
  | succ n ih =>
    rw [getSettingsLoop]
    simp only []
    split
    · exact readLine_fd p 500
    · split
      · exact readLine_fd p 500
      · split
        · exact readLine_fd p 500
        · rw [ih, readLine_fd]

/-! ## Facts about reading all -/

theorem takeChunk_length (room : Nat) (rx : List RxEvent) :
    (takeChunk room rx).2.length ≤ rx.length := by
  induction room generalizing rx with
  | zero => simp [takeChunk]
  | succ n ih =>
    cases rx with
    | nil => simp [takeChunk]
    | cons ev rest =>
      cases ev with
      | quiet dt => simp [takeChunk]
      | byte c dt =>
        by_cases h0 : dt = 0
        · simp only [takeChunk, h0, if_true, List.length_cons]
          have := ih rest
          omega
        · simp [takeChunk, h0]

/-- The bound on the turns of `readAll` is never what ends it: with more turns allowed
the loop returns the same. -/
theorem readAllLoop_turns (timeoutMs : Int) (turns : Nat) (rx : List RxEvent) (result : Str)
    (elapsed : Nat) (hm : rx.length < turns) (k : Nat) :
    readAllLoop timeoutMs (turns + k) rx result elapsed
      = readAllLoop timeoutMs turns rx result elapsed := by
  induction turns generalizing rx result elapsed with
  | zero => omega
  | succ n ih =>
    rw [show n + 1 + k = (n + k) + 1 by omega]
    cases rx with
    | nil => simp [readAllLoop]
    | cons ev rest =>
      simp only [readAllLoop]
      by_cases ht : timeoutMs ≤ (elapsed : Int)
      · simp only [ht, if_true]
      · simp only [ht, if_false]
        cases ev with
        | quiet dt => rfl
        | byte c dt =>
          simp only []
          apply ih
          have := takeChunk_length 254 rest
          simp only [List.length_cons] at hm
          omega

/-! ## Facts about the invariant of the session -/

theorem queued_idle (s : GrblController) (cmd : Str) (timeoutMs : Int)
    (event : Option (Str × List (Str × JsonVal)))
    (hd : s.m_connected = false ∨ s.m_serial = none) :
    s.queued cmd timeoutMs event = (false, { s with m_mutex := false }) := by
  obtain ⟨ser, port, ver, conn, mtx, hdl, evs⟩ := s
  simp only at hd
  unfold GrblController.queued
  rcases hd with hd | hd
  · subst hd; rfl
  · subst hd; cases conn <;> rfl

theorem sound_unlocked (s : GrblController) (hS : Sound s) (b : Bool) :
    Sound { s with m_mutex := b } := hS

theorem sound_queued (s : GrblController) (cmd : Str) (timeoutMs : Int)
    (event : Option (Str × List (Str × JsonVal))) (hS : Sound s) :
    Sound (s.queued cmd timeoutMs event).2 := by
  rcases hS with ⟨hc, p, hs, hfd⟩ | ⟨hc, hs⟩
  · rw [queued_connected s p cmd timeoutMs event hc hs]
    exact Or.inl ⟨hc, _, rfl, by rw [waitForOk_fd, write_fd]; exact hfd⟩
  · rw [queued_idle s cmd timeoutMs event (Or.inl hc)]
    exact Or.inr ⟨hc, hs⟩

theorem sendRealTimeCommand_eq (s : GrblController) (cmd : Char) (p : SerialPort)
    (hc : s.m_connected = true) (hs : s.m_serial = some p) :
    s.sendRealTimeCommand cmd =
      ((p.writeByte cmd).1, { s with m_serial := some (p.writeByte cmd).2, m_mutex := false }) := by
  unfold GrblController.sendRealTimeCommand
  simp only [hc, hs]

theorem sendRealTimeCommand_idle (s : GrblController) (cmd : Char)
    (hd : s.m_connected = false ∨ s.m_serial = none) :
    s.sendRealTimeCommand cmd = (false, { s with m_mutex := false }) := by
  obtain ⟨ser, port, ver, conn, mtx, hdl, evs⟩ := s
  simp only at hd
  unfold GrblController.sendRealTimeCommand
  rcases hd with hd | hd
  · subst hd; rfl
  · subst hd; cases conn <;> rfl

theorem sound_sendRealTimeCommand (s : GrblController) (cmd : Char) (hS : Sound s) :
    Sound (s.sendRealTimeCommand cmd).2 := by
  rcases hS with ⟨hc, p, hs, hfd⟩ | ⟨hc, hs⟩
  · rw [sendRealTimeCommand_eq s cmd p hc hs]
    exact Or.inl ⟨hc, _, rfl, by rw [writeByte_fd]; exact hfd⟩
  · rw [sendRealTimeCommand_idle s cmd (Or.inl hc)]
    exact Or.inr ⟨hc, hs⟩

theorem sound_emitEvent (s : GrblController) (type : Str) (data : List (Str × JsonVal))
    (hS : Sound s) : Sound (s.emitEvent type data) := hS

theorem sound_feedHold (s : GrblController) (hS : Sound s) : Sound (s.feedHold).2 := by
  unfold GrblController.feedHold
  simp only []
  split
  · exact sound_emitEvent _ _ _ (sound_sendRealTimeCommand s _ hS)
  · exact sound_sendRealTimeCommand s _ hS

theorem sound_cycleStart (s : GrblController) (hS : Sound s) : Sound (s.cycleStart).2 := by
  unfold GrblController.cycleStart
  simp only []
  split
  · exact sound_emitEvent _ _ _ (sound_sendRealTimeCommand s _ hS)
  · exact sound_sendRealTimeCommand s _ hS

theorem softReset_idle (s : GrblController)
    (hd : s.m_connected = false ∨ s.m_serial = none) :
    s.softReset = (false, { s with m_mutex := false }) := by
  obtain ⟨ser, port, ver, conn, mtx, hdl, evs⟩ := s
  simp only at hd
  unfold GrblController.softReset
  rcases hd with hd | hd
  · subst hd; rfl
  · subst hd; cases conn <;> rfl

theorem sound_softReset (s : GrblController) (hS : Sound s) : Sound (s.softReset).2 := by
  rcases hS with ⟨hc, p, hs, hfd⟩ | ⟨hc, hs⟩
  · rw [softReset_connected s p hc hs]
    exact Or.inl ⟨hc, _, rfl, by rw [readAll_fd, sleepFor_fd, writeByte_fd]; exact hfd⟩
  · rw [softReset_idle s (Or.inl hc)]
    exact Or.inr ⟨hc, hs⟩

theorem sound_sendCommand (s : GrblController) (cmd : Str) (timeoutMs : Int) (hS : Sound s) :
    Sound (s.sendCommand cmd timeoutMs).2 := by
  rcases hS with ⟨hc, p, hs, hfd⟩ | ⟨hc, hs⟩
  · unfold GrblController.sendCommand
    simp only [hc, hs]
    exact Or.inl ⟨rfl, _, rfl, by rw [waitForOk_fd, write_fd]; exact hfd⟩
  · unfold GrblController.sendCommand
    simp only [hc, hs]
    exact Or.inr ⟨rfl, rfl⟩

theorem sound_getStatus (s : GrblController) (hS : Sound s) : Sound (s.getStatus).2 := by
  rcases hS with ⟨hc, p, hs, hfd⟩ | ⟨hc, hs⟩
  · unfold GrblController.getStatus
    simp only [hc, hs]
    split <;> exact Or.inl ⟨rfl, _, rfl, by rw [readLine_fd, writeByte_fd]; exact hfd⟩
  · unfold GrblController.getStatus
    simp only [hc, hs]
    exact Or.inr ⟨rfl, rfl⟩

theorem sound_getSettings (s : GrblController) (hS : Sound s) : Sound (s.getSettings).2 := by
  rcases hS with ⟨hc, p, hs, hfd⟩ | ⟨hc, hs⟩
  · unfold GrblController.getSettings
    simp only [hc, hs]
    exact Or.inl ⟨rfl, _, rfl, by rw [getSettingsLoop_fd, write_fd]; exact hfd⟩
  · unfold GrblController.getSettings
    simp only [hc, hs]
    exact Or.inr ⟨rfl, rfl⟩

theorem sound_disconnect (s : GrblController) (h : Host) (hS : Sound s) :
    Sound (s.disconnect h).1 := by
  rcases hS with ⟨hc, p, hs, hfd⟩ | ⟨hc, hs⟩
  · rw [disconnect_connected_eq s h p hc hs]
    exact Or.inr ⟨rfl, rfl⟩
  · unfold GrblController.disconnect
    simp only [hc, hs]
    exact Or.inr ⟨rfl, rfl⟩

/-! ## Facts about opening and probing -/

theorem destroy_not_open (ms : Option SerialPort) (h : Host)
    (hs : ∀ p, ms = some p → p.m_fd < 0) : SerialPort.destroy ms h = h := by
  cases ms with
  | none => rfl
  | some p => exact destroy_closed p h (hs p rfl)

theorem touchedOnly_refl (P : List Str) (h : Host) : TouchedOnly P h h :=
  ⟨rfl, fun _ _ => rfl, [], by simp, by simp⟩

theorem touchedOnly_trans {P Q R : List Str} {h h1 h2 : Host}
    (h12 : TouchedOnly P h h1) (h23 : TouchedOnly Q h1 h2)
    (hP : ∀ q ∈ P, q ∈ R) (hQ : ∀ q ∈ Q, q ∈ R) : TouchedOnly R h h2 := by
  obtain ⟨d1, e1, l1, g1, m1⟩ := h12
  obtain ⟨d2, e2, l2, g2, m2⟩ := h23
  refine ⟨d2.trans d1, ?_, l1 ++ l2, ?_, ?_⟩
  · intro q hq
    rw [e2 q (fun hqQ => hq (hQ q hqQ)), e1 q (fun hqP => hq (hP q hqP))]
  · rw [g2, g1, List.append_assoc]
  · intro op hop
    rcases List.mem_append.mp hop with hop | hop
    · exact hP _ (m1 op hop)
    · exact hQ _ (m2 op hop)

/-- What `open` does on a fresh port object. -/
theorem open_new (h : Host) (device : Str) (baudRate : Int) :
    (SerialPort.new.open h device baudRate).1 = (h.dev device).opensNext ∧
    (SerialPort.new.open h device baudRate).2.1 =
      (if (h.dev device).opensNext then (h.dev device).opened device else SerialPort.new) ∧
    (SerialPort.new.open h device baudRate).2.2.dev device =
      { h.dev device with opens := (h.dev device).opens.tail } ∧
    (SerialPort.new.open h device baudRate).2.2.log =
      h.log ++ [HostOp.open device baudRate (h.dev device).opensNext] ∧
    TouchedOnly [device] h (SerialPort.new.open h device baudRate).2.2 := by
  have h0 : ¬ (0 : Int) ≤ SerialPort.new.m_fd := by decide
  have e : SerialPort.new.open h device baudRate =
      (if (h.dev device).opensNext then
        (true, (h.dev device).opened device,
          { h.setDev device { h.dev device with opens := (h.dev device).opens.tail } with
            log := h.log ++ [HostOp.open device baudRate (h.dev device).opensNext] })
       else
        (false, SerialPort.new,
          { h.setDev device { h.dev device with opens := (h.dev device).opens.tail } with
            log := h.log ++ [HostOp.open device baudRate (h.dev device).opensNext] })) := by
    unfold SerialPort.open
    simp only [h0, if_false]
    rfl
  rw [e]
  cases hn : (h.dev device).opensNext
  · simp only [Bool.false_eq_true, if_false]
    refine ⟨trivial, trivial, ?_, trivial, rfl, ?_, _, rfl, ?_⟩
    · simp [Host.setDev]
    · intro q hq
      simp only [List.mem_singleton] at hq
      simp [Host.setDev, hq]
    · simp [HostOp.device]
  · simp only [if_true]
    refine ⟨trivial, trivial, ?_, trivial, rfl, ?_, _, rfl, ?_⟩
    · simp [Host.setDev]
    · intro q hq
      simp only [List.mem_singleton] at hq
      simp [Host.setDev, hq]
    · simp [HostOp.device]

theorem bannerText_opened (d : HostDevice) (device : Str) :
    bannerText (d.opened device) = d.probeText := rfl

/-- What `close` does on an open port. -/
theorem close_open (p : SerialPort) (h : Host) (hfd : 0 ≤ p.m_fd) :
    (p.close h).2.dev p.m_device = { h.dev p.m_device with rx := p.rx, wr := p.wr } ∧
    TouchedOnly [p.m_device] h (p.close h).2 := by
  unfold SerialPort.close
  simp only [hfd, if_true, SerialPort.sysClose]
  refine ⟨?_, rfl, ?_, _, rfl, ?_⟩
  · simp [Host.setDev]
  · intro q hq
    simp only [List.mem_singleton] at hq
    simp [Host.setDev, hq]
  · simp [HostOp.device]

theorem readAll_device (p : SerialPort) (timeoutMs : Int) :
    (p.readAll timeoutMs).2.m_device = p.m_device := by
  unfold SerialPort.readAll
  split <;> rfl

theorem writeByte_device (p : SerialPort) (byte : Char) :
    (p.writeByte byte).2.m_device = p.m_device := by
  unfold SerialPort.writeByte
  split <;> rfl

theorem probe_device (p : SerialPort) :
    (((p.writeByte (Char.ofNat 0x18)).2.sleepFor 2000).readAll 1000).2.m_device = p.m_device := by
  rw [readAll_device]
  exact writeByte_device p _

theorem probe_fd (p : SerialPort) :
    (((p.writeByte (Char.ofNat 0x18)).2.sleepFor 2000).readAll 1000).2.m_fd = p.m_fd := by
  rw [readAll_fd, sleepFor_fd, writeByte_fd]

/-! ## Facts about the detection loop -/

theorem opened_fd (d : HostDevice) (device : Str) : 0 ≤ (d.opened device).m_fd := by
  show (0 : Int) ≤ 3
  decide

/-- A candidate that does not qualify is passed over: the loop goes on with the same
session, and only the path of the candidate was called on. -/
theorem autoDetectLoop_skip (baudRate : Int) (port : Str) (rest : List Str)
    (s : GrblController) (h : Host) (hq : ¬ Qualifies (h.dev port)) :
    ∃ h1, autoDetectLoop baudRate (port :: rest) s h = autoDetectLoop baudRate rest s h1 ∧
      TouchedOnly [port] h h1 := by
  obtain ⟨o1, o2, _, _, o5⟩ := open_new h port baudRate
  rw [autoDetectLoop]
  simp only []
  cases hn : (h.dev port).opensNext
  · rw [hn] at o1 o2
    simp only [Bool.false_eq_true, if_false] at o2
    simp only [o1, Bool.not_false, if_true]
    refine ⟨_, rfl, ?_⟩
    rw [destroy_closed _ _ (by rw [o2]; decide)]
    exact o5
  · rw [hn] at o1 o2
    simp only [if_true] at o2
    simp only [o1, Bool.not_true, Bool.false_eq_true, if_false]
    have hb : containsStr "Grbl".toList
        (bannerText (SerialPort.new.open h port baudRate).2.1) = false := by
      rw [o2, bannerText_opened]
      cases hc : containsStr "Grbl".toList (h.dev port).probeText
      · rfl
      · exact absurd ⟨hn, (containsStr_iff_occurs _ _).mp hc⟩ hq
    unfold bannerText at hb
    simp only [hb, Bool.false_eq_true, if_false]
    refine ⟨_, rfl, ?_⟩
    rw [close_destroy]
    have hfd : 0 ≤ ((((SerialPort.new.open h port baudRate).2.1.writeByte
        (Char.ofNat 0x18)).2.sleepFor 2000).readAll 1000).2.m_fd := by
      rw [probe_fd, o2]; exact opened_fd _ _
    have hdev : ((((SerialPort.new.open h port baudRate).2.1.writeByte
        (Char.ofNat 0x18)).2.sleepFor 2000).readAll 1000).2.m_device = port := by
      rw [probe_device, o2]; rfl
    have hcl := (close_open _ (SerialPort.new.open h port baudRate).2.2 hfd).2
    rw [hdev] at hcl
    exact touchedOnly_trans o5 hcl (fun _ hm => hm) (fun _ hm => hm)

/-- The first line that holds "Grbl" is the version, when there is one. -/
theorem versionLine_first (lines : List Str) (version : Str)
    (hex : ∃ l ∈ lines, "Grbl".toList <:+: l) :
    ∃ pre line post, lines = pre ++ line :: post ∧ (∀ l ∈ pre, ¬ "Grbl".toList <:+: l) ∧
      "Grbl".toList <:+: line ∧ versionLine lines version = line := by
  induction lines with
  | nil =>
    obtain ⟨l, hl, _⟩ := hex
    simp at hl
  | cons a rest ih =>
    by_cases ha : containsStr "Grbl".toList a = true
    · refine ⟨[], a, rest, rfl, by simp, (containsStr_iff_occurs _ _).mp ha, ?_⟩
      rw [versionLine, if_pos ha]
    · have hna : ¬ "Grbl".toList <:+: a := fun hi => ha ((containsStr_iff_occurs _ _).mpr hi)
      obtain ⟨l, hl, hlg⟩ := hex
      rcases List.mem_cons.mp hl with rfl | hl
      · exact absurd hlg hna
      · obtain ⟨pre, line, post, e, hp, hg, hv⟩ := ih ⟨l, hl, hlg⟩
        refine ⟨a :: pre, line, post, by rw [e]; rfl, ?_, hg, ?_⟩
        · intro l2 hl2
          rcases List.mem_cons.mp hl2 with rfl | hl2
          · exact hna
          · exact hp l2 hl2
        · simp only [versionLine, ha, Bool.false_eq_true, if_false]
          exact hv

theorem getlines_line (l rest : Str) (hl : '\n' ∉ l) :
    getlines (l ++ '\n' :: rest) = l :: getlines rest := by
  induction l with
  | nil => simp [getlines]
  | cons a l ih =>
    have ha : a ≠ '\n' := fun e => hl (by simp [e])
    have hl2 : '\n' ∉ l := fun hm => hl (List.mem_cons_of_mem _ hm)
    rw [List.cons_append, getlines, if_neg ha, ih hl2]

theorem getlines_last (l : Str) (hl : '\n' ∉ l) (hne : l ≠ []) : getlines l = [l] := by
  induction l with
  | nil => exact absurd rfl hne
  | cons a l ih =>
    have ha : a ≠ '\n' := fun e => hl (by simp [e])
    have hl2 : '\n' ∉ l := fun hm => hl (List.mem_cons_of_mem _ hm)
    rw [getlines, if_neg ha]
    cases l with
    | nil => simp [getlines]
    | cons b l => rw [ih hl2 (by simp)]

/-- A text without a newline that occurs in a text occurs in one of its lines. -/
theorem infix_getlines (pat : Str) (hn : '\n' ∉ pat) (hne : pat ≠ []) :
    ∀ (n : Nat) (s : Str), s.length ≤ n → pat <:+: s → ∃ l ∈ getlines s, pat <:+: l := by
  intro n
  induction n with
  | zero =>
    intro s hs hi
    have : s = [] := List.length_eq_zero.mp (by omega)
    subst this
    exact absurd (List.eq_nil_of_infix_nil hi) hne
  | succ n ih =>
    intro s hs hi
    by_cases hnl : '\n' ∈ s
    · obtain ⟨l, rest, e, hl⟩ := List.eq_append_cons_of_mem hnl
      subst e
      rw [getlines_line l rest hl]
      rcases infix_append_sep hn hi with h1 | h1
      · exact ⟨l, by simp, h1⟩
      · have hlen : rest.length ≤ n := by
          simp only [List.length_append, List.length_cons] at hs
          omega
        obtain ⟨l2, hl2, hi2⟩ := ih rest hlen h1
        exact ⟨l2, List.mem_cons_of_mem _ hl2, hi2⟩
    · have hs0 : s ≠ [] := by
        intro e
        subst e
        exact hne (List.eq_nil_of_infix_nil hi)
      rw [getlines_last s hnl hs0]
      exact ⟨s, by simp, hi⟩

/-- The version the loop stores for a response that holds "Grbl". -/
theorem version_of_response (response version : Str) (hg : "Grbl".toList <:+: response) :
    ∃ pre line post, getlines response = pre ++ line :: post ∧
      (∀ l ∈ pre, ¬ "Grbl".toList <:+: l) ∧ "Grbl".toList <:+: line ∧
      versionLine (getlines response) version = line :=
  versionLine_first _ _ (infix_getlines _ (by decide) (by decide) _ _ (Nat.le_refl _) hg)

/-- A candidate that qualifies and opens once more is accepted: the loop ends with the
session bound to it, and only its path was called on. -/
theorem autoDetectLoop_accept (baudRate : Int) (port : Str) (rest : List Str)
    (s : GrblController) (h : Host) (hs : ∀ p, s.m_serial = some p → p.m_fd < 0)
    (hq : Qualifies (h.dev port)) (hr : Reopens (h.dev port)) :
    ∃ p h1, autoDetectLoop baudRate (port :: rest) s h =
        (true,
         { s with
            m_serial := some p, m_port := port,
            m_version := versionLine (getlines (h.dev port).probeText) s.m_version,
            m_connected := true, m_mutex := false,
            events := s.events ++
              [{ type := "grbl_connected".toList,
                 data := [("port".toList, JsonVal.str port),
                          ("version".toList, JsonVal.str
                            (versionLine (getlines (h.dev port).probeText) s.m_version))],
                 lockHeld := true, observer := s.m_eventHandler }] },
         h1) ∧
      0 ≤ p.m_fd ∧ p.m_device = port ∧ TouchedOnly [port] h h1 := by
  obtain ⟨o1, o2, o3, _, o5⟩ := open_new h port baudRate
  obtain ⟨hn, hg⟩ := hq
  rw [hn] at o1 o2
  simp only [if_true] at o2
  have hresp : bannerText (SerialPort.new.open h port baudRate).2.1 = (h.dev port).probeText := by
    rw [o2, bannerText_opened]
  have hb : containsStr "Grbl".toList
      (bannerText (SerialPort.new.open h port baudRate).2.1) = true := by
    rw [hresp]
    exact (containsStr_iff_occurs _ _).mpr hg
  unfold bannerText at hb hresp
  have hfd : 0 ≤ ((((SerialPort.new.open h port baudRate).2.1.writeByte
      (Char.ofNat 0x18)).2.sleepFor 2000).readAll 1000).2.m_fd := by
    rw [probe_fd, o2]; exact opened_fd _ _
  have hdev : ((((SerialPort.new.open h port baudRate).2.1.writeByte
      (Char.ofNat 0x18)).2.sleepFor 2000).readAll 1000).2.m_device = port := by
    rw [probe_device, o2]; rfl
  obtain ⟨c1, c5⟩ := close_open _ (SerialPort.new.open h port baudRate).2.2 hfd
  rw [hdev] at c1 c5
  have hre : ((((((SerialPort.new.open h port baudRate).2.1.writeByte
      (Char.ofNat 0x18)).2.sleepFor 2000).readAll 1000).2.close
        (SerialPort.new.open h port baudRate).2.2).2.dev port).opensNext = true := by
    rw [c1, o3]
    exact hr
  obtain ⟨q1, q2, _, _, q5⟩ := open_new
    ((((((SerialPort.new.open h port baudRate).2.1.writeByte
      (Char.ofNat 0x18)).2.sleepFor 2000).readAll 1000).2.close
        (SerialPort.new.open h port baudRate).2.2).2) port baudRate
  rw [hre] at q1 q2
  simp only [if_true] at q2
  have hds : SerialPort.destroy s.m_serial
      ((((((SerialPort.new.open h port baudRate).2.1.writeByte
      (Char.ofNat 0x18)).2.sleepFor 2000).readAll 1000).2.close
        (SerialPort.new.open h port baudRate).2.2).2) = _ := destroy_not_open _ _ hs
  have hb2 : containsStr "Grbl".toList (h.dev port).probeText = true :=
    (containsStr_iff_occurs _ _).mpr hg
  rw [autoDetectLoop]
  simp only [o1, Bool.not_true, Bool.false_eq_true, if_false, hb, if_true, close_destroy, hds, q1,
    GrblController.emitEvent, hresp, hb2]
  refine ⟨_, _, rfl, ?_, ?_, ?_⟩
  · rw [q2]; exact opened_fd _ _
  · rw [q2]; rfl
  · exact touchedOnly_trans (touchedOnly_trans o5 c5 (fun _ hm => hm) (fun _ hm => hm)) q5
      (fun _ hm => hm) (fun _ hm => hm)

/-- Candidates that do not qualify are passed over one after the other. -/
theorem autoDetectLoop_skips (baudRate : Int) (pre rest : List Str) (s : GrblController)
    (h : Host) (hn : pre.Nodup) (hq : ∀ q ∈ pre, ¬ Qualifies (h.dev q)) :
    ∃ h1, autoDetectLoop baudRate (pre ++ rest) s h = autoDetectLoop baudRate rest s h1 ∧
      TouchedOnly pre h h1 := by
  induction pre generalizing h with
  | nil => exact ⟨h, rfl, touchedOnly_refl _ _⟩
  | cons a pre ih =>
    obtain ⟨h1, e1, t1⟩ := autoDetectLoop_skip baudRate a (pre ++ rest) s h
      (hq a (List.mem_cons_self _ _))
    have hn2 := List.nodup_cons.mp hn
    have hq2 : ∀ q ∈ pre, ¬ Qualifies (h1.dev q) := by
      intro q hqm
      have hne : q ∉ [a] := by
        intro hm
        rw [List.mem_singleton] at hm
        subst hm
        exact hn2.1 hqm
      rw [t1.2.1 q hne]
      exact hq q (List.mem_cons_of_mem _ hqm)
    obtain ⟨h2, e2, t2⟩ := ih h1 hn2.2 hq2
    refine ⟨h2, ?_, ?_⟩
    · rw [List.cons_append, e1, e2]
    · exact touchedOnly_trans t1 t2 (fun q hm => by
        rw [List.mem_singleton] at hm
        subst hm
        exact List.mem_cons_self _ _) (fun q hm => List.mem_cons_of_mem _ hm)

/-! ## Facts about connecting -/

theorem open_new_fd (h : Host) (device : Str) (baudRate : Int)
    (ho : (SerialPort.new.open h device baudRate).1 = true) :
    0 ≤ (SerialPort.new.open h device baudRate).2.1.m_fd := by
  obtain ⟨o1, o2, _⟩ := open_new h device baudRate
  rw [o1] at ho
  rw [o2, ho, if_pos rfl]
  exact opened_fd _ _

theorem open_new_closed (h : Host) (device : Str) (baudRate : Int)
    (ho : (SerialPort.new.open h device baudRate).1 = false) :
    (SerialPort.new.open h device baudRate).2.1.m_fd < 0 := by
  obtain ⟨o1, o2, _⟩ := open_new h device baudRate
  rw [o1] at ho
  rw [o2, ho]
  simp only [Bool.false_eq_true, if_false]
  decide

/-- What `connect` does with a port given, on a session that is not connected. -/
theorem connect_port_eq (s : GrblController) (h : Host) (port : Str) (baudRate : Int)
    (hd : s.m_connected = false) (hs : ∀ p, s.m_serial = some p → p.m_fd < 0)
    (hp : port ≠ []) :
    s.connect h port baudRate =
      if (SerialPort.new.open h port baudRate).1 = true then
        if containsStr "Grbl".toList (bannerText (SerialPort.new.open h port baudRate).2.1) = true
        then
          (true,
           { s with
              m_serial := some ((((SerialPort.new.open h port baudRate).2.1.writeByte
                (Char.ofNat 0x18)).2.sleepFor 2000).readAll 1000).2,
              m_port := port,
              m_version := versionLine
                (getlines (bannerText (SerialPort.new.open h port baudRate).2.1)) s.m_version,
              m_connected := true, m_mutex := false,
              events := s.events ++
                [{ type := "grbl_connected".toList,
                   data := [("port".toList, JsonVal.str port),
                            ("version".toList, JsonVal.str (versionLine
                              (getlines (bannerText (SerialPort.new.open h port baudRate).2.1))
                              s.m_version))],
                   lockHeld := true, observer := s.m_eventHandler }] },
           (SerialPort.new.open h port baudRate).2.2)
        else
          (false, { s with m_serial := none, m_port := port, m_mutex := false },
           (((((SerialPort.new.open h port baudRate).2.1.writeByte
              (Char.ofNat 0x18)).2.sleepFor 2000).readAll 1000).2.close
                (SerialPort.new.open h port baudRate).2.2).2)
      else
        (false, { s with m_serial := none, m_mutex := false },
          (SerialPort.new.open h port baudRate).2.2) := by
  have hpe : port.isEmpty = false := by
    cases port with
    | nil => exact absurd rfl hp
    | cons a l => rfl
  unfold GrblController.connect
  simp only [hd, Bool.false_eq_true, if_false, hpe, destroy_not_open _ _ hs]
  cases ho : (SerialPort.new.open h port baudRate).1
  · simp only [Bool.not_false, if_true, Bool.false_eq_true, if_false]
    rw [destroy_closed _ _ (open_new_closed h port baudRate ho)]
  · simp only [Bool.not_true, Bool.false_eq_true, if_false, if_true]
    unfold bannerText
    cases hb : containsStr "Grbl".toList ((((SerialPort.new.open h port baudRate).2.1.writeByte
        (Char.ofNat 0x18)).2.sleepFor 2000).readAll 1000).1
    · simp only [Bool.false_eq_true, if_false, close_destroy]
    · simp only [if_true, GrblController.emitEvent]

/-- What `connect` does without a port, on a session that is not connected. -/
theorem connect_auto_eq (s : GrblController) (h : Host) (baudRate : Int)
    (hd : s.m_connected = false) (hs : ∀ p, s.m_serial = some p → p.m_fd < 0) :
    s.connect h [] baudRate =
      if (autoDetectLoop baudRate (SerialPort.listPorts h)
            { s with m_serial := some SerialPort.new, m_mutex := false } h).1 = true then
        (true,
         { (autoDetectLoop baudRate (SerialPort.listPorts h)
            { s with m_serial := some SerialPort.new, m_mutex := false } h).2.1 with
           m_mutex := false },
         (autoDetectLoop baudRate (SerialPort.listPorts h)
            { s with m_serial := some SerialPort.new, m_mutex := false } h).2.2)
      else
        (false,
         { (autoDetectLoop baudRate (SerialPort.listPorts h)
            { s with m_serial := some SerialPort.new, m_mutex := false } h).2.1 with
           m_serial := none, m_mutex := false },
         SerialPort.destroy (autoDetectLoop baudRate (SerialPort.listPorts h)
            { s with m_serial := some SerialPort.new, m_mutex := false } h).2.1.m_serial
          (autoDetectLoop baudRate (SerialPort.listPorts h)
            { s with m_serial := some SerialPort.new, m_mutex := false } h).2.2) := by
  unfold GrblController.connect GrblController.autoDetectPort
  simp only [hd, Bool.false_eq_true, if_false, List.isEmpty_nil, if_true,
    destroy_not_open _ _ hs]
  generalize autoDetectLoop baudRate (SerialPort.listPorts h) _ h = r
  obtain ⟨b, s1, h1⟩ := r
  cases b
  · simp
  · simp

/-- The detection loop ends connected with an open transport, or not connected. -/
theorem autoDetectLoop_sound (baudRate : Int) (ports : List Str) (s : GrblController)
    (h : Host) (hd : s.m_connected = false) :
    ((autoDetectLoop baudRate ports s h).1 = true ∧
      (autoDetectLoop baudRate ports s h).2.1.m_connected = true ∧
      OwnsOpenTransport (autoDetectLoop baudRate ports s h).2.1) ∨
    ((autoDetectLoop baudRate ports s h).1 = false ∧
      (autoDetectLoop baudRate ports s h).2.1.m_connected = false) := by
  induction ports generalizing s h with
  | nil => exact Or.inr ⟨rfl, hd⟩
  | cons port rest ih =>
    rw [autoDetectLoop]
    simp only []
    split
    · exact ih _ _ hd
    · split
      · split
        · exact ih _ _ hd
        · rename_i ho2
          refine Or.inl ⟨rfl, rfl, _, rfl, ?_⟩
          apply open_new_fd
          simpa using ho2
      · exact ih _ _ hd

theorem sound_connect (s : GrblController) (h : Host) (port : Str) (baudRate : Int)
    (hS : Sound s) : Sound (s.connect h port baudRate).2.1 := by
  rcases hS with ⟨hc, ho⟩ | ⟨hc, hs⟩
  · unfold GrblController.connect
    simp only [hc, if_true]
    exact Or.inl ⟨rfl, ho⟩
  · have hs2 : ∀ p, s.m_serial = some p → p.m_fd < 0 := by
      intro p hp
      rw [hs] at hp
      cases hp
    by_cases hp : port = []
    · subst hp
      rw [connect_auto_eq s h baudRate hc hs2]
      rcases autoDetectLoop_sound baudRate (SerialPort.listPorts h)
        { s with m_serial := some SerialPort.new, m_mutex := false } h hc with ⟨h1, h2, h3⟩ | ⟨h1, h2⟩
      · rw [if_pos h1]
        exact Or.inl ⟨h2, h3⟩
      · rw [if_neg (by rw [h1]; decide)]
        exact Or.inr ⟨h2, rfl⟩
    · rw [connect_port_eq s h port baudRate hc hs2 hp]
      split
      · rename_i ho
        split
        · refine Or.inl ⟨rfl, _, rfl, ?_⟩
          rw [probe_fd]
          exact open_new_fd h port baudRate ho
        · exact Or.inr ⟨hc, rfl⟩
      · exact Or.inr ⟨hc, rfl⟩

/-- C13. On a session that is not connected (and owns no open transport), for a
non-empty port whose `open` succeeds, `connect` returns true exactly when the text read
after the soft reset holds "Grbl"; then the session is connected, its port is the given
port, its version is the first line of that text (as `getline` splits it) that holds
"Grbl", and exactly one event is emitted, "grbl_connected", with that port and that
version. -/
theorem connect_port (s : GrblController) (h : Host) (port : Str) (baudRate : Int)
    (hd : s.m_connected = false) (hs : ∀ p, s.m_serial = some p → p.m_fd < 0)
    (hp : port ≠ []) (ho : (SerialPort.new.open h port baudRate).1 = true) :
    ((s.connect h port baudRate).1 = true ↔
      "Grbl".toList <:+: bannerText (SerialPort.new.open h port baudRate).2.1) ∧
    ("Grbl".toList <:+: bannerText (SerialPort.new.open h port baudRate).2.1 →
      (s.connect h port baudRate).2.1.m_connected = true ∧
      (s.connect h port baudRate).2.1.m_port = port ∧
      (∃ pre line post,
        getlines (bannerText (SerialPort.new.open h port baudRate).2.1) = pre ++ line :: post ∧
        (∀ l ∈ pre, ¬ "Grbl".toList <:+: l) ∧ "Grbl".toList <:+: line ∧
        (s.connect h port baudRate).2.1.m_version = line) ∧
      (s.connect h port baudRate).2.1.events = s.events ++
        [{ type := "grbl_connected".toList,
           data := [("port".toList, JsonVal.str port),
                    ("version".toList, JsonVal.str (s.connect h port baudRate).2.1.m_version)],
           lockHeld := true, observer := s.m_eventHandler }]) := by
  rw [connect_port_eq s h port baudRate hd hs hp, if_pos ho]
  by_cases hb : containsStr "Grbl".toList (bannerText (SerialPort.new.open h port baudRate).2.1) = true
  · have hg := (containsStr_iff_occurs _ _).mp hb
    rw [if_pos hb]
    refine ⟨⟨fun _ => hg, fun _ => rfl⟩, fun _ => ⟨rfl, rfl, ?_, rfl⟩⟩
    exact version_of_response _ s.m_version hg
  · have hg : ¬ "Grbl".toList <:+: bannerText (SerialPort.new.open h port baudRate).2.1 :=
      fun hi => hb ((containsStr_iff_occurs _ _).mpr hi)
    rw [if_neg hb]
    exact ⟨⟨fun hf => (by cases hf), fun hi => absurd hi hg⟩, fun hi => absurd hi hg⟩

/-- C13 on a fresh session and a device that sends the banner: `connect` is true, the
session is bound to "/dev/ttyUSB0" and the version is the banner line (with the
carriage return that precedes its newline). -/
theorem connect_port_witness :
    (observedSession.connect (oneDevice (deviceSending banner 1)) "/dev/ttyUSB0".toList 115200).1
      = true ∧
    (observedSession.connect (oneDevice (deviceSending banner 1))
        "/dev/ttyUSB0".toList 115200).2.1.m_version
      = "Grbl 1.1h [\x27$\x27 for help]\r".toList ∧
    ((observedSession.connect (oneDevice (deviceSending banner 1))
        "/dev/ttyUSB0".toList 115200).1 = true ↔
      "Grbl".toList <:+: bannerText (SerialPort.new.open (oneDevice (deviceSending banner 1))
        "/dev/ttyUSB0".toList 115200).2.1) :=
  ⟨by decide, by decide,
    (connect_port observedSession (oneDevice (deviceSending banner 1)) "/dev/ttyUSB0".toList
      115200 rfl (by intro p hp; cases hp) (by decide) (by decide)).1⟩

/-- C14, as the code has it. When `connect` is given a port that opens but whose
response to the soft reset does not hold "Grbl", it returns false and leaves the
session without transport and not connected, but the port member holds the port that
was tried: it is assigned before the probe and not cleared on this path. -/
theorem connect_failure_keeps_port (s : GrblController) (h : Host) (port : Str)
    (baudRate : Int) (hd : s.m_connected = false)
    (hs : ∀ p, s.m_serial = some p → p.m_fd < 0) (hp : port ≠ [])
    (ho : (SerialPort.new.open h port baudRate).1 = true)
    (hb : ¬ "Grbl".toList <:+: bannerText (SerialPort.new.open h port baudRate).2.1) :
    (s.connect h port baudRate).1 = false ∧
    (s.connect h port baudRate).2.1.m_serial = none ∧
    (s.connect h port baudRate).2.1.m_connected = false ∧
    (s.connect h port baudRate).2.1.m_port = port ∧
    (s.connect h port baudRate).2.1.m_port ≠ [] := by
  have hb2 : ¬ containsStr "Grbl".toList
      (bannerText (SerialPort.new.open h port baudRate).2.1) = true :=
    fun hc => hb ((containsStr_iff_occurs _ _).mp hc)
  rw [connect_port_eq s h port baudRate hd hs hp, if_pos ho, if_neg hb2]
  exact ⟨rfl, rfl, hd, rfl, hp⟩

/-- C14 on a fresh session and a device that opens and stays silent: `connect` on
"/dev/ttyUSB0" is false and the port member is "/dev/ttyUSB0" afterwards. -/
theorem connect_failure_keeps_port_witness :
    GrblController.new.m_port = [] ∧
    (GrblController.new.connect (oneDevice (deviceSending [] 1))
      "/dev/ttyUSB0".toList 115200).1 = false ∧
    (GrblController.new.connect (oneDevice (deviceSending [] 1))
      "/dev/ttyUSB0".toList 115200).2.1.m_port = "/dev/ttyUSB0".toList :=
  ⟨rfl,
   (connect_failure_keeps_port GrblController.new (oneDevice (deviceSending [] 1))
      "/dev/ttyUSB0".toList 115200 rfl (by intro p hp; cases hp) (by decide) (by decide)
      (fun hi => absurd ((containsStr_iff_occurs _ _).mpr hi) (by decide))).1,
   (connect_failure_keeps_port GrblController.new (oneDevice (deviceSending [] 1))
      "/dev/ttyUSB0".toList 115200 rfl (by intro p hp; cases hp) (by decide) (by decide)
      (fun hi => absurd ((containsStr_iff_occurs _ _).mpr hi) (by decide))).2.2.2.1⟩

theorem qualifiesOn_iff (h : Host) (port : Str) (baudRate : Int) :
    QualifiesOn h port baudRate ↔ Qualifies (h.dev port) := by
  obtain ⟨o1, o2, _⟩ := open_new h port baudRate
  unfold QualifiesOn Qualifies
  rw [o1]
  constructor
  · rintro ⟨hn, hg⟩
    rw [o2, hn, if_pos rfl, bannerText_opened] at hg
    exact ⟨hn, hg⟩
  · rintro ⟨hn, hg⟩
    rw [o2, hn, if_pos rfl, bannerText_opened]
    exact ⟨rfl, hg⟩

theorem reopensOn_iff (h : Host) (port : Str) (baudRate : Int)
    (hn : (SerialPort.new.open h port baudRate).1 = true) :
    ReopensOn h port baudRate ↔ Reopens (h.dev port) := by
  obtain ⟨o1, o2, o3, _⟩ := open_new h port baudRate
  rw [o1] at hn
  rw [hn] at o2
  simp only [if_true] at o2
  have hfd : 0 ≤ ((((SerialPort.new.open h port baudRate).2.1.writeByte
      (Char.ofNat 0x18)).2.sleepFor 2000).readAll 1000).2.m_fd := by
    rw [probe_fd, o2]; exact opened_fd _ _
  have hdev : ((((SerialPort.new.open h port baudRate).2.1.writeByte
      (Char.ofNat 0x18)).2.sleepFor 2000).readAll 1000).2.m_device = port := by
    rw [probe_device, o2]; rfl
  obtain ⟨c1, _⟩ := close_open _ (SerialPort.new.open h port baudRate).2.2 hfd
  rw [hdev] at c1
  unfold ReopensOn hostAfterProbe Reopens
  rw [(open_new _ port baudRate).1, c1, o3]
  rfl

/-- C15. On a session that is not connected (and owns no open transport), on a host
whose directory lists no port twice, `connect` without a port goes through the
candidates in the order of `listPorts`. When the candidate `c` is the first that
qualifies (it opens and its probe response holds "Grbl") and re-opening it succeeds,
`connect` returns true with the session connected and bound to `c` on an open
transport, and no call reaches a candidate after `c`: the log of the host grows only
by calls on other paths and the devices of the later candidates are as they were. When
no candidate qualifies, `connect` returns false and the session has no transport and
is not connected. -/
theorem connect_auto_detect (s : GrblController) (h : Host) (baudRate : Int)
    (hd : s.m_connected = false) (hs : ∀ p, s.m_serial = some p → p.m_fd < 0)
    (hn : (SerialPort.listPorts h).Nodup) :
    (∀ pre c post, SerialPort.listPorts h = pre ++ c :: post →
      (∀ q ∈ pre, ¬ QualifiesOn h q baudRate) → QualifiesOn h c baudRate →
      ReopensOn h c baudRate →
      (s.connect h [] baudRate).1 = true ∧
      (s.connect h [] baudRate).2.1.m_connected = true ∧
      (s.connect h [] baudRate).2.1.m_port = c ∧
      (∃ p, (s.connect h [] baudRate).2.1.m_serial = some p ∧ p.m_device = c ∧ 0 ≤ p.m_fd) ∧
      (∃ l, (s.connect h [] baudRate).2.2.log = h.log ++ l ∧ ∀ op ∈ l, op.device ∉ post) ∧
      (∀ q ∈ post, (s.connect h [] baudRate).2.2.dev q = h.dev q)) ∧
    ((∀ q ∈ SerialPort.listPorts h, ¬ QualifiesOn h q baudRate) →
      (s.connect h [] baudRate).1 = false ∧
      (s.connect h [] baudRate).2.1.m_serial = none ∧
      (s.connect h [] baudRate).2.1.m_connected = false) := by
  rw [connect_auto_eq s h baudRate hd hs]
  constructor
  · intro pre c post hl hpre hc hr
    have hr := (reopensOn_iff h c baudRate hc.1).mp hr
    have hc := (qualifiesOn_iff h c baudRate).mp hc
    have hpre : ∀ q ∈ pre, ¬ Qualifies (h.dev q) := fun q hq hQ =>
      hpre q hq ((qualifiesOn_iff h q baudRate).mpr hQ)
    rw [hl] at hn ⊢
    have hn1 : pre.Nodup := (List.nodup_append.mp hn).1
    have hn2 : (c :: post).Nodup := (List.nodup_append.mp hn).2.1
    have hdis : ∀ q, q ∈ pre → q ∈ c :: post → False := fun q h1 h2 =>
      (List.nodup_append.mp hn).2.2 h1 h2
    have hcpre : c ∉ pre := fun hm => hdis c hm (List.mem_cons_self _ _)
    have hcpost : c ∉ post := (List.nodup_cons.mp hn2).1
    obtain ⟨h1, e1, t1⟩ := autoDetectLoop_skips baudRate pre (c :: post)
      { s with m_serial := some SerialPort.new, m_mutex := false } h hn1 hpre
    have hdc : h1.dev c = h.dev c := t1.2.1 c hcpre
    obtain ⟨p, h2, e2, hfd, hdev, t2⟩ := autoDetectLoop_accept baudRate c post
      { s with m_serial := some SerialPort.new, m_mutex := false } h1
      (by
        intro q hq
        cases hq
        decide)
      (by rw [hdc]; exact hc) (by rw [hdc]; exact hr)
    have t3 : TouchedOnly (pre ++ [c]) h h2 :=
      touchedOnly_trans t1 t2 (fun q hm => List.mem_append_left _ hm)
        (fun q hm => List.mem_append_right _ hm)
    have hpost : ∀ q ∈ post, q ∉ pre ++ [c] := by
      intro q hq hm
      rcases List.mem_append.mp hm with hm | hm
      · exact hdis q hm (List.mem_cons_of_mem _ hq)
      · rw [List.mem_singleton] at hm
        subst hm
        exact hcpost hq
    rw [e1, e2]
    simp only [if_true]
    refine ⟨trivial, trivial, trivial, ⟨p, rfl, hdev, hfd⟩, ?_, ?_⟩
    · obtain ⟨l, hl1, hl2⟩ := t3.2.2
      refine ⟨l, hl1, ?_⟩
      intro op hop hm
      exact hpost _ hm (hl2 op hop)
    · intro q hq
      exact t3.2.1 q (hpost q hq)
  · intro hall
    have hall : ∀ q ∈ SerialPort.listPorts h, ¬ Qualifies (h.dev q) := fun q hq hQ =>
      hall q hq ((qualifiesOn_iff h q baudRate).mpr hQ)
    obtain ⟨h1, e1, _⟩ := autoDetectLoop_skips baudRate (SerialPort.listPorts h) []
      { s with m_serial := some SerialPort.new, m_mutex := false } h hn hall
    rw [List.append_nil] at e1
    rw [e1]
    simp only [autoDetectLoop, Bool.false_eq_true, if_false]
    exact ⟨trivial, trivial, hd⟩

/-- C15 on a host with four serial devices: the candidates are "/dev/ttyACM0" (it
cannot be opened), "/dev/ttyUSB0" (it answers "ok"), "/dev/ttyUSB1" and
"/dev/ttyUSB2" (both send the banner). The session is bound to the third candidate and
no call reaches the fourth. -/
theorem connect_auto_detect_witness :
    SerialPort.listPorts fourDevices = ["/dev/ttyACM0".toList, "/dev/ttyUSB0".toList,
      "/dev/ttyUSB1".toList, "/dev/ttyUSB2".toList] ∧
    (GrblController.new.connect fourDevices [] 115200).1 = true ∧
    (GrblController.new.connect fourDevices [] 115200).2.1.m_connected = true ∧
    (GrblController.new.connect fourDevices [] 115200).2.1.m_port = "/dev/ttyUSB1".toList ∧
    (∃ p, (GrblController.new.connect fourDevices [] 115200).2.1.m_serial = some p ∧
      p.m_device = "/dev/ttyUSB1".toList ∧ 0 ≤ p.m_fd) ∧
    (∃ l, (GrblController.new.connect fourDevices [] 115200).2.2.log = fourDevices.log ++ l ∧
      ∀ op ∈ l, op.device ∉ ["/dev/ttyUSB2".toList]) ∧
    (∀ q ∈ ["/dev/ttyUSB2".toList],
      (GrblController.new.connect fourDevices [] 115200).2.2.dev q = fourDevices.dev q) :=
  ⟨by decide,
   (connect_auto_detect GrblController.new fourDevices 115200 rfl (by intro p hp; cases hp)
      (by decide)).1
      ["/dev/ttyACM0".toList, "/dev/ttyUSB0".toList] "/dev/ttyUSB1".toList
      ["/dev/ttyUSB2".toList] (by decide)
      (by
        intro q hq
        rcases List.mem_cons.mp hq with rfl | hq
        · exact fun hQ => absurd hQ.1 (by decide)
        · rcases List.mem_cons.mp hq with rfl | hq
          · exact fun hQ => absurd ((containsStr_iff_occurs _ _).mpr hQ.2) (by decide)
          · cases hq)
      ⟨by decide, (containsStr_iff_occurs _ _).mp (by decide)⟩
      (by unfold ReopensOn hostAfterProbe; decide)⟩

/-! ## Facts about reachable sessions -/

theorem sound_call (c : Call) (s : GrblController) (h : Host) (hS : Sound s) :
    Sound (c.run s h).1 := by
  cases c with
  | listPorts => exact hS
  | connect port baudRate => exact sound_connect s h port baudRate hS
  | disconnect => exact sound_disconnect s h hS
  | getPort => exact hS
  | getVersion => exact hS
  | getStatus => exact sound_getStatus s hS
  | getStatusJson => exact sound_getStatus s hS
  | getState => exact sound_getStatus s hS
  | home => exact sound_queued s _ _ _ hS
  | moveG0 x y z => exact sound_queued s _ _ _ hS
  | moveG1 x y z feed => exact sound_queued s _ _ _ hS
  | jog axis distance feed => exact sound_queued s _ _ _ hS
  | cancelJog => exact sound_sendRealTimeCommand s _ hS
  | feedHold => exact sound_feedHold s hS
  | cycleStart => exact sound_cycleStart s hS
  | softReset => exact sound_softReset s hS
  | unlock => exact sound_queued s _ _ _ hS
  | getSettings => exact sound_getSettings s hS
  | getSettingsJson => exact sound_getSettings s hS
  | setSetting id value => exact sound_queued s _ _ _ hS
  | sendCommand cmd timeoutMs => exact sound_sendCommand s cmd timeoutMs hS
  | sendRealTimeCommand cmd => exact sound_sendRealTimeCommand s cmd hS
  | setEventHandler handler => exact hS

theorem reachable_sound (s : GrblController) (h : Host) (hr : Reachable s h) : Sound s := by
  induction hr with
  | init h => exact Or.inr ⟨rfl, rfl⟩
  | call c s h _ ih => exact sound_call c s h ih

/-- C18. In every state that a sequence of calls of the public methods reaches from
the initial state, on any host, the connected flag is true exactly when the session
owns a transport and that transport is open. (The calls follow one another; what
another thread does while `connect` has released the lock for the detection is not
part of a sequence.) -/
theorem connected_iff_transport (s : GrblController) (h : Host) (hr : Reachable s h) :
    s.m_connected = true ↔ OwnsOpenTransport s := by
  rcases reachable_sound s h hr with ⟨hc, ho⟩ | ⟨hc, hs⟩
  · exact ⟨fun _ => ho, fun _ => hc⟩
  · constructor
    · intro h1
      rw [hc] at h1
      cases h1
    · rintro ⟨p, hp, _⟩
      rw [hs] at hp
      cases hp

/-- C18 after a `connect` without a port that succeeds on a host with four devices. -/
theorem connected_iff_transport_witness :
    ((Call.connect [] 115200).run GrblController.new fourDevices).1.m_connected = true ∧
    (((Call.connect [] 115200).run GrblController.new fourDevices).1.m_connected = true ↔
      OwnsOpenTransport ((Call.connect [] 115200).run GrblController.new fourDevices).1) :=
  ⟨by decide,
   connected_iff_transport _ _ (Reachable.call (Call.connect [] 115200) _ _
    (Reachable.init fourDevices))⟩

/-! ## Facts about the observer and the lock -/

/-- C19, as the code has it. With an observer registered, `home`, `unlock`,
`setSetting` and `softReset` on a connected session whose device answers "ok",
`disconnect` on a connected session, and `connect` (with a port and without) on a
fresh session each invoke the observer once while the operation holds the session
lock: `emitEvent` is called inside the scope of the lock guard. Only `feedHold` and
`cycleStart` invoke it after the lock has been released. -/
theorem observer_called_under_lock :
    ((sessionOn (devicePort "ok\r\n".toList 1)).home).2.events.map
        (fun e => (e.type, e.lockHeld, e.observer))
      = [("grbl_homing_complete".toList, true, some 0)] ∧
    ((sessionOn (devicePort "ok\r\n".toList 1)).unlock).2.events.map
        (fun e => (e.type, e.lockHeld, e.observer))
      = [("grbl_unlocked".toList, true, some 0)] ∧
    ((sessionOn (devicePort "ok\r\n".toList 1)).setSetting 100 250).2.events.map
        (fun e => (e.type, e.lockHeld, e.observer))
      = [("grbl_setting_changed".toList, true, some 0)] ∧
    ((sessionOn (devicePort "ok\r\n".toList 1)).softReset).2.events.map
        (fun e => (e.type, e.lockHeld, e.observer))
      = [("grbl_reset".toList, true, some 0)] ∧
    ((sessionOn (devicePort [] 1)).disconnect (hostOf [])).1.events.map
        (fun e => (e.type, e.lockHeld, e.observer))
      = [("grbl_disconnected".toList, true, some 0)] ∧
    (observedSession.connect (oneDevice (deviceSending banner 1))
        "/dev/ttyUSB0".toList 115200).2.1.events.map
        (fun e => (e.type, e.lockHeld, e.observer))
      = [("grbl_connected".toList, true, some 0)] ∧
    (observedSession.connect (oneDevice (deviceSending banner 1)) [] 115200).2.1.events.map
        (fun e => (e.type, e.lockHeld, e.observer))
      = [("grbl_connected".toList, true, some 0)] ∧
    ((sessionOn (devicePort [] 1)).feedHold).2.events.map
        (fun e => (e.type, e.lockHeld, e.observer))
      = [("grbl_feed_hold".toList, false, some 0)] ∧
    ((sessionOn (devicePort [] 1)).cycleStart).2.events.map
        (fun e => (e.type, e.lockHeld, e.observer))
      = [("grbl_cycle_start".toList, false, some 0)] := by
  refine ⟨?_, ?_, ?_, ?_, ?_, ?_, ?_, ?_, ?_⟩ <;> decide

/-! ## Facts about the blocks of the frame parser -/

/-- The parser runs its eight blocks one after the other on the default status. -/
theorem parseStatus_blocks (response : Str) :
    GrblController.parseStatus response =
      pnBlock response (ovBlock response (fBlock response (fsBlock response
        (bfBlock response (wposBlock response (mposBlock response
          (stateBlock response {}))))))) := rfl

theorem stateBlock_form (response : Str) (status : GrblStatus) :
    ∃ x, stateBlock response status = { status with state := x } := by
  unfold stateBlock
  simp only []
  split
  · exact ⟨_, rfl⟩
  · exact ⟨status.state, rfl⟩

theorem mposBlock_form (response : Str) (status : GrblStatus) :
    ∃ m, mposBlock response status = { status with machinePos := m } := by
  unfold mposBlock
  split
  · exact ⟨_, rfl⟩
  · exact ⟨status.machinePos, rfl⟩

theorem wposBlock_form (response : Str) (status : GrblStatus) :
    ∃ w, wposBlock response status = { status with workPos := w } := by
  unfold wposBlock
  split
  · exact ⟨_, rfl⟩
  · exact ⟨status.workPos, rfl⟩

theorem bfBlock_form (response : Str) (status : GrblStatus) :
    ∃ p r, bfBlock response status =
      { status with bufferPlannerAvail := p, bufferRxAvail := r } := by
  unfold bfBlock
  split
  · split
    · exact ⟨_, _, rfl⟩
    · exact ⟨status.bufferPlannerAvail, status.bufferRxAvail, rfl⟩
  · exact ⟨status.bufferPlannerAvail, status.bufferRxAvail, rfl⟩

theorem fsBlock_form (response : Str) (status : GrblStatus) :
    ∃ f sp, fsBlock response status = { status with feedRate := f, spindleSpeed := sp } := by
  unfold fsBlock
  split
  · split
    · exact ⟨_, _, rfl⟩
    · exact ⟨status.feedRate, status.spindleSpeed, rfl⟩
  · exact ⟨status.feedRate, status.spindleSpeed, rfl⟩

theorem fBlock_form (response : Str) (status : GrblStatus) :
    ∃ f, fBlock response status = { status with feedRate := f } := by
  unfold fBlock
  split
  · split
    · split
      · exact ⟨_, rfl⟩
      · exact ⟨status.feedRate, rfl⟩
    · exact ⟨status.feedRate, rfl⟩
  · exact ⟨status.feedRate, rfl⟩

theorem ovBlock_form (response : Str) (status : GrblStatus) :
    ∃ a b c, ovBlock response status =
      { status with feedOverride := a, rapidOverride := b, spindleOverride := c } := by
  unfold ovBlock
  split
  · split
    · exact ⟨_, _, _, rfl⟩
    · exact ⟨status.feedOverride, status.rapidOverride, status.spindleOverride, rfl⟩
  · exact ⟨status.feedOverride, status.rapidOverride, status.spindleOverride, rfl⟩

theorem pnBlock_form (response : Str) (status : GrblStatus) :
    ∃ P, pnBlock response status = { status with inputPins := P } := by
  unfold pnBlock
  split
  · exact ⟨_, rfl⟩
  · exact ⟨status.inputPins, rfl⟩

theorem findStr_absent (pat s : Str) (h : ¬ pat <:+: s) : findStr pat s = none := by
  cases hf : findStr pat s with
  | none => rfl
  | some i =>
    exact absurd ((containsStr_iff_occurs pat s).mp (by simp [containsStr, hf])) h

theorem findFirstOf_none (set s : Str) (h : ∀ c ∈ s, set.contains c = false) :
    findFirstOf set s = none := by
  induction s with
  | nil => rfl
  | cons c cs ih =>
    rw [findFirstOf, if_neg (by rw [h c (List.mem_cons_self _ _)]; decide),
      ih (fun x hx => h x (List.mem_cons_of_mem _ hx))]
    rfl

theorem findChar_absent (c : Char) (s : Str) (h : c ∉ s) : findChar c s = none := by
  unfold findChar findCharFrom findFirstOfFrom
  rw [if_neg (Nat.not_lt_zero _), List.drop_zero,
    findFirstOf_none [c] s (fun x hx => contains_singleton_false _ _ (fun e => h (e ▸ hx)))]
  rfl

theorem stateBlock_machinePos (response : Str) (status : GrblStatus) :
    (stateBlock response status).machinePos = status.machinePos := by
  obtain ⟨x, e⟩ := stateBlock_form response status
  rw [e]

theorem stateBlock_workPos (response : Str) (status : GrblStatus) :
    (stateBlock response status).workPos = status.workPos := by
  obtain ⟨x, e⟩ := stateBlock_form response status
  rw [e]

theorem stateBlock_feedRate (response : Str) (status : GrblStatus) :
    (stateBlock response status).feedRate = status.feedRate := by
  obtain ⟨x, e⟩ := stateBlock_form response status
  rw [e]

theorem stateBlock_spindleSpeed (response : Str) (status : GrblStatus) :
    (stateBlock response status).spindleSpeed = status.spindleSpeed := by
  obtain ⟨x, e⟩ := stateBlock_form response status
  rw [e]

theorem stateBlock_feedOverride (response : Str) (status : GrblStatus) :
    (stateBlock response status).feedOverride = status.feedOverride := by
  obtain ⟨x, e⟩ := stateBlock_form response status
  rw [e]

theorem stateBlock_rapidOverride (response : Str) (status : GrblStatus) :
    (stateBlock response status).rapidOverride = status.rapidOverride := by
  obtain ⟨x, e⟩ := stateBlock_form response status
  rw [e]

theorem stateBlock_spindleOverride (response : Str) (status : GrblStatus) :
    (stateBlock response status).spindleOverride = status.spindleOverride := by
  obtain ⟨x, e⟩ := stateBlock_form response status
  rw [e]

theorem stateBlock_inputPins (response : Str) (status : GrblStatus) :
    (stateBlock response status).inputPins = status.inputPins := by
  obtain ⟨x, e⟩ := stateBlock_form response status
  rw [e]

theorem stateBlock_bufferPlannerAvail (response : Str) (status : GrblStatus) :
    (stateBlock response status).bufferPlannerAvail = status.bufferPlannerAvail := by
  obtain ⟨x, e⟩ := stateBlock_form response status
  rw [e]

theorem stateBlock_bufferRxAvail (response : Str) (status : GrblStatus) :
    (stateBlock response status).bufferRxAvail = status.bufferRxAvail := by
  obtain ⟨x, e⟩ := stateBlock_form response status
  rw [e]

theorem mposBlock_state (response : Str) (status : GrblStatus) :
    (mposBlock response status).state = status.state := by
  obtain ⟨m, e⟩ := mposBlock_form response status
  rw [e]

theorem mposBlock_workPos (response : Str) (status : GrblStatus) :
    (mposBlock response status).workPos = status.workPos := by
  obtain ⟨m, e⟩ := mposBlock_form response status
  rw [e]

theorem mposBlock_feedRate (response : Str) (status : GrblStatus) :
    (mposBlock response status).feedRate = status.feedRate := by
  obtain ⟨m, e⟩ := mposBlock_form response status
  rw [e]

theorem mposBlock_spindleSpeed (response : Str) (status : GrblStatus) :
    (mposBlock response status).spindleSpeed = status.spindleSpeed := by
  obtain ⟨m, e⟩ := mposBlock_form response status
  rw [e]

theorem mposBlock_feedOverride (response : Str) (status : GrblStatus) :
    (mposBlock response status).feedOverride = status.feedOverride := by
  obtain ⟨m, e⟩ := mposBlock_form response status
  rw [e]

theorem mposBlock_rapidOverride (response : Str) (status : GrblStatus) :
    (mposBlock response status).rapidOverride = status.rapidOverride := by
  obtain ⟨m, e⟩ := mposBlock_form response status
  rw [e]

theorem mposBlock_spindleOverride (response : Str) (status : GrblStatus) :
    (mposBlock response status).spindleOverride = status.spindleOverride := by
  obtain ⟨m, e⟩ := mposBlock_form response status
  rw [e]

theorem mposBlock_inputPins (response : Str) (status : GrblStatus) :
    (mposBlock response status).inputPins = status.inputPins := by
  obtain ⟨m, e⟩ := mposBlock_form response status
  rw [e]

theorem mposBlock_bufferPlannerAvail (response : Str) (status : GrblStatus) :
    (mposBlock response status).bufferPlannerAvail = status.bufferPlannerAvail := by
  obtain ⟨m, e⟩ := mposBlock_form response status
  rw [e]

theorem mposBlock_bufferRxAvail (response : Str) (status : GrblStatus) :
    (mposBlock response status).bufferRxAvail = status.bufferRxAvail := by
  obtain ⟨m, e⟩ := mposBlock_form response status
  rw [e]

theorem wposBlock_state (response : Str) (status : GrblStatus) :
    (wposBlock response status).state = status.state := by
  obtain ⟨w, e⟩ := wposBlock_form response status
  rw [e]

theorem wposBlock_machinePos (response : Str) (status : GrblStatus) :
    (wposBlock response status).machinePos = status.machinePos := by
  obtain ⟨w, e⟩ := wposBlock_form response status
  rw [e]

theorem wposBlock_feedRate (response : Str) (status : GrblStatus) :
    (wposBlock response status).feedRate = status.feedRate := by
  obtain ⟨w, e⟩ := wposBlock_form response status
  rw [e]

theorem wposBlock_spindleSpeed (response : Str) (status : GrblStatus) :
    (wposBlock response status).spindleSpeed = status.spindleSpeed := by
  obtain ⟨w, e⟩ := wposBlock_form response status
  rw [e]

theorem wposBlock_feedOverride (response : Str) (status : GrblStatus) :
    (wposBlock response status).feedOverride = status.feedOverride := by
  obtain ⟨w, e⟩ := wposBlock_form response status
  rw [e]

theorem wposBlock_rapidOverride (response : Str) (status : GrblStatus) :
    (wposBlock response status).rapidOverride = status.rapidOverride := by
  obtain ⟨w, e⟩ := wposBlock_form response status
  rw [e]

theorem wposBlock_spindleOverride (response : Str) (status : GrblStatus) :
    (wposBlock response status).spindleOverride = status.spindleOverride := by
  obtain ⟨w, e⟩ := wposBlock_form response status
  rw [e]

theorem wposBlock_inputPins (response : Str) (status : GrblStatus) :
    (wposBlock response status).inputPins = status.inputPins := by
  obtain ⟨w, e⟩ := wposBlock_form response status
  rw [e]

theorem wposBlock_bufferPlannerAvail (response : Str) (status : GrblStatus) :
    (wposBlock response status).bufferPlannerAvail = status.bufferPlannerAvail := by
  obtain ⟨w, e⟩ := wposBlock_form response status
  rw [e]

theorem wposBlock_bufferRxAvail (response : Str) (status : GrblStatus) :
    (wposBlock response status).bufferRxAvail = status.bufferRxAvail := by
  obtain ⟨w, e⟩ := wposBlock_form response status
  rw [e]

theorem bfBlock_state (response : Str) (status : GrblStatus) :
    (bfBlock response status).state = status.state := by
  obtain ⟨p, r, e⟩ := bfBlock_form response status
  rw [e]

theorem bfBlock_machinePos (response : Str) (status : GrblStatus) :
    (bfBlock response status).machinePos = status.machinePos := by
  obtain ⟨p, r, e⟩ := bfBlock_form response status
  rw [e]

theorem bfBlock_workPos (response : Str) (status : GrblStatus) :
    (bfBlock response status).workPos = status.workPos := by
  obtain ⟨p, r, e⟩ := bfBlock_form response status
  rw [e]

theorem bfBlock_feedRate (response : Str) (status : GrblStatus) :
    (bfBlock response status).feedRate = status.feedRate := by
  obtain ⟨p, r, e⟩ := bfBlock_form response status
  rw [e]

theorem bfBlock_spindleSpeed (response : Str) (status : GrblStatus) :
    (bfBlock response status).spindleSpeed = status.spindleSpeed := by
  obtain ⟨p, r, e⟩ := bfBlock_form response status
  rw [e]

theorem bfBlock_feedOverride (response : Str) (status : GrblStatus) :
    (bfBlock response status).feedOverride = status.feedOverride := by
  obtain ⟨p, r, e⟩ := bfBlock_form response status
  rw [e]

theorem bfBlock_rapidOverride (response : Str) (status : GrblStatus) :
    (bfBlock response status).rapidOverride = status.rapidOverride := by
  obtain ⟨p, r, e⟩ := bfBlock_form response status
  rw [e]

theorem bfBlock_spindleOverride (response : Str) (status : GrblStatus) :
    (bfBlock response status).spindleOverride = status.spindleOverride := by
  obtain ⟨p, r, e⟩ := bfBlock_form response status
  rw [e]

theorem bfBlock_inputPins (response : Str) (status : GrblStatus) :
    (bfBlock response status).inputPins = status.inputPins := by
  obtain ⟨p, r, e⟩ := bfBlock_form response status
  rw [e]

theorem fsBlock_state (response : Str) (status : GrblStatus) :
    (fsBlock response status).state = status.state := by
  obtain ⟨f, sp, e⟩ := fsBlock_form response status
  rw [e]

theorem fsBlock_machinePos (response : Str) (status : GrblStatus) :
    (fsBlock response status).machinePos = status.machinePos := by
  obtain ⟨f, sp, e⟩ := fsBlock_form response status
  rw [e]

theorem fsBlock_workPos (response : Str) (status : GrblStatus) :
    (fsBlock response status).workPos = status.workPos := by
  obtain ⟨f, sp, e⟩ := fsBlock_form response status
  rw [e]

theorem fsBlock_feedOverride (response : Str) (status : GrblStatus) :
    (fsBlock response status).feedOverride = status.feedOverride := by
  obtain ⟨f, sp, e⟩ := fsBlock_form response status
  rw [e]

theorem fsBlock_rapidOverride (response : Str) (status : GrblStatus) :
    (fsBlock response status).rapidOverride = status.rapidOverride := by
  obtain ⟨f, sp, e⟩ := fsBlock_form response status
  rw [e]

theorem fsBlock_spindleOverride (response : Str) (status : GrblStatus) :
    (fsBlock response status).spindleOverride = status.spindleOverride := by
  obtain ⟨f, sp, e⟩ := fsBlock_form response status
  rw [e]

theorem fsBlock_inputPins (response : Str) (status : GrblStatus) :
    (fsBlock response status).inputPins = status.inputPins := by
  obtain ⟨f, sp, e⟩ := fsBlock_form response status
  rw [e]

theorem fsBlock_bufferPlannerAvail (response : Str) (status : GrblStatus) :
    (fsBlock response status).bufferPlannerAvail = status.bufferPlannerAvail := by
  obtain ⟨f, sp, e⟩ := fsBlock_form response status
  rw [e]

theorem fsBlock_bufferRxAvail (response : Str) (status : GrblStatus) :
    (fsBlock response status).bufferRxAvail = status.bufferRxAvail := by
  obtain ⟨f, sp, e⟩ := fsBlock_form response status
  rw [e]

theorem fBlock_state (response : Str) (status : GrblStatus) :
    (fBlock response status).state = status.state := by
  obtain ⟨f, e⟩ := fBlock_form response status
  rw [e]

theorem fBlock_machinePos (response : Str) (status : GrblStatus) :
    (fBlock response status).machinePos = status.machinePos := by
  obtain ⟨f, e⟩ := fBlock_form response status
  rw [e]

theorem fBlock_workPos (response : Str) (status : GrblStatus) :
    (fBlock response status).workPos = status.workPos := by
  obtain ⟨f, e⟩ := fBlock_form response status
  rw [e]

theorem fBlock_spindleSpeed (response : Str) (status : GrblStatus) :
    (fBlock response status).spindleSpeed = status.spindleSpeed := by
  obtain ⟨f, e⟩ := fBlock_form response status
  rw [e]

theorem fBlock_feedOverride (response : Str) (status : GrblStatus) :
    (fBlock response status).feedOverride = status.feedOverride := by
  obtain ⟨f, e⟩ := fBlock_form response status
  rw [e]

theorem fBlock_rapidOverride (response : Str) (status : GrblStatus) :
    (fBlock response status).rapidOverride = status.rapidOverride := by
  obtain ⟨f, e⟩ := fBlock_form response status
  rw [e]

theorem fBlock_spindleOverride (response : Str) (status : GrblStatus) :
    (fBlock response status).spindleOverride = status.spindleOverride := by
  obtain ⟨f, e⟩ := fBlock_form response status
  rw [e]

theorem fBlock_inputPins (response : Str) (status : GrblStatus) :
    (fBlock response status).inputPins = status.inputPins := by
  obtain ⟨f, e⟩ := fBlock_form response status
  rw [e]

theorem fBlock_bufferPlannerAvail (response : Str) (status : GrblStatus) :
    (fBlock response status).bufferPlannerAvail = status.bufferPlannerAvail := by
  obtain ⟨f, e⟩ := fBlock_form response status
  rw [e]

theorem fBlock_bufferRxAvail (response : Str) (status : GrblStatus) :
    (fBlock response status).bufferRxAvail = status.bufferRxAvail := by
  obtain ⟨f, e⟩ := fBlock_form response status
  rw [e]

theorem ovBlock_state (response : Str) (status : GrblStatus) :
    (ovBlock response status).state = status.state := by
  obtain ⟨a, b, c, e⟩ := ovBlock_form response status
  rw [e]

theorem ovBlock_machinePos (response : Str) (status : GrblStatus) :
    (ovBlock response status).machinePos = status.machinePos := by
  obtain ⟨a, b, c, e⟩ := ovBlock_form response status
  rw [e]

theorem ovBlock_workPos (response : Str) (status : GrblStatus) :
    (ovBlock response status).workPos = status.workPos := by
  obtain ⟨a, b, c, e⟩ := ovBlock_form response status
  rw [e]

theorem ovBlock_feedRate (response : Str) (status : GrblStatus) :
    (ovBlock response status).feedRate = status.feedRate := by
  obtain ⟨a, b, c, e⟩ := ovBlock_form response status
  rw [e]

theorem ovBlock_spindleSpeed (response : Str) (status : GrblStatus) :
    (ovBlock response status).spindleSpeed = status.spindleSpeed := by
  obtain ⟨a, b, c, e⟩ := ovBlock_form response status
  rw [e]

theorem ovBlock_inputPins (response : Str) (status : GrblStatus) :
    (ovBlock response status).inputPins = status.inputPins := by
  obtain ⟨a, b, c, e⟩ := ovBlock_form response status
  rw [e]

theorem ovBlock_bufferPlannerAvail (response : Str) (status : GrblStatus) :
    (ovBlock response status).bufferPlannerAvail = status.bufferPlannerAvail := by
  obtain ⟨a, b, c, e⟩ := ovBlock_form response status
  rw [e]

theorem ovBlock_bufferRxAvail (response : Str) (status : GrblStatus) :
    (ovBlock response status).bufferRxAvail = status.bufferRxAvail := by
  obtain ⟨a, b, c, e⟩ := ovBlock_form response status
  rw [e]

theorem pnBlock_state (response : Str) (status : GrblStatus) :
    (pnBlock response status).state = status.state := by
  obtain ⟨P, e⟩ := pnBlock_form response status
  rw [e]

theorem pnBlock_machinePos (response : Str) (status : GrblStatus) :
    (pnBlock response status).machinePos = status.machinePos := by
  obtain ⟨P, e⟩ := pnBlock_form response status
  rw [e]

theorem pnBlock_workPos (response : Str) (status : GrblStatus) :
    (pnBlock response status).workPos = status.workPos := by
  obtain ⟨P, e⟩ := pnBlock_form response status
  rw [e]

theorem pnBlock_feedRate (response : Str) (status : GrblStatus) :
    (pnBlock response status).feedRate = status.feedRate := by
  obtain ⟨P, e⟩ := pnBlock_form response status
  rw [e]

theorem pnBlock_spindleSpeed (response : Str) (status : GrblStatus) :
    (pnBlock response status).spindleSpeed = status.spindleSpeed := by
  obtain ⟨P, e⟩ := pnBlock_form response status
  rw [e]

theorem pnBlock_feedOverride (response : Str) (status : GrblStatus) :
    (pnBlock response status).feedOverride = status.feedOverride := by
  obtain ⟨P, e⟩ := pnBlock_form response status
  rw [e]

theorem pnBlock_rapidOverride (response : Str) (status : GrblStatus) :
    (pnBlock response status).rapidOverride = status.rapidOverride := by
  obtain ⟨P, e⟩ := pnBlock_form response status
  rw [e]

theorem pnBlock_spindleOverride (response : Str) (status : GrblStatus) :
    (pnBlock response status).spindleOverride = status.spindleOverride := by
  obtain ⟨P, e⟩ := pnBlock_form response status
  rw [e]

theorem pnBlock_bufferPlannerAvail (response : Str) (status : GrblStatus) :
    (pnBlock response status).bufferPlannerAvail = status.bufferPlannerAvail := by
  obtain ⟨P, e⟩ := pnBlock_form response status
  rw [e]

theorem pnBlock_bufferRxAvail (response : Str) (status : GrblStatus) :
    (pnBlock response status).bufferRxAvail = status.bufferRxAvail := by
  obtain ⟨P, e⟩ := pnBlock_form response status
  rw [e]

theorem mposBlock_absent (response : Str) (status : GrblStatus)
    (h : ¬ "MPos:".toList <:+: response) : mposBlock response status = status := by
  unfold mposBlock
  rw [findStr_absent _ _ h]

theorem wposBlock_absent (response : Str) (status : GrblStatus)
    (h : ¬ "WPos:".toList <:+: response) : wposBlock response status = status := by
  unfold wposBlock
  rw [findStr_absent _ _ h]

theorem bfBlock_absent (response : Str) (status : GrblStatus)
    (h : ¬ "Bf:".toList <:+: response) : bfBlock response status = status := by
  unfold bfBlock
  rw [findStr_absent _ _ h]

theorem fsBlock_absent (response : Str) (status : GrblStatus)
    (h : ¬ "FS:".toList <:+: response) : fsBlock response status = status := by
  unfold fsBlock
  rw [findStr_absent _ _ h]

theorem fBlock_absent (response : Str) (status : GrblStatus)
    (h : ¬ "|F:".toList <:+: response) : fBlock response status = status := by
  unfold fBlock
  rw [findStr_absent _ _ h]
  split <;> rfl

theorem ovBlock_absent (response : Str) (status : GrblStatus)
    (h : ¬ "Ov:".toList <:+: response) : ovBlock response status = status := by
  unfold ovBlock
  rw [findStr_absent _ _ h]

theorem pnBlock_absent (response : Str) (status : GrblStatus)
    (h : ¬ "Pn:".toList <:+: response) : pnBlock response status = status := by
  unfold pnBlock
  rw [findStr_absent _ _ h]

theorem stateBlock_absent (response : Str) (status : GrblStatus) (h : '|' ∉ response) :
    stateBlock response status = status := by
  unfold stateBlock
  rw [findChar_absent _ _ h]
  rfl

/-! ## Facts about frames with segments left out -/

/-- C26. For every response text (a frame that begins with `<` or any other), each of
the segments is optional on its own: without "MPos:" the machine position is (0,0,0),
without "WPos:" the work position is (0,0,0), without "Bf:" both buffer counters are
0, without "FS:" and without "|F:" the feed and the spindle speed are 0, and without
"Pn:" the pin string is empty. The parse is a total function: a status is returned
whatever is missing. -/
theorem segments_optional (response : Str) :
    (¬ "MPos:".toList <:+: response →
      (GrblController.parseStatus response).machinePos = { x := 0, y := 0, z := 0 }) ∧
    (¬ "WPos:".toList <:+: response →
      (GrblController.parseStatus response).workPos = { x := 0, y := 0, z := 0 }) ∧
    (¬ "Bf:".toList <:+: response →
      (GrblController.parseStatus response).bufferPlannerAvail = 0 ∧
      (GrblController.parseStatus response).bufferRxAvail = 0) ∧
    (¬ "FS:".toList <:+: response → ¬ "|F:".toList <:+: response →
      (GrblController.parseStatus response).feedRate = 0 ∧
      (GrblController.parseStatus response).spindleSpeed = 0) ∧
    (¬ "Pn:".toList <:+: response →
      (GrblController.parseStatus response).inputPins = []) := by
  rw [parseStatus_blocks]
  refine ⟨?_, ?_, ?_, ?_, ?_⟩
  · intro h
    simp [pnBlock_machinePos, ovBlock_machinePos, fBlock_machinePos, fsBlock_machinePos,
      bfBlock_machinePos, wposBlock_machinePos, mposBlock_absent _ _ h, stateBlock_machinePos]
  · intro h
    simp [pnBlock_workPos, ovBlock_workPos, fBlock_workPos, fsBlock_workPos,
      bfBlock_workPos, wposBlock_absent _ _ h, mposBlock_workPos, stateBlock_workPos]
  · intro h
    simp [pnBlock_bufferPlannerAvail, ovBlock_bufferPlannerAvail,
      fBlock_bufferPlannerAvail, fsBlock_bufferPlannerAvail, pnBlock_bufferRxAvail,
      ovBlock_bufferRxAvail, fBlock_bufferRxAvail, fsBlock_bufferRxAvail,
      bfBlock_absent _ _ h, wposBlock_bufferPlannerAvail, mposBlock_bufferPlannerAvail,
      stateBlock_bufferPlannerAvail, wposBlock_bufferRxAvail, mposBlock_bufferRxAvail,
      stateBlock_bufferRxAvail]
  · intro h1 h2
    simp [pnBlock_feedRate, ovBlock_feedRate, pnBlock_spindleSpeed, ovBlock_spindleSpeed,
      fBlock_absent _ _ h2, fsBlock_absent _ _ h1, bfBlock_feedRate, wposBlock_feedRate,
      mposBlock_feedRate, stateBlock_feedRate, bfBlock_spindleSpeed, wposBlock_spindleSpeed,
      mposBlock_spindleSpeed, stateBlock_spindleSpeed]
  · intro h
    simp [pnBlock_absent _ _ h, ovBlock_inputPins, fBlock_inputPins, fsBlock_inputPins,
      bfBlock_inputPins, wposBlock_inputPins, mposBlock_inputPins, stateBlock_inputPins]

/-- C26 on the frame `<Idle|WPos:1.000,2.000,3.000|Ov:100,100,100>`: the work position
is read, and every field of a segment that is left out has its zero or empty value. -/
theorem segments_optional_witness :
    (GrblController.parseStatus "<Idle|WPos:1.000,2.000,3.000|Ov:100,100,100>".toList).workPos
      = { x := 1, y := 2, z := 3 } ∧
    (GrblController.parseStatus
      "<Idle|WPos:1.000,2.000,3.000|Ov:100,100,100>".toList).machinePos
      = { x := 0, y := 0, z := 0 } ∧
    ((GrblController.parseStatus
        "<Idle|WPos:1.000,2.000,3.000|Ov:100,100,100>".toList).bufferPlannerAvail = 0 ∧
      (GrblController.parseStatus
        "<Idle|WPos:1.000,2.000,3.000|Ov:100,100,100>".toList).bufferRxAvail = 0) ∧
    ((GrblController.parseStatus
        "<Idle|WPos:1.000,2.000,3.000|Ov:100,100,100>".toList).feedRate = 0 ∧
      (GrblController.parseStatus
        "<Idle|WPos:1.000,2.000,3.000|Ov:100,100,100>".toList).spindleSpeed = 0) ∧
    (GrblController.parseStatus
      "<Idle|WPos:1.000,2.000,3.000|Ov:100,100,100>".toList).inputPins = [] :=
  ⟨by decide!,
   (segments_optional "<Idle|WPos:1.000,2.000,3.000|Ov:100,100,100>".toList).1
     (fun hi => absurd ((containsStr_iff_occurs _ _).mpr hi) (by decide)),
   (segments_optional "<Idle|WPos:1.000,2.000,3.000|Ov:100,100,100>".toList).2.2.1
     (fun hi => absurd ((containsStr_iff_occurs _ _).mpr hi) (by decide)),
   (segments_optional "<Idle|WPos:1.000,2.000,3.000|Ov:100,100,100>".toList).2.2.2.1
     (fun hi => absurd ((containsStr_iff_occurs _ _).mpr hi) (by decide))
     (fun hi => absurd ((containsStr_iff_occurs _ _).mpr hi) (by decide)),
   (segments_optional "<Idle|WPos:1.000,2.000,3.000|Ov:100,100,100>".toList).2.2.2.2
     (fun hi => absurd ((containsStr_iff_occurs _ _).mpr hi) (by decide))⟩

/-- C27, as the code has it. For every response text that holds no "Ov:", the feed,
rapid and spindle overrides of the parsed status are 100, the value of their default
member initialisers. -/
theorem overrides_default (response : Str) (h : ¬ "Ov:".toList <:+: response) :
    (GrblController.parseStatus response).feedOverride = 100 ∧
    (GrblController.parseStatus response).rapidOverride = 100 ∧
    (GrblController.parseStatus response).spindleOverride = 100 := by
  rw [parseStatus_blocks]
  simp [pnBlock_feedOverride, pnBlock_rapidOverride, pnBlock_spindleOverride,
    ovBlock_absent _ _ h, fBlock_feedOverride, fBlock_rapidOverride, fBlock_spindleOverride,
    fsBlock_feedOverride, fsBlock_rapidOverride, fsBlock_spindleOverride,
    bfBlock_feedOverride, bfBlock_rapidOverride, bfBlock_spindleOverride,
    wposBlock_feedOverride, wposBlock_rapidOverride, wposBlock_spindleOverride,
    mposBlock_feedOverride, mposBlock_rapidOverride, mposBlock_spindleOverride,
    stateBlock_feedOverride, stateBlock_rapidOverride, stateBlock_spindleOverride]

/-- C27 on the frame `<Idle|MPos:0.000,0.000,0.000|FS:0,0>`: the three overrides are
100. -/
theorem overrides_default_witness :
    (GrblController.parseStatus "<Idle|MPos:0.000,0.000,0.000|FS:0,0>".toList).feedOverride
      = 100 ∧
    (GrblController.parseStatus "<Idle|MPos:0.000,0.000,0.000|FS:0,0>".toList).rapidOverride
      = 100 ∧
    (GrblController.parseStatus "<Idle|MPos:0.000,0.000,0.000|FS:0,0>".toList).spindleOverride
      = 100 :=
  overrides_default "<Idle|MPos:0.000,0.000,0.000|FS:0,0>".toList
    (fun hi => absurd ((containsStr_iff_occurs _ _).mpr hi) (by decide))

/-- C27 as stated fails: the frame `<Idle|MPos:0.000,0.000,0.000|FS:0,0>` begins with
`<` and holds no "Ov:", and none of the three overrides of its parse is zero. -/
theorem overrides_counterexample :
    containsStr "Ov:".toList "<Idle|MPos:0.000,0.000,0.000|FS:0,0>".toList = false ∧
    (GrblController.parseStatus "<Idle|MPos:0.000,0.000,0.000|FS:0,0>".toList).feedOverride
      ≠ 0 ∧
    (GrblController.parseStatus "<Idle|MPos:0.000,0.000,0.000|FS:0,0>".toList).rapidOverride
      ≠ 0 ∧
    (GrblController.parseStatus "<Idle|MPos:0.000,0.000,0.000|FS:0,0>".toList).spindleOverride
      ≠ 0 := by
  decide!

/-- C30. For every response text that holds no `|`, the state of the parsed status is
empty: it is not "Unknown", and it is not the text that follows `<` when there is
such a text. -/
theorem state_without_bar (response : Str) (h : '|' ∉ response) :
    (GrblController.parseStatus response).state = [] ∧
    (GrblController.parseStatus response).state ≠ "Unknown".toList ∧
    ∀ t, response = '<' :: t → t ≠ [] → (GrblController.parseStatus response).state ≠ t := by
  have hs : (GrblController.parseStatus response).state = [] := by
    rw [parseStatus_blocks]
    simp [pnBlock_state, ovBlock_state, fBlock_state, fsBlock_state, bfBlock_state,
      wposBlock_state, mposBlock_state, stateBlock_absent _ _ h]
  rw [hs]
  refine ⟨rfl, by decide, ?_⟩
  intro t _ ht e
  exact ht e.symm

/-- C30 on the frame `<Idle>`: the state is empty, neither "Idle>" nor "Unknown". -/
theorem state_without_bar_witness :
    (GrblController.parseStatus "<Idle>".toList).state = [] ∧
    (GrblController.parseStatus "<Idle>".toList).state ≠ "Unknown".toList ∧
    (GrblController.parseStatus "<Idle>".toList).state ≠ "Idle>".toList :=
  ⟨(state_without_bar "<Idle>".toList (by decide)).1,
   (state_without_bar "<Idle>".toList (by decide)).2.1,
   (state_without_bar "<Idle>".toList (by decide)).2.2 "Idle>".toList rfl (by decide)⟩

/-! ## Facts about a session that is connected already -/

/-- C29. On a session that is connected (its lock free), `connect` returns true for
every port argument and every baud rate, and leaves the session and the host exactly
as they were: no call reaches a device, no event is emitted, and the transport, the
port, the version and the connected flag are unchanged. -/
theorem connect_when_connected (s : GrblController) (h : Host) (port : Str) (baudRate : Int)
    (hc : s.m_connected = true) (hl : s.m_mutex = false) :
    (s.connect h port baudRate).1 = true ∧ (s.connect h port baudRate).2.1 = s ∧
    (s.connect h port baudRate).2.2.log = h.log ∧
    (s.connect h port baudRate).2.2.dev = h.dev := by
  obtain ⟨ser, prt, ver, conn, mtx, hdl, evs⟩ := s
  simp only at hc hl
  subst hc hl
  exact ⟨rfl, rfl, rfl, rfl⟩

/-- C29 on a session bound to "/dev/ttyUSB0", for no port, the bound port and another
port. -/
theorem connect_when_connected_witness :
    ((sessionOn (devicePort [] 1)).connect fourDevices [] 115200).1 = true ∧
    ((sessionOn (devicePort [] 1)).connect fourDevices [] 115200).2.1
      = sessionOn (devicePort [] 1) ∧
    ((sessionOn (devicePort [] 1)).connect fourDevices "/dev/ttyUSB0".toList 9600).2.1
      = sessionOn (devicePort [] 1) ∧
    ((sessionOn (devicePort [] 1)).connect fourDevices "/dev/ttyUSB2".toList 115200).2.2.log
      = fourDevices.log :=
  ⟨(connect_when_connected (sessionOn (devicePort [] 1)) fourDevices [] 115200 rfl rfl).1,
   (connect_when_connected (sessionOn (devicePort [] 1)) fourDevices [] 115200 rfl rfl).2.1,
   (connect_when_connected (sessionOn (devicePort [] 1)) fourDevices "/dev/ttyUSB0".toList
      9600 rfl rfl).2.1,
   (connect_when_connected (sessionOn (devicePort [] 1)) fourDevices "/dev/ttyUSB2".toList
      115200 rfl rfl).2.2.1⟩

/-! ## Facts about the real-time commands -/

/-- What `writeByte` does on an open port. -/
theorem writeByte_open (p : SerialPort) (byte : Char) (hfd : 0 ≤ p.m_fd) :
    p.writeByte byte =
      (p.wr.headD 1 == 1,
       { p with wr := p.wr.tail, log := p.log ++ [PortOp.writeByte byte (p.wr.headD 1)] }) := by
  unfold SerialPort.writeByte
  rw [if_neg (Int.not_lt.mpr hfd)]

theorem feedHold_connected (s : GrblController) (p : SerialPort)
    (hc : s.m_connected = true) (hs : s.m_serial = some p) :
    s.feedHold =
      ((p.writeByte '!').1,
       { s with
          m_serial := some (p.writeByte '!').2, m_mutex := false,
          events := s.events ++
            (if (p.writeByte '!').1 = true then
              [{ type := "grbl_feed_hold".toList, data := [], lockHeld := false,
                 observer := s.m_eventHandler }]
             else []) }) := by
  unfold GrblController.feedHold
  rw [sendRealTimeCommand_eq s '!' p hc hs]
  cases (p.writeByte '!').1 <;> simp [GrblController.emitEvent]

theorem cycleStart_connected (s : GrblController) (p : SerialPort)
    (hc : s.m_connected = true) (hs : s.m_serial = some p) :
    s.cycleStart =
      ((p.writeByte '~').1,
       { s with
          m_serial := some (p.writeByte '~').2, m_mutex := false,
          events := s.events ++
            (if (p.writeByte '~').1 = true then
              [{ type := "grbl_cycle_start".toList, data := [], lockHeld := false,
                 observer := s.m_eventHandler }]
             else []) }) := by
  unfold GrblController.cycleStart
  rw [sendRealTimeCommand_eq s '~' p hc hs]
  cases (p.writeByte '~').1 <;> simp [GrblController.emitEvent]

/-- C21. On a connected session whose transport `p` is open, `feedHold`, `cycleStart`
and `cancelJog` each make exactly one transport operation, the write of the single
byte 0x21, 0x7E and 0x85 respectively (no newline follows, nothing is read: the
answers of the device are all still to come), and return true exactly when that
`::write` returned 1; `feedHold` emits "grbl_feed_hold" and `cycleStart`
"grbl_cycle_start" exactly when the result is true, and `cancelJog` emits nothing. -/
theorem realtime_commands (s : GrblController) (p : SerialPort)
    (hc : s.m_connected = true) (hs : s.m_serial = some p) (hfd : 0 ≤ p.m_fd) :
    (∃ ret p1, (s.feedHold).2.m_serial = some p1 ∧
      p1.log = p.log ++ [PortOp.writeByte (Char.ofNat 0x21) ret] ∧ p1.rx = p.rx ∧
      ((s.feedHold).1 = true ↔ ret = 1) ∧
      (s.feedHold).2.events = s.events ++
        (if (s.feedHold).1 = true then
          [{ type := "grbl_feed_hold".toList, data := [], lockHeld := false,
             observer := s.m_eventHandler }]
         else [])) ∧
    (∃ ret p1, (s.cycleStart).2.m_serial = some p1 ∧
      p1.log = p.log ++ [PortOp.writeByte (Char.ofNat 0x7E) ret] ∧ p1.rx = p.rx ∧
      ((s.cycleStart).1 = true ↔ ret = 1) ∧
      (s.cycleStart).2.events = s.events ++
        (if (s.cycleStart).1 = true then
          [{ type := "grbl_cycle_start".toList, data := [], lockHeld := false,
             observer := s.m_eventHandler }]
         else [])) ∧
    (∃ ret p1, (s.cancelJog).2.m_serial = some p1 ∧
      p1.log = p.log ++ [PortOp.writeByte (Char.ofNat 0x85) ret] ∧ p1.rx = p.rx ∧
      ((s.cancelJog).1 = true ↔ ret = 1) ∧
      (s.cancelJog).2.events = s.events) := by
  refine ⟨?_, ?_, ?_⟩
  · rw [feedHold_connected s p hc hs, writeByte_open p '!' hfd]
    exact ⟨p.wr.headD 1, _, rfl, rfl, rfl, by simp, rfl⟩
  · rw [cycleStart_connected s p hc hs, writeByte_open p '~' hfd]
    exact ⟨p.wr.headD 1, _, rfl, rfl, rfl, by simp, rfl⟩
  · unfold GrblController.cancelJog
    rw [sendRealTimeCommand_eq s _ p hc hs, writeByte_open p _ hfd]
    exact ⟨p.wr.headD 1, _, rfl, rfl, rfl, by simp, rfl⟩

/-- C21 on a connected session whose device accepts the byte, and `feedHold` on one
whose device refuses it: the result is false and no event is emitted. -/
theorem realtime_commands_witness :
    ((∃ ret p1, ((sessionOn (devicePort [] 1)).feedHold).2.m_serial = some p1 ∧
      p1.log = (devicePort [] 1).log ++ [PortOp.writeByte (Char.ofNat 0x21) ret] ∧
      p1.rx = (devicePort [] 1).rx ∧
      (((sessionOn (devicePort [] 1)).feedHold).1 = true ↔ ret = 1) ∧
      ((sessionOn (devicePort [] 1)).feedHold).2.events = (sessionOn (devicePort [] 1)).events ++
        (if ((sessionOn (devicePort [] 1)).feedHold).1 = true then
          [{ type := "grbl_feed_hold".toList, data := [], lockHeld := false,
             observer := (sessionOn (devicePort [] 1)).m_eventHandler }]
         else []))) ∧
    ((sessionOn (devicePort [] 1)).feedHold).1 = true ∧
    ((sessionOn refusingPort).feedHold).1 = false ∧
    ((sessionOn refusingPort).feedHold).2.events = [] :=
  ⟨(realtime_commands (sessionOn (devicePort [] 1)) (devicePort [] 1) rfl rfl (by decide)).1,
   by decide, by decide, by decide⟩

/-! ## Facts about writing a line -/

/-- C22, as the code has it. For every non-empty text written through an open
transport, `write` makes one `::write` call whose bytes are the text itself when it
ends with a newline and the text followed by one newline otherwise, so the bytes end
with a newline; the result is true exactly when the call returned the number of those
bytes. -/
theorem write_bytes (p : SerialPort) (data : Str) (hfd : 0 ≤ p.m_fd) (hne : data ≠ []) :
    ∃ sent ret rest, (p.write data).2.log = p.log ++ PortOp.write sent ret :: rest ∧
      (∀ op ∈ rest, op = PortOp.drain) ∧
      sent = (if data.getLast? = some '\n' then data else data ++ ['\n']) ∧
      sent.getLast? = some '\n' ∧
      ((p.write data).1 = true ↔ ret = (sent.length : Int)) := by
  have hfd2 : ¬ p.m_fd < 0 := Int.not_lt.mpr hfd
  have hemp : data.isEmpty = false := by
    cases data with
    | nil => exact absurd rfl hne
    | cons a l => rfl
  by_cases hlast : data.getLast? = some '\n'
  · refine ⟨data, p.wr.headD (data.length : Int),
      if p.wr.headD (data.length : Int) < 0 then [] else [PortOp.drain], ?_, ?_, ?_, hlast, ?_⟩
    · unfold SerialPort.write
      simp only [hfd2, if_false, hemp, hlast, Bool.not_false, bne_self_eq_false, Bool.and_false,
        Bool.false_eq_true]
      split <;> simp
    · intro op hop
      split at hop
      · cases hop
      · simpa using hop
    · rw [if_pos hlast]
    · unfold SerialPort.write
      simp only [hfd2, if_false, hemp, hlast, Bool.not_false, bne_self_eq_false, Bool.and_false,
        Bool.false_eq_true]
      split
      · rename_i hneg
        constructor
        · intro hf
          cases hf
        · intro he
          rw [he] at hneg
          exact absurd hneg (Int.not_lt.mpr (Int.natCast_nonneg _))
      · simp
  · have hb : (data.getLast? != some '\n') = true := by
      simpa [bne_iff_ne] using hlast
    refine ⟨data ++ ['\n'], p.wr.headD ((data ++ ['\n']).length : Int),
      if p.wr.headD ((data ++ ['\n']).length : Int) < 0 then [] else [PortOp.drain],
      ?_, ?_, ?_, by simp, ?_⟩
    · unfold SerialPort.write
      simp only [hfd2, if_false, hemp, hb, Bool.not_false, Bool.and_self, if_true]
      split <;> simp
    · intro op hop
      split at hop
      · cases hop
      · simpa using hop
    · rw [if_neg hlast]
    · unfold SerialPort.write
      simp only [hfd2, if_false, hemp, hb, Bool.not_false, Bool.and_self, if_true]
      split
      · rename_i hneg
        constructor
        · intro hf
          cases hf
        · intro he
          rw [he] at hneg
          exact absurd hneg (Int.not_lt.mpr (Int.natCast_nonneg _))
      · simp

/-- C22 on the texts "G0 X1" and "G0 X1\n": the bytes sent are "G0 X1\n" both times. -/
theorem write_bytes_witness :
    ((devicePort [] 1).write "G0 X1".toList).2.log
      = [PortOp.write "G0 X1\n".toList 6, PortOp.drain] ∧
    ((devicePort [] 1).write "G0 X1\n".toList).2.log
      = [PortOp.write "G0 X1\n".toList 6, PortOp.drain] ∧
    (∃ sent ret rest, ((devicePort [] 1).write "G0 X1".toList).2.log
        = (devicePort [] 1).log ++ PortOp.write sent ret :: rest ∧
      (∀ op ∈ rest, op = PortOp.drain) ∧
      sent = (if "G0 X1".toList.getLast? = some '\n' then "G0 X1".toList
              else "G0 X1".toList ++ ['\n']) ∧
      sent.getLast? = some '\n' ∧
      (((devicePort [] 1).write "G0 X1".toList).1 = true ↔ ret = (sent.length : Int))) :=
  ⟨by decide, by decide, write_bytes (devicePort [] 1) "G0 X1".toList (by decide) (by decide)⟩

/-- C22 as stated fails for the empty text: on an open transport `write` passes no
byte at all to `::write`, so the bytes sent do not end with a newline, and the result
is true. -/
theorem write_empty_counterexample :
    0 ≤ (devicePort [] 1).m_fd ∧
    ((devicePort [] 1).write []).2.log = [PortOp.write [] 0, PortOp.drain] ∧
    ([] : Str).getLast? ≠ some '\n' ∧
    ((devicePort [] 1).write []).1 = true := by
  decide

/-! ## Facts about the order of texts and the port list -/

theorem char_toNat_inj (x y : Char) (h : x.toNat = y.toNat) : x = y := by
  rw [← Char.ofNat_toNat x, ← Char.ofNat_toNat y, h]

theorem strLess_cons (x y : Char) (as bs : Str) :
    strLess (x :: as) (y :: bs) =
      if x.toNat < y.toNat then true
      else if y.toNat < x.toNat then false
      else strLess as bs := by
  rw [strLess]

/-- The comparison of the code is the lexicographic order. -/
theorem strLess_iff (a b : Str) : strLess a b = true ↔ LexLt a b := by
  induction a generalizing b with
  | nil =>
    cases b with
    | nil =>
      simp only [strLess, Bool.false_eq_true, false_iff]
      rintro (⟨t, ht, e⟩ | ⟨c, x, y, ra, rb, e, _⟩)
      · exact ht (by simpa using e.symm)
      · simp at e
    | cons y bs =>
      simp only [strLess, true_iff]
      exact Or.inl ⟨y :: bs, by simp, rfl⟩
  | cons x as ih =>
    cases b with
    | nil =>
      simp only [strLess, Bool.false_eq_true, false_iff]
      rintro (⟨t, _, e⟩ | ⟨c, x2, y, ra, rb, _, e, _⟩)
      · simp at e
      · simp at e
    | cons y bs =>
      rw [strLess_cons]
      by_cases h1 : x.toNat < y.toNat
      · rw [if_pos h1]
        simp only [true_iff]
        exact Or.inr ⟨[], x, y, as, bs, rfl, rfl, h1⟩
      · rw [if_neg h1]
        by_cases h2 : y.toNat < x.toNat
        · rw [if_pos h2]
          simp only [Bool.false_eq_true, false_iff]
          rintro (⟨t, _, e⟩ | ⟨c, x2, y2, ra, rb, ea, eb, hlt⟩)
          · have := (List.cons.inj e).1
            rw [this] at h2
            exact Nat.lt_irrefl _ h2
          · cases c with
            | nil =>
              have e1 := (List.cons.inj ea).1
              have e2 := (List.cons.inj eb).1
              rw [e1, e2] at h1
              exact h1 hlt
            | cons d c =>
              have e1 := (List.cons.inj ea).1
              have e2 := (List.cons.inj eb).1
              rw [e1, e2] at h2
              exact Nat.lt_irrefl _ h2
        · rw [if_neg h2]
          have hxy : x = y := char_toNat_inj x y (by omega)
          subst hxy
          rw [ih bs]
          constructor
          · rintro (⟨t, ht, e⟩ | ⟨c, x2, y2, ra, rb, ea, eb, hlt⟩)
            · exact Or.inl ⟨t, ht, by rw [e]; rfl⟩
            · exact Or.inr ⟨x :: c, x2, y2, ra, rb, by rw [ea]; rfl, by rw [eb]; rfl, hlt⟩
          · rintro (⟨t, ht, e⟩ | ⟨c, x2, y2, ra, rb, ea, eb, hlt⟩)
            · exact Or.inl ⟨t, ht, (List.cons.inj e).2⟩
            · cases c with
              | nil =>
                have e1 := (List.cons.inj ea).1
                have e2 := (List.cons.inj eb).1
                rw [← e1, ← e2] at hlt
                exact absurd hlt (Nat.lt_irrefl _)
              | cons d c =>
                exact Or.inr ⟨c, x2, y2, ra, rb, (List.cons.inj ea).2, (List.cons.inj eb).2, hlt⟩

theorem strLe_total (a b : Str) : strLe a b ∨ strLe b a := by
  unfold strLe
  induction a generalizing b with
  | nil =>
    cases b with
    | nil => exact Or.inl rfl
    | cons y bs => exact Or.inl rfl
  | cons x as ih =>
    cases b with
    | nil => exact Or.inr rfl
    | cons y bs =>
      rw [strLess_cons, strLess_cons]
      by_cases h1 : x.toNat < y.toNat
      · left
        rw [if_neg (by omega), if_pos h1]
      · by_cases h2 : y.toNat < x.toNat
        · right
          rw [if_neg h1, if_pos h2]
        · rw [if_neg h2, if_neg h1, if_neg h1, if_neg h2]
          exact ih bs

theorem strLe_trans (a b c : Str) (h1 : strLe a b) (h2 : strLe b c) : strLe a c := by
  unfold strLe at h1 h2 ⊢
  induction a generalizing b c with
  | nil =>
    cases c with
    | nil => rfl
    | cons z cs => rfl
  | cons x as ih =>
    cases b with
    | nil => simp [strLess] at h1
    | cons y bs =>
      cases c with
      | nil => simp [strLess] at h2
      | cons z cs =>
        rw [strLess_cons] at h1 h2 ⊢
        by_cases hyx : y.toNat < x.toNat
        · rw [if_pos hyx] at h1
          cases h1
        · rw [if_neg hyx] at h1
          by_cases hzy : z.toNat < y.toNat
          · rw [if_pos hzy] at h2
            cases h2
          · rw [if_neg hzy] at h2
            by_cases hxy : x.toNat < y.toNat
            · rw [if_neg (by omega), if_pos (by omega)]
            · rw [if_neg hxy] at h1
              by_cases hyz : y.toNat < z.toNat
              · rw [if_neg (by omega), if_pos (by omega)]
              · rw [if_neg hyz] at h2
                rw [if_neg (by omega), if_neg (by omega)]
                exact ih bs cs h1 h2

theorem strLe_antisymm (a b : Str) (h1 : strLe a b) (h2 : strLe b a) : a = b := by
  unfold strLe at h1 h2
  induction a generalizing b with
  | nil =>
    cases b with
    | nil => rfl
    | cons y bs => simp [strLess] at h2
  | cons x as ih =>
    cases b with
    | nil => simp [strLess] at h1
    | cons y bs =>
      rw [strLess_cons] at h1 h2
      by_cases hyx : y.toNat < x.toNat
      · rw [if_pos hyx] at h1
        cases h1
      · rw [if_neg hyx] at h1 h2
        by_cases hxy : x.toNat < y.toNat
        · rw [if_pos hxy] at h2
          cases h2
        · rw [if_neg hxy] at h1 h2
          rw [char_toNat_inj x y (by omega), ih bs h1 h2]

theorem strLe_iff (a b : Str) : strLe a b ↔ ¬ LexLt b a := by
  unfold strLe
  rw [← strLess_iff]
  cases strLess b a <;> simp

theorem findStr_zero_iff (pat s : Str) : findStr pat s = some 0 ↔ pat <+: s := by
  cases s with
  | nil =>
    cases pat with
    | nil => simp [findStr]
    | cons a l => simp [findStr]
  | cons c cs =>
    rw [findStr_cons]
    by_cases h : pat <+: c :: cs
    · simp [h]
    · simp only [h, if_false, iff_false]
      cases findStr pat cs <;> simp

theorem serialName_iff (name : Str) :
    (findStr "ttyUSB".toList name == some 0 || findStr "ttyACM".toList name == some 0) = true
      ↔ IsSerialName name := by
  unfold IsSerialName
  rw [Bool.or_eq_true, beq_iff_eq, beq_iff_eq, findStr_zero_iff, findStr_zero_iff]

/-- C24. When the directory `/dev` yields the names `names`, `listPorts` returns
exactly the paths "/dev/" followed by a name, for the names that start with "ttyUSB"
or "ttyACM", in ascending lexicographic order of their bytes; a directory that yields
the same names in another order gives the same list. -/
theorem listPorts_sorted_paths (h : Host) (names : List Str) (hd : h.devDir = some names) :
    (∀ path, path ∈ SerialPort.listPorts h ↔
      ∃ name ∈ names, IsSerialName name ∧ path = "/dev/".toList ++ name) ∧
    (SerialPort.listPorts h).Sorted (fun a b => ¬ LexLt b a) ∧
    (∀ (h2 : Host) (names2 : List Str), h2.devDir = some names2 → names2.Perm names →
      SerialPort.listPorts h2 = SerialPort.listPorts h) := by
  haveI : IsTotal Str strLe := ⟨strLe_total⟩
  haveI : IsTrans Str strLe := ⟨strLe_trans⟩
  haveI : IsAntisymm Str strLe := ⟨strLe_antisymm⟩
  have e : ∀ (h1 : Host) (ns : List Str), h1.devDir = some ns →
      SerialPort.listPorts h1 = ((ns.filter (fun name =>
        findStr "ttyUSB".toList name == some 0 || findStr "ttyACM".toList name == some 0)).map
          (fun name => "/dev/".toList ++ name)).insertionSort strLe := by
    intro h1 ns hns
    unfold SerialPort.listPorts
    rw [hns]
  refine ⟨?_, ?_, ?_⟩
  · intro path
    rw [e h names hd, (List.perm_insertionSort strLe _).mem_iff, List.mem_map]
    constructor
    · rintro ⟨name, hm, rfl⟩
      rw [List.mem_filter] at hm
      exact ⟨name, hm.1, (serialName_iff name).mp hm.2, rfl⟩
    · rintro ⟨name, hm, hs, rfl⟩
      exact ⟨name, List.mem_filter.mpr ⟨hm, (serialName_iff name).mpr hs⟩, rfl⟩
  · rw [e h names hd]
    exact (List.sorted_insertionSort strLe _).imp (fun hab => (strLe_iff _ _).mp hab)
  · intro h2 names2 hd2 hp
    rw [e h names hd, e h2 names2 hd2]
    apply List.eq_of_perm_of_sorted (r := strLe) _ (List.sorted_insertionSort strLe _)
      (List.sorted_insertionSort strLe _)
    exact (List.perm_insertionSort strLe _).trans
      (((hp.filter _).map _).trans (List.perm_insertionSort strLe _).symm)

/-- C24 on a directory that yields "ttyUSB2", ".", "ttyUSB0", "ttyACM0", "tty0" and
"ttyUSB1": the four serial names come out as paths, sorted, and the same list comes
out when the directory yields the names in reverse. -/
theorem listPorts_sorted_paths_witness :
    SerialPort.listPorts fourDevices = ["/dev/ttyACM0".toList, "/dev/ttyUSB0".toList,
      "/dev/ttyUSB1".toList, "/dev/ttyUSB2".toList] ∧
    (SerialPort.listPorts fourDevices).Sorted (fun a b => ¬ LexLt b a) ∧
    SerialPort.listPorts { fourDevices with devDir := some ["ttyUSB1".toList, "tty0".toList,
        "ttyACM0".toList, "ttyUSB0".toList, ".".toList, "ttyUSB2".toList] }
      = SerialPort.listPorts fourDevices :=
  ⟨by decide,
   (listPorts_sorted_paths fourDevices _ rfl).2.1,
   (listPorts_sorted_paths fourDevices _ rfl).2.2 _ _ rfl (by decide)⟩

/-! ## Facts about reading a line -/

theorem duration_cons (c : Char) (dt : Nat) (bs : List (Char × Nat)) :
    duration ((c, dt) :: bs) = dt + duration bs := by
  simp [duration]

theorem duration_take_le (bs : List (Char × Nat)) (i : Nat) :
    duration (bs.take i) ≤ duration bs := by
  induction bs generalizing i with
  | nil => simp [duration]
  | cons b bs ih =>
    obtain ⟨c, dt⟩ := b
    cases i with
    | zero => simp [duration]
    | succ i =>
      rw [List.take_succ_cons, duration_cons, duration_cons]
      have := ih i
      omega

/-- Bytes that are not newlines and are each read before the deadline are gathered
into the line. -/
theorem readLineLoop_bytes (timeoutMs : Int) (bs : List (Char × Nat)) (tail : List RxEvent)
    (line : Str) (elapsed : Nat) (hnl : ∀ b ∈ bs, b.1 ≠ '\n')
    (ht : ∀ i, i < bs.length → ((elapsed + duration (bs.take i) : Nat) : Int) < timeoutMs) :
    readLineLoop timeoutMs (arriving bs ++ tail) line elapsed
      = readLineLoop timeoutMs tail (line ++ bytesOf bs) (elapsed + duration bs) := by
  induction bs generalizing line elapsed with
  | nil => simp [arriving, bytesOf, duration]
  | cons b bs ih =>
    obtain ⟨c, dt⟩ := b
    have h0 := ht 0 (by simp)
    simp only [List.take_zero, duration, List.map_nil, List.sum_nil, Nat.add_zero] at h0
    have hc : c ≠ '\n' := hnl (c, dt) (List.mem_cons_self _ _)
    have e : arriving ((c, dt) :: bs) ++ tail = RxEvent.byte c dt :: (arriving bs ++ tail) := rfl
    rw [e, readLineLoop, if_neg (by omega)]
    simp only [hc, if_false]
    rw [ih (line ++ [c]) (elapsed + dt) (fun b hb => hnl b (List.mem_cons_of_mem _ hb))
      (by
        intro i hi
        have := ht (i + 1) (by simpa using hi)
        rw [List.take_succ_cons, duration_cons] at this
        have e2 : elapsed + dt + duration (List.take i bs)
            = elapsed + (dt + duration (List.take i bs)) := by omega
        rw [e2]
        exact this)]
    rw [duration_cons]
    simp only [bytesOf, List.map_cons, List.append_assoc, List.singleton_append]
    rw [Nat.add_assoc]

theorem stripCR_spec (line : Str) :
    (line.getLast? = some '\r' → line = stripCR line ++ ['\r']) ∧
    (line.getLast? ≠ some '\r' → stripCR line = line) := by
  unfold stripCR
  constructor
  · intro h
    rw [if_pos h]
    exact (List.dropLast_append_getLast? '\r' (by rw [h]; rfl)).symm
  · intro h
    rw [if_neg h]

theorem not_mem_bytesOf (bs : List (Char × Nat)) (hnl : ∀ b ∈ bs, b.1 ≠ '\n') :
    '\n' ∉ bytesOf bs := by
  intro hm
  unfold bytesOf at hm
  obtain ⟨b, hb, e⟩ := List.mem_map.mp hm
  exact hnl b hb e

/-- C23. On an open transport, for every sequence of bytes none of which is a newline:
when a newline follows them and is read before the deadline, `readLine` returns these
bytes with one trailing carriage return removed (when there is one), the answers of
the device after the newline are all still to come, and the result holds no newline;
when the deadline elapses after these bytes (each was read before it), or the device
falls silent after them, `readLine` returns exactly these bytes, and what the device
sends later is still to come. The function is total: nothing is raised. -/
theorem readLine_line (p : SerialPort) (timeoutMs : Int) (bs : List (Char × Nat))
    (rest : List RxEvent) (hfd : 0 ≤ p.m_fd) (hnl : ∀ b ∈ bs, b.1 ≠ '\n') :
    (∀ dt, p.rx = arriving bs ++ RxEvent.byte '\n' dt :: rest →
      (duration bs : Int) < timeoutMs →
      (bytesOf bs).getLast? = some '\r' →
      bytesOf bs = (p.readLine timeoutMs).1 ++ ['\r'] ∧ (p.readLine timeoutMs).2.rx = rest ∧
      '\n' ∉ (p.readLine timeoutMs).1) ∧
    (∀ dt, p.rx = arriving bs ++ RxEvent.byte '\n' dt :: rest →
      (duration bs : Int) < timeoutMs →
      (bytesOf bs).getLast? ≠ some '\r' →
      (p.readLine timeoutMs).1 = bytesOf bs ∧ (p.readLine timeoutMs).2.rx = rest ∧
      '\n' ∉ (p.readLine timeoutMs).1) ∧
    (p.rx = arriving bs ++ rest →
      (∀ i, i < bs.length → (duration (bs.take i) : Int) < timeoutMs) →
      timeoutMs ≤ (duration bs : Int) →
      (p.readLine timeoutMs).1 = bytesOf bs ∧ (p.readLine timeoutMs).2.rx = rest) ∧
    (p.rx = arriving bs → (duration bs : Int) < timeoutMs →
      (p.readLine timeoutMs).1 = bytesOf bs ∧ (p.readLine timeoutMs).2.rx = [] ∧
      ((p.readLine timeoutMs).2.clock : Int) = p.clock + timeoutMs) := by
  have hfd2 : ¬ p.m_fd < 0 := Int.not_lt.mpr hfd
  have hpre : (duration bs : Int) < timeoutMs →
      ∀ i, i < bs.length → ((0 + duration (bs.take i) : Nat) : Int) < timeoutMs := by
    intro hd i _
    have := duration_take_le bs i
    omega
  have hline : ∀ dt, p.rx = arriving bs ++ RxEvent.byte '\n' dt :: rest →
      (duration bs : Int) < timeoutMs →
      (p.readLine timeoutMs).1 = stripCR (bytesOf bs) ∧ (p.readLine timeoutMs).2.rx = rest := by
    intro dt hrx hd
    unfold SerialPort.readLine
    rw [if_neg hfd2, hrx, readLineLoop_bytes timeoutMs bs _ [] 0 hnl (hpre hd)]
    rw [readLineLoop, if_neg (by omega)]
    simp
  have hno := not_mem_bytesOf bs hnl
  refine ⟨?_, ?_, ?_, ?_⟩
  · intro dt hrx hd hcr
    obtain ⟨e1, e2⟩ := hline dt hrx hd
    rw [e1]
    exact ⟨(stripCR_spec _).1 hcr, e2, fun hm => hno (stripCR_subset _ _ hm)⟩
  · intro dt hrx hd hcr
    obtain ⟨e1, e2⟩ := hline dt hrx hd
    rw [e1, (stripCR_spec _).2 hcr]
    exact ⟨rfl, e2, hno⟩
  · intro hrx hi hd
    unfold SerialPort.readLine
    rw [if_neg hfd2, hrx, readLineLoop_bytes timeoutMs bs _ [] 0 hnl
      (by intro i hlt; simpa using hi i hlt)]
    cases rest with
    | nil =>
      rw [readLineLoop, if_pos (by omega)]
      simp
    | cons ev rest =>
      cases ev with
      | byte c dt =>
        rw [readLineLoop, if_pos (by omega)]
        simp
      | quiet dt =>
        rw [readLineLoop, if_pos (by omega)]
        simp
  · intro hrx hd
    unfold SerialPort.readLine
    rw [if_neg hfd2, hrx]
    have := readLineLoop_bytes timeoutMs bs [] [] 0 hnl (hpre hd)
    rw [List.append_nil] at this
    rw [this, readLineLoop, if_neg (by omega)]
    simp only [List.nil_append, Nat.zero_add, true_and]
    have : (0 : Int) ≤ timeoutMs := by omega
    rw [Nat.cast_add, Int.toNat_of_nonneg this]

/-! ## Facts about the digits of a number -/

theorem foldl_digits (ds : Str) (a : Nat) :
    List.foldl (fun acc d => 10 * acc + (d.toNat - 48)) a ds
      = a * 10 ^ ds.length + digitsVal ds := by
  unfold digitsVal
  induction ds generalizing a with
  | nil => simp
  | cons c cs ih =>
    rw [List.foldl_cons, ih (10 * a + (c.toNat - 48)), List.foldl_cons, ih (10 * 0 + (c.toNat - 48))]
    simp only [List.length_cons, pow_succ]
    ring

theorem digitsVal_append (a b : Str) :
    digitsVal (a ++ b) = digitsVal a * 10 ^ b.length + digitsVal b := by
  have h := foldl_digits b (digitsVal a)
  unfold digitsVal at h ⊢
  rw [List.foldl_append, h]

theorem digitsVal_cons (c : Char) (ds : Str) :
    digitsVal (c :: ds) = (c.toNat - 48) * 10 ^ ds.length + digitsVal ds := by
  have h := foldl_digits ds (c.toNat - 48)
  unfold digitsVal at h ⊢
  rw [List.foldl_cons]
  simpa using h

theorem digitChar_val : ∀ k, k < 10 → (Nat.digitChar k).toNat - 48 = k := by decide

theorem digitsVal_toDigitsCore (fuel n : Nat) (ds : Str) (hf : n < fuel) :
    digitsVal (Nat.toDigitsCore 10 fuel n ds) = n * 10 ^ ds.length + digitsVal ds := by
  induction fuel generalizing n ds with
  | zero => omega
  | succ f ih =>
    rw [Nat.toDigitsCore]
    by_cases h0 : n / 10 = 0
    · rw [if_pos h0, digitsVal_cons, digitChar_val _ (Nat.mod_lt _ (by decide))]
      have : n % 10 = n := Nat.mod_eq_of_lt (by omega)
      rw [this]
    · rw [if_neg h0, ih (n / 10) _ (by omega), digitsVal_cons,
        digitChar_val _ (Nat.mod_lt _ (by decide))]
      simp only [List.length_cons, pow_succ]
      have hn : n = 10 * (n / 10) + n % 10 := (Nat.div_add_mod n 10).symm
      generalize n / 10 = q at hn ⊢
      generalize n % 10 = r at hn ⊢
      subst hn
      ring

theorem digitsVal_toDigits (n : Nat) : digitsVal (Nat.toDigits 10 n) = n := by
  unfold Nat.toDigits
  rw [digitsVal_toDigitsCore _ _ _ (Nat.lt_succ_self n)]
  simp [digitsVal]

theorem digitsVal_pad3 (k : Nat) (hk : k < 1000) : digitsVal (pad3 k) = k := by
  unfold pad3
  rw [digitsVal_cons, digitsVal_cons, digitsVal_cons,
    digitChar_val _ (Nat.mod_lt _ (by decide)), digitChar_val _ (Nat.mod_lt _ (by decide)),
    digitChar_val _ (Nat.mod_lt _ (by decide))]
  simp only [List.length_cons, List.length_nil, digitsVal, List.foldl_nil]
  omega

theorem pad3_isDigit (k : Nat) : (pad3 k).all Char.isDigit = true := by
  unfold pad3
  simp [digitChar_isDigit _ (Nat.mod_lt _ (by decide : 0 < 10))]

theorem toDigits_all_isDigit (n : Nat) : (Nat.toDigits 10 n).all Char.isDigit = true :=
  List.all_eq_true.mpr (toDigits_isDigit n)

/-! ## Facts about rounding to three decimals -/

/-- The rounding of a non-negative value is within half a thousandth of it, and it does
not pass an integer bound on the thousandths of the value. -/
theorem roundMilli_spec (v : Double) (hv : 0 ≤ v) :
    |(roundMilli v : Rat) - v * 1000| ≤ 1 / 2 ∧
    ∀ M : Int, v * 1000 ≤ (M : Rat) → (roundMilli v : Rat) ≤ (M : Rat) := by
  have ha : (0 : Rat) ≤ v * 1000 := by positivity
  have hfl0 : 0 ≤ Int.floor (v * 1000) := Int.floor_nonneg.mpr ha
  have hcast : (((Int.floor (v * 1000)).toNat : Nat) : Rat) = ((Int.floor (v * 1000) : Int) : Rat) := by
    have := Int.toNat_of_nonneg hfl0
    exact_mod_cast congrArg (fun z : Int => (z : Rat)) this
  have hle : ((Int.floor (v * 1000) : Int) : Rat) ≤ v * 1000 := Int.floor_le _
  have hlt : v * 1000 < ((Int.floor (v * 1000) : Int) : Rat) + 1 := Int.lt_floor_add_one _
  unfold roundMilli
  simp only [abs_of_nonneg hv]
  split
  · rename_i hc
    rw [hcast] at hc
    have hr : 1 / 2 ≤ v * 1000 - ((Int.floor (v * 1000) : Int) : Rat) := by
      rcases hc with h | ⟨h, _⟩
      · exact le_of_lt h
      · exact le_of_eq h.symm
    constructor
    · push_cast
      rw [hcast, abs_le]
      constructor <;> linarith
    · intro M hM
      have h1 : ((Int.floor (v * 1000) : Int) : Rat) < (M : Rat) := by linarith
      have h2 : Int.floor (v * 1000) < M := by exact_mod_cast h1
      have h3 : Int.floor (v * 1000) + 1 ≤ M := h2
      push_cast
      rw [hcast]
      exact_mod_cast h3
  · rename_i hc
    rw [hcast] at hc
    have hr : v * 1000 - ((Int.floor (v * 1000) : Int) : Rat) ≤ 1 / 2 := by
      by_contra hn
      exact hc (Or.inl (lt_of_not_le hn))
    constructor
    · rw [hcast, abs_le]
      constructor <;> linarith
    · intro M hM
      rw [hcast]
      linarith

theorem roundMilli_finite (v : Double) (hv : 0 ≤ v) (hfin : v ≤ dblMax) :
    (roundMilli v : Rat) / 1000 ≤ dblMax := by
  have hM : v * 1000 ≤ (((2 ^ 1024 - 2 ^ 971) * 1000 : Int) : Rat) := by
    have : (((2 ^ 1024 - 2 ^ 971) * 1000 : Int) : Rat) = dblMax * 1000 := by
      unfold dblMax
      push_cast
      ring
    rw [this]
    linarith
  have h := (roundMilli_spec v hv).2 _ hM
  have e : (((2 ^ 1024 - 2 ^ 971) * 1000 : Int) : Rat) = dblMax * 1000 := by
    unfold dblMax
    push_cast
    ring
  rw [e] at h
  linarith

/-- A multiple of a thousandth within the range of binary64 converts without a range
error. -/
theorem strtodERange_milli (k : Nat) (hfin : (k : Rat) / 1000 ≤ dblMax) :
    strtodERange ((k : Rat) / 1000) = false := by
  have hk : (0 : Rat) ≤ (k : Rat) / 1000 := by positivity
  unfold strtodERange overflowsDouble
  rw [abs_of_nonneg hk]
  have h1 : ¬ ((2 : Rat) ^ 1024 - 2 ^ 970 ≤ (k : Rat) / 1000) := by
    intro h
    have h2 : (2 : Rat) ^ 1024 - 2 ^ 970 ≤ dblMax := le_trans h hfin
    unfold dblMax at h2
    have h3 : (2 : Rat) ^ 970 < 2 ^ 971 := by
      rw [pow_succ]
      have : (0 : Rat) < 2 ^ 970 := by positivity
      linarith
    linarith
  have h4 : ¬ ((k : Rat) / 1000 ≠ 0 ∧ (k : Rat) / 1000 * 2 ^ 1022 < 1) := by
    rintro ⟨hne, hlt⟩
    have hk1 : (1 : Rat) ≤ (k : Rat) := by
      have : k ≠ 0 := by
        intro h0
        apply hne
        rw [h0]
        simp
      exact_mod_cast Nat.one_le_iff_ne_zero.mpr this
    have h5 : (1000 : Rat) ≤ 2 ^ 1022 := by
      have h10 : (1000 : Rat) ≤ 2 ^ 10 := by norm_num
      have hp : (2 : Rat) ^ 10 ≤ 2 ^ 1022 := pow_le_pow_right₀ (by norm_num) (by norm_num)
      linarith
    have h6 : (1 : Rat) ≤ (k : Rat) / 1000 * 2 ^ 1022 := by
      rw [div_mul_eq_mul_div, le_div_iff₀ (by norm_num)]
      nlinarith
    linarith
  simp only [h1, decide_False, Bool.false_or, Bool.and_eq_false_imp, decide_eq_true_eq]
  intro hne
  simp only [Bool.and_eq_true, decide_eq_true_eq] at hne
  exact absurd hne h4

/-! ## Facts about parsing the line of a setting -/

theorem fixed3_nonneg (v : Double) (hv : 0 ≤ v) :
    fixed3 v = Nat.toDigits 10 (roundMilli v / 1000) ++ '.' :: pad3 (roundMilli v % 1000) := by
  unfold fixed3
  rw [if_neg (not_lt.mpr hv)]
  rfl

theorem pad3_ne_nil (k : Nat) : pad3 k ≠ [] := by
  unfold pad3
  simp

/-- The conversion `stod` of a non-negative finite value printed with three decimals
gives the rounded value. -/
theorem stod_fixed3 (v : Double) (hv : 0 ≤ v) (hfin : v ≤ dblMax) :
    stod (fixed3 v) = Except.ok ((roundMilli v : Rat) / 1000) := by
  have hd : (Decimal.mk false (Nat.toDigits 10 (roundMilli v / 1000))
      (pad3 (roundMilli v % 1000))).WF :=
    ⟨toDigits_ne_nil _, toDigits_all_isDigit _, pad3_isDigit _⟩
  have htext : (Decimal.mk false (Nat.toDigits 10 (roundMilli v / 1000))
      (pad3 (roundMilli v % 1000))).text = fixed3 v := by
    rw [fixed3_nonneg v hv]
    unfold Decimal.text
    have : (pad3 (roundMilli v % 1000)).isEmpty = false := by
      unfold pad3
      rfl
    simp [this]
  obtain ⟨h1, h2⟩ := scanNumber_decimal _ [] hd endsNumber_nil
  rw [List.append_nil, htext] at h1 h2
  have hval : decimalValue false (Nat.toDigits 10 (roundMilli v / 1000))
      (pad3 (roundMilli v % 1000)) 0 = (roundMilli v : Rat) / 1000 := by
    unfold decimalValue
    have hlen : (pad3 (roundMilli v % 1000)).length = 3 := rfl
    rw [digitsVal_append, digitsVal_toDigits, digitsVal_pad3 _ (Nat.mod_lt _ (by decide)), hlen]
    simp only [Bool.false_eq_true, if_false]
    have hm : roundMilli v / 1000 * 10 ^ 3 + roundMilli v % 1000 = roundMilli v := by
      have := Nat.div_add_mod (roundMilli v) 1000
      omega
    rw [hm]
    have hz : ((10 : Rat) ^ ((0 : Int) - ((3 : Nat) : Int))) = 1 / 1000 := by
      norm_num
    rw [hz]
    ring
  unfold stod
  simp only [h1, h2, NumTok.value, List.isEmpty_nil, if_true, hval,
    strtodERange_milli _ (roundMilli_finite v hv hfin), Bool.false_eq_true, if_false]
  rw [if_neg]
  intro he
  have : Nat.toDigits 10 (roundMilli v / 1000) ++ pad3 (roundMilli v % 1000) ≠ [] := by
    intro h0
    exact toDigits_ne_nil _ (List.append_eq_nil.mp h0).1
  exact this (List.isEmpty_iff.mp he)

theorem intText_nonneg (id : Int) (hid : 0 ≤ id) : intText id = Nat.toDigits 10 id.toNat := by
  unfold intText
  rw [if_neg (Int.not_lt.mpr hid)]
  congr 1
  omega

theorem isNumChar_of_digit (c : Char) (h : c.isDigit = true) : isNumChar c = true := by
  simp [isNumChar, h]

theorem fixed3_numChars (v : Double) (hv : 0 ≤ v) : (fixed3 v).all isNumChar = true := by
  rw [fixed3_nonneg v hv, List.all_append, List.all_cons]
  have h1 : (Nat.toDigits 10 (roundMilli v / 1000)).all isNumChar = true :=
    List.all_eq_true.mpr (fun c hc => isNumChar_of_digit c (toDigits_isDigit _ c hc))
  have h2 : (pad3 (roundMilli v % 1000)).all isNumChar = true :=
    List.all_eq_true.mpr (fun c hc =>
      isNumChar_of_digit c (List.all_eq_true.mp (pad3_isDigit _) c hc))
  rw [h1, h2]
  rfl

/-- The line `setSetting` writes holds the settings pattern at its start. -/
theorem setSettingCmd_settingAt (id : Int) (value : Double) (hid : 0 ≤ id) (hv : 0 ≤ value) :
    SettingAt (setSettingCmd id value) [] (Nat.toDigits 10 id.toNat) (fixed3 value) [] := by
  refine ⟨?_, toDigits_ne_nil _, toDigits_all_isDigit _, ?_, fixed3_numChars value hv, ?_⟩
  · unfold setSettingCmd
    rw [intText_nonneg id hid]
    simp
  · rw [fixed3_nonneg value hv]
    simp
  · intro c hc
    cases hc

theorem setSettingCmd_line (id : Int) (value : Double) (hid : 0 ≤ id) (hint : id ≤ 2 ^ 31 - 1)
    (hv : 0 ≤ value) (hfin : value ≤ dblMax) :
    parseSettingLine (setSettingCmd id value) =
      Except.ok (some { id := id, value := (roundMilli value : Rat) / 1000,
                        description := GrblController.getSettingDescription id }) := by
  have hat := setSettingCmd_settingAt id value hid hv
  have hs : searchSetting (setSettingCmd id value)
      = some (Nat.toDigits 10 id.toNat, fixed3 value) := by
    refine searchSetting_complete _ [] _ _ [] ⟨hat, ?_⟩
    intro pre2 _ _ _ _
    exact Nat.zero_le _
  have hdv : ((digitsVal (Nat.toDigits 10 id.toNat) : Nat) : Int) = id := by
    rw [digitsVal_toDigits]
    exact Int.toNat_of_nonneg hid
  have hi : stoi (Nat.toDigits 10 id.toNat) = Except.ok id := by
    rw [stoi_digits _ (toDigits_ne_nil _) (toDigits_all_isDigit _), hdv, if_neg (by omega)]
  unfold parseSettingLine
  rw [hs]
  simp only [hi, stod_fixed3 value hv hfin]

theorem setSettingCmd_no_newline (id : Int) (value : Double) (hid : 0 ≤ id) (hv : 0 ≤ value) :
    '\n' ∉ setSettingCmd id value ∧ setSettingCmd id value ≠ [] := by
  obtain ⟨e, _, hds, _, hvs, _⟩ := setSettingCmd_settingAt id value hid hv
  rw [e]
  constructor
  · intro hm
    simp only [List.nil_append, List.append_nil, List.mem_cons, List.mem_append] at hm
    rcases hm with h | h | h | h
    · exact absurd h (by decide)
    · have := List.all_eq_true.mp hds _ h
      exact absurd this (by decide)
    · exact absurd h (by decide)
    · have := List.all_eq_true.mp hvs _ h
      exact absurd this (by decide)
  · simp

/-- C28. For every id that is a non-negative `int` and every non-negative finite value,
`parseSettings` on the command line that `setSetting` builds, "$", the id, "=" and the
value with three decimals, returns exactly one entry: its id is the id, its value is
the value rounded to three decimals (a whole number of thousandths, within half a
thousandth of the value), and its description is the description of the table for
the id. -/
theorem setSetting_line_parses (id : Int) (value : Double) (hid : 0 ≤ id)
    (hint : id ≤ 2 ^ 31 - 1) (hv : 0 ≤ value) (hfin : value ≤ dblMax) :
    ∃ r : Double,
      GrblController.parseSettings (setSettingCmd id value) =
        Except.ok [{ id := id, value := r,
                     description := ((settingDescriptions.lookup id).map String.toList).getD
                       "Unknown setting".toList }] ∧
      (∃ k : Nat, r = (k : Rat) / 1000) ∧ |r - value| ≤ 1 / 2000 := by
  refine ⟨(roundMilli value : Rat) / 1000, ?_, ⟨roundMilli value, rfl⟩, ?_⟩
  · obtain ⟨h1, h2⟩ := setSettingCmd_no_newline id value hid hv
    unfold GrblController.parseSettings
    rw [getlines_last _ h1 h2]
    simp only [parseSettingLines, setSettingCmd_line id value hid hint hv hfin, List.nil_append,
      getSettingDescription_eq]
  · have h := (roundMilli_spec value hv).1
    rw [abs_le] at h ⊢
    constructor <;> linarith [h.1, h.2]

/-! ## Facts about reading a listing -/

/-- A line that arrives in time is what one `readLine` returns. -/
theorem readLine_timed (p : SerialPort) (l : TimedLine) (rest : List RxEvent)
    (hfd : 0 ≤ p.m_fd) (hrx : p.rx = l.events ++ rest) (hin : l.InTime) :
    p.readLine 500 =
      (l.text, { p with rx := rest, clock := p.clock + l.time,
                        log := p.log ++ [PortOp.readLine 500 l.text] }) := by
  have hfd2 : ¬ p.m_fd < 0 := Int.not_lt.mpr hfd
  have e : l.events ++ rest = arriving l.bytes ++ RxEvent.byte '\n' l.nl :: rest := by
    unfold TimedLine.events
    simp
  have hpre : ∀ i, i < l.bytes.length →
      ((0 + duration (l.bytes.take i) : Nat) : Int) < 500 := by
    intro i _
    have := duration_take_le l.bytes i
    have := hin.2
    omega
  unfold SerialPort.readLine
  rw [if_neg hfd2, hrx, e, readLineLoop_bytes 500 l.bytes _ [] 0 hin.1 hpre, readLineLoop,
    if_neg (by have := hin.2; omega)]
  simp [TimedLine.text, TimedLine.time]

theorem write_keeps (p : SerialPort) (data : Str) :
    (p.write data).2.rx = p.rx ∧ (p.write data).2.clock = p.clock := by
  unfold SerialPort.write
  split
  · exact ⟨rfl, rfl⟩
  · simp only []
    split <;> split <;> exact ⟨rfl, rfl⟩

theorem listing_cons (l : TimedLine) (ls : List TimedLine) :
    listing (l :: ls) = l.events ++ listing ls := by
  simp [listing]

theorem listingTime_cons (l : TimedLine) (ls : List TimedLine) :
    listingTime (l :: ls) = l.time + listingTime ls := by
  simp [listingTime]

theorem joinedLines_cons (t : Str) (ts : List Str) :
    joinedLines (t :: ts) = t ++ '\n' :: joinedLines ts := by
  simp [joinedLines]

theorem joinedLines_append (a b : List Str) :
    joinedLines (a ++ b) = joinedLines a ++ joinedLines b := by
  simp [joinedLines]

/-- The lines of a text made of lines are these lines. -/
theorem getlines_joinedLines (texts : List Str) (h : ∀ t ∈ texts, '\n' ∉ t) :
    getlines (joinedLines texts) = texts := by
  induction texts with
  | nil => rfl
  | cons t ts ih =>
    rw [joinedLines_cons, getlines_line t _ (h t (List.mem_cons_self _ _)),
      ih (fun u hu => h u (List.mem_cons_of_mem _ hu))]

theorem text_no_newline (l : TimedLine) (hin : l.InTime) : '\n' ∉ l.text :=
  fun hm => not_mem_bytesOf l.bytes hin.1 (stripCR_subset _ _ hm)

/-- The settings loop on a listing of non-empty lines without "ok" that arrive in time
and within the five seconds, followed by a line with "ok": all the lines are gathered. -/
theorem getSettingsLoop_listing (startTime : Nat) (okl : TimedLine) (rest : List RxEvent)
    (hok : okl.InTime) (hokt : containsStr "ok".toList okl.text = true) (hokne : okl.text ≠ []) :
    ∀ (ls : List TimedLine) (turns : Nat) (allResponse : Str) (p : SerialPort),
      0 ≤ p.m_fd → p.rx = listing ls ++ (okl.events ++ rest) →
      (∀ l ∈ ls, l.InTime ∧ l.text ≠ [] ∧ containsStr "ok".toList l.text = false) →
      ls.length < turns → p.clock + listingTime ls ≤ startTime + 5000 →
      (getSettingsLoop startTime turns allResponse p).1
        = allResponse ++ joinedLines (ls.map TimedLine.text ++ [okl.text]) := by
  intro ls
  induction ls with
  | nil =>
    intro turns allResponse p hfd hrx _ hturns _
    obtain ⟨n, rfl⟩ : ∃ n, turns = n + 1 := ⟨turns - 1, by simp at hturns; omega⟩
    simp only [listing, List.map_nil, List.flatten_nil, List.nil_append] at hrx
    rw [getSettingsLoop]
    simp only [readLine_timed p okl rest hfd hrx hok]
    have he : okl.text.isEmpty = false := by
      cases h : okl.text with
      | nil => exact absurd h hokne
      | cons a t => rfl
    simp only [he, Bool.false_eq_true, if_false, hokt, if_true]
    simp [joinedLines]
  | cons l ls ih =>
    intro turns allResponse p hfd hrx hls hturns htime
    obtain ⟨n, rfl⟩ : ∃ n, turns = n + 1 := ⟨turns - 1, by simp at hturns; omega⟩
    obtain ⟨hin, hne, hnok⟩ := hls l (List.mem_cons_self _ _)
    rw [listing_cons, List.append_assoc] at hrx
    rw [listingTime_cons] at htime
    have he : l.text.isEmpty = false := by
      cases h : l.text with
      | nil => exact absurd h hne
      | cons a t => rfl
    rw [getSettingsLoop]
    simp only [readLine_timed p l _ hfd hrx hin, he, Bool.false_eq_true, if_false, hnok]
    rw [if_neg (by omega)]
    have hstep := ih n (allResponse ++ l.text ++ ['\n'])
      { p with rx := listing ls ++ (okl.events ++ rest), clock := p.clock + l.time,
               log := p.log ++ [PortOp.readLine 500 l.text] }
      hfd rfl (fun l2 h2 => hls l2 (List.mem_cons_of_mem _ h2))
      (by simp at hturns; omega) (by simp only []; omega)
    rw [hstep]
    simp [joinedLines]

theorem listing_length (ls : List TimedLine) : ls.length ≤ (listing ls).length := by
  induction ls with
  | nil => simp
  | cons l ls ih =>
    rw [listing_cons, List.length_append, List.length_cons]
    have : 1 ≤ l.events.length := by
      unfold TimedLine.events
      simp
    omega

/-- C25, as the code has it. On a connected session whose transport is open, when the
device answers "$$" with a listing of lines that are not empty and hold no "ok", each
arriving within the 500 ms of its read and all of them within five seconds, followed by
a line that holds "ok", and the numbers of the lines convert (an id fits the type
`int`, `std::stod` converts a value), `getSettings` gathers all these lines and
returns, in line order, one entry for every line that holds the pattern
`$<id>=<value>` and none for any other line. -/
theorem getSettings_listing (s : GrblController) (p : SerialPort) (ls : List TimedLine)
    (okl : TimedLine) (rest : List RxEvent)
    (hc : s.m_connected = true) (hs : s.m_serial = some p) (hfd : 0 ≤ p.m_fd)
    (hrx : p.rx = listing ls ++ (okl.events ++ rest))
    (hls : ∀ l ∈ ls, l.InTime ∧ l.text ≠ [] ∧ ¬ "ok".toList <:+: l.text)
    (hok : okl.InTime) (hokt : "ok".toList <:+: okl.text) (htime : listingTime ls ≤ 5000)
    (hconv : ∀ line ∈ ls.map TimedLine.text ++ [okl.text], ∀ pre ds v post,
      LeftmostSetting line pre ds v post →
      (digitsVal ds : Int) ≤ 2 ^ 31 - 1 ∧ ∃ val, stod v = Except.ok val) :
    ∃ entries, (s.getSettings).1 = Except.ok entries ∧
      Parsed (ls.map TimedLine.text ++ [okl.text]) entries := by
  obtain ⟨w1, w2⟩ := write_keeps p "$$".toList
  have wfd := write_fd p "$$".toList
  have hokne : okl.text ≠ [] := by
    intro h0
    rw [h0] at hokt
    exact absurd (List.eq_nil_of_infix_nil hokt) (by decide)
  have hloop := getSettingsLoop_listing (p.write "$$".toList).2.clock okl rest hok
    ((containsStr_iff_occurs _ _).mpr hokt) hokne ls ((p.write "$$".toList).2.rx.length + 1) []
    (p.write "$$".toList).2 (by rw [wfd]; exact hfd) (by rw [w1]; exact hrx)
    (fun l hl => ⟨(hls l hl).1, (hls l hl).2.1, by
      cases hcs : containsStr "ok".toList l.text
      · rfl
      · exact absurd ((containsStr_iff_occurs _ _).mp hcs) (hls l hl).2.2⟩)
    (by
      rw [w1, hrx, List.length_append]
      have := listing_length ls
      omega)
    (by omega)
  have hlines : getlines (joinedLines (ls.map TimedLine.text ++ [okl.text]))
      = ls.map TimedLine.text ++ [okl.text] := by
    apply getlines_joinedLines
    intro t ht
    rcases List.mem_append.mp ht with ht | ht
    · obtain ⟨l, hl, rfl⟩ := List.mem_map.mp ht
      exact text_no_newline l (hls l hl).1
    · rw [List.mem_singleton] at ht
      rw [ht]
      exact text_no_newline okl hok
  obtain ⟨entries, h1, h2⟩ := parseSettingLines_spec _ [] hconv
  refine ⟨entries, ?_, h2⟩
  unfold GrblController.getSettings
  simp only [hc, hs]
  rw [hloop, List.nil_append]
  unfold GrblController.parseSettings
  rw [hlines, h1, List.nil_append]

/-- C25 on a device that lists "$0=10" and "$100=250.000" and then sends "ok", one
byte every millisecond: both lines yield their entry. -/
theorem getSettings_listing_witness :
    ((sessionOn (devicePort "$0=10\r\n$100=250.000\r\nok\r\n".toList 1)).getSettings).1
      = Except.ok [{ id := 0, value := 10, description := "Step pulse time (microseconds)".toList },
                   { id := 100, value := 250, description := "X-axis steps per millimeter".toList }] ∧
    (∃ entries,
      ((sessionOn (devicePort "$0=10\r\n$100=250.000\r\nok\r\n".toList 1)).getSettings).1
        = Except.ok entries ∧
      Parsed ([timedLine "$0=10\r".toList 1, timedLine "$100=250.000\r".toList 1].map
        TimedLine.text ++ [(timedLine "ok\r".toList 1).text]) entries) := by
  refine ⟨by decide!, getSettings_listing _ (devicePort "$0=10\r\n$100=250.000\r\nok\r\n".toList 1)
    [timedLine "$0=10\r".toList 1, timedLine "$100=250.000\r".toList 1]
    (timedLine "ok\r".toList 1) [] rfl rfl (by decide) (by decide) ?_ (by decide)
    ((containsStr_iff_occurs _ _).mp (by decide)) (by decide) ?_⟩
  · intro l hl
    rcases List.mem_cons.mp hl with rfl | hl
    · exact ⟨by decide, by decide,
        fun hi => absurd ((containsStr_iff_occurs _ _).mpr hi) (by decide)⟩
    · rcases List.mem_cons.mp hl with rfl | hl
      · exact ⟨by decide, by decide,
          fun hi => absurd ((containsStr_iff_occurs _ _).mpr hi) (by decide)⟩
      · cases hl
  · intro line hline pre ds v post hleft
    have hs := searchSetting_complete line pre ds v post hleft
    have hl : line = "$0=10".toList ∨ line = "$100=250.000".toList ∨ line = "ok".toList := by
      have e : [timedLine "$0=10\r".toList 1, timedLine "$100=250.000\r".toList 1].map
          TimedLine.text ++ [(timedLine "ok\r".toList 1).text]
          = ["$0=10".toList, "$100=250.000".toList, "ok".toList] := by decide
      rw [e] at hline
      simpa using hline
    rcases hl with rfl | rfl | rfl
    · have e : searchSetting "$0=10".toList = some ("0".toList, "10".toList) := by decide
      rw [e] at hs
      obtain ⟨rfl, rfl⟩ := Prod.mk.inj (Option.some.inj hs)
      exact ⟨by decide, 10, by decide!⟩
    · have e : searchSetting "$100=250.000".toList = some ("100".toList, "250.000".toList) := by
        decide
      rw [e] at hs
      obtain ⟨rfl, rfl⟩ := Prod.mk.inj (Option.some.inj hs)
      exact ⟨by decide, 250, by decide!⟩
    · have e : searchSetting "ok".toList = none := by decide
      rw [e] at hs
      exact absurd hs (by simp)

/-- C25 as stated fails: the device lists "$0=10", an empty line, "$100=250.000" and
then "ok", all within 23 milliseconds. The line "$100=250.000" precedes the "ok" line
and holds the pattern, but the empty line has ended the reading: the result has the
entry of "$0=10" only. A read that times out after 500 ms of silence ends it the same
way. -/
theorem getSettings_empty_line_counterexample :
    ((sessionOn (devicePort "$0=10\r\n\r\n$100=250.000\r\nok\r\n".toList 1)).getSettings).1
      = Except.ok [{ id := 0, value := 10, description := "Step pulse time (microseconds)".toList }] ∧
    ((sessionOn { devicePort [] 1 with
        rx := ("$0=10\r\n".toList.map (fun c => RxEvent.byte c 1)) ++ RxEvent.quiet 500 ::
              ("$100=250.000\r\nok\r\n".toList.map (fun c => RxEvent.byte c 1)) }).getSettings).1
      = Except.ok [{ id := 0, value := 10, description := "Step pulse time (microseconds)".toList }] := by
  decide!

/-- C28 for the id 100 and the value 250: the line is "$100=250.000" and its parse is the
one entry (100, 250, "X-axis steps per millimeter"). -/
theorem setSetting_line_parses_witness :
    setSettingCmd 100 250 = "$100=250.000".toList ∧
    (∃ r : Double,
      GrblController.parseSettings (setSettingCmd 100 250) =
        Except.ok [{ id := 100, value := r,
                     description := ((settingDescriptions.lookup 100).map String.toList).getD
                       "Unknown setting".toList }] ∧
      (∃ k : Nat, r = (k : Rat) / 1000) ∧ |r - 250| ≤ 1 / 2000) :=
  ⟨by decide!, setSetting_line_parses 100 250 (by decide) (by decide) (by decide!)
    (by unfold dblMax; norm_num)⟩

/-- C23 on a device that sends "ok", a carriage return and a newline and then "$0": the
line is "ok", and the bytes after the newline are still to come. -/
theorem readLine_line_witness :
    ((devicePort "ok\r\n$0".toList 1).readLine 500).1 = "ok".toList ∧
    (bytesOf [('o', 1), ('k', 1), ('\r', 1)]
        = ((devicePort "ok\r\n$0".toList 1).readLine 500).1 ++ ['\r'] ∧
      ((devicePort "ok\r\n$0".toList 1).readLine 500).2.rx
        = [RxEvent.byte '$' 1, RxEvent.byte '0' 1] ∧
      '\n' ∉ ((devicePort "ok\r\n$0".toList 1).readLine 500).1) :=
  ⟨by decide,
   (readLine_line (devicePort "ok\r\n$0".toList 1) 500 [('o', 1), ('k', 1), ('\r', 1)]
      [RxEvent.byte '$' 1, RxEvent.byte '0' 1] (by decide) (by decide)).1 1 (by decide)
      (by decide) (by decide)⟩

end crsdk_rest
